import Mathlib

/-!
Assigno: group membership registry and submission workflow.

A shallow embedding of the backend controllers
(`controllers/groupController.js`, `controllers/submissionController.js`, `createAssignment`
of `controllers/assignmentController.js`) and of the maintenance script
`cleanupDeletedUsers.js`.

Conventions of the embedding.

* Mongo ObjectIds are natural numbers; `a.toString() === b` on ids is equality.
* A reference that may be `null` (a member whose `userId` is null, a populated path whose
  target is gone) is an `Option`.
* `new Date()` is a parameter `now`.
* A handler returns its HTTP status together with the document(s) as stored afterwards.
  An exception thrown inside a handler is `Except.error ()`; the handler's `catch` turns it
  into status 500 and nothing is written.
* `Group.create`, `Submission.create` and `fs.unlink` are taken to succeed, and so is
  `save()` in the membership and submission handlers, which act on documents the handlers
  created. The two repair paths, the sweep and `getGroupDetails`, also meet documents
  without `creatorId` (the sweep tests `if (group.creatorId)`): there `save()` is refused,
  because the schema requires the field, see `saveAccepts`.
* Document counts are natural numbers. A Number that results from a division or a product
  is the rational it denotes, rounded to binary64 by `toDouble`.
-/

namespace Assigno

abbrev UserId := Nat

/-! ## Users (models/User.js) -/

inductive UserRole
  | student
  | admin
deriving DecidableEq, Repr

structure User where
  id : UserId
  email : String
  fullName : String
  role : UserRole
  studentId : Option String
deriving DecidableEq, Repr

/-- The query `User.findById(id)`. -/
def findById (users : List User) (id : UserId) : Option User :=
  users.find? (fun u => u.id == id)

/-- The query `User.findOne` of `addGroupMember`: the first user whose `email` or `studentId`
equals the given text and whose `role` is student. -/
def findStudent (users : List User) (emailOrStudentId : String) : Option User :=
  users.find? (fun u =>
    (u.email == emailOrStudentId || u.studentId == some emailOrStudentId) &&
      u.role == UserRole.student)

/-! ## Group aggregate (models/Group.js) -/

inductive Role
  | admin
  | member
deriving DecidableEq, Repr

structure Member where
  userId : Option UserId
  role : Role
  joinedAt : Nat
deriving DecidableEq, Repr

structure JoinRequest where
  userId : Option UserId
  requestedAt : Nat
  message : String
deriving DecidableEq, Repr

/-- One entry of `announcements`. -/
structure Announcement where
  id : Nat
  title : String
  content : String
  createdBy : UserId
  createdAt : Nat
  isPinned : Bool
deriving DecidableEq, Repr

structure Group where
  id : Nat
  name : String
  creatorId : Option UserId
  members : List Member
  joinRequests : List JoinRequest
  isPublic : Bool
  maxMembers : Nat
  lastActivityAt : Nat
  activityCount : Nat
  announcements : List Announcement := []
deriving DecidableEq, Repr

/-- The comparison `x.toString() === uid`; a TypeError when `x` is null. -/
def idIs (x : Option UserId) (uid : UserId) : Except Unit Bool :=
  match x with
  | none => Except.error ()
  | some i => Except.ok (i == uid)

/-- The call `xs.some(p)` for a callback that may throw: the scan stops at the first hit. -/
def someE {α : Type} (p : α → Except Unit Bool) : List α → Except Unit Bool
  | [] => Except.ok false
  | x :: xs =>
    match p x with
    | Except.error e => Except.error e
    | Except.ok true => Except.ok true
    | Except.ok false => someE p xs

/-- The call `xs.find(p)` for a callback that may throw. -/
def findE {α : Type} (p : α → Except Unit Bool) : List α → Except Unit (Option α)
  | [] => Except.ok none
  | x :: xs =>
    match p x with
    | Except.error e => Except.error e
    | Except.ok true => Except.ok (some x)
    | Except.ok false => findE p xs

/-- The call `xs.findIndex(p)` for a callback that may throw; `none` stands for `-1`. -/
def findIndexE {α : Type} (p : α → Except Unit Bool) : List α → Except Unit (Option Nat)
  | [] => Except.ok none
  | x :: xs =>
    match p x with
    | Except.error e => Except.error e
    | Except.ok true => Except.ok (some 0)
    | Except.ok false =>
      match findIndexE p xs with
      | Except.error e => Except.error e
      | Except.ok none => Except.ok none
      | Except.ok (some i) => Except.ok (some (i + 1))

/-- The call `xs.filter(p)` for a callback that may throw: every element is visited. -/
def filterE {α : Type} (p : α → Except Unit Bool) : List α → Except Unit (List α)
  | [] => Except.ok []
  | x :: xs =>
    match p x with
    | Except.error e => Except.error e
    | Except.ok b =>
      match filterE p xs with
      | Except.error e => Except.error e
      | Except.ok ys => Except.ok (if b then x :: ys else ys)

/-- The JSON reply of a handler: the HTTP status and the text of its `error` or `message`
field. -/
structure Reply where
  status : Nat
  text : String
deriving DecidableEq, Repr

/-- Validation inside `save()` on a loaded group document: `creatorId` is `required` in
the schema, so a document without it is refused with a ValidationError and nothing is
written. A reference to a deleted user is still a value and passes. The other validated
fields (`name`, the `maxMembers` range) are taken to hold of stored documents. -/
def saveAccepts (group : Group) : Bool :=
  group.creatorId.isSome

/-- The method `groupSchema.methods.updateActivity`, up to the `save()`. -/
def updateActivity (now : Nat) (g : Group) : Group :=
  { g with lastActivityAt := now, activityCount := g.activityCount + 1 }

/-- The admin gate shared by the admin-only handlers:
`requestorMember = members.find(m => m.userId.toString() === actor)`, then
`!requestorMember || requestorMember.role !== admin`. The result is `true` when the gate
rejects. -/
def notAdmin (g : Group) (actor : UserId) : Except Unit Bool :=
  match findE (fun m : Member => idIs m.userId actor) g.members with
  | Except.error e => Except.error e
  | Except.ok none => Except.ok true
  | Except.ok (some m) => Except.ok (m.role != Role.admin)

/-! ## Group handlers (controllers/groupController.js) -/

/-- Body of a `createGroup` request. -/
structure CreateGroupBody where
  name : String
  isPublic : Option Bool
  maxMembers : Option Nat
deriving DecidableEq, Repr

/-- Handler `createGroup`: the creator is the first member, with role admin. `newId` is the
id the store gives the document. The schema bounds `maxMembers` to 2..100; a violation makes
`Group.create` throw, which the handler answers with 500. -/
def createGroup (newId : Nat) (now : Nat) (creatorId : UserId) (body : CreateGroupBody) :
    Reply × Option Group :=
  let maxMembers := match body.maxMembers with
    | none => 50
    | some n => if n = 0 then 50 else n
  if maxMembers < 2 ∨ 100 < maxMembers then (⟨500, "Failed to create group"⟩, none)
  else
    (⟨201, "Group created successfully"⟩, some
      { id := newId
        name := body.name
        creatorId := some creatorId
        members := [{ userId := some creatorId, role := Role.admin, joinedAt := now }]
        joinRequests := []
        isPublic := match body.isPublic with
          | none => true
          | some b => b
        maxMembers := maxMembers
        lastActivityAt := now
        activityCount := 1 })

/-- Handler `addGroupMember` on a group that was found. -/
def addGroupMember (users : List User) (now : Nat) (g : Group) (actor : UserId)
    (emailOrStudentId : String) : Reply × Group :=
  match notAdmin g actor with
  | Except.error _ => (⟨500, "Failed to add member"⟩, g)
  | Except.ok true => (⟨403, "Only group admins can add members"⟩, g)
  | Except.ok false =>
    match findStudent users emailOrStudentId with
    | none => (⟨404, "Student not found"⟩, g)
    | some user =>
      match someE (fun m : Member => idIs m.userId user.id) g.members with
      | Except.error _ => (⟨500, "Failed to add member"⟩, g)
      | Except.ok true => (⟨400, "User is already a member"⟩, g)
      | Except.ok false =>
        if g.members.length ≥ g.maxMembers then (⟨400, "Group is full"⟩, g)
        else
          (⟨200, "Member added successfully"⟩, updateActivity now
            { g with members :=
                g.members ++ [{ userId := some user.id, role := Role.member, joinedAt := now }] })

/-- Handler `removeGroupMember` on a group that was found. -/
def removeGroupMember (g : Group) (actor : UserId) (userId : UserId) : Reply × Group :=
  match notAdmin g actor with
  | Except.error _ => (⟨500, "Failed to remove member"⟩, g)
  | Except.ok true => (⟨403, "Only group admins can remove members"⟩, g)
  | Except.ok false =>
    match g.creatorId with
    | none => (⟨500, "Failed to remove member"⟩, g)
    | some c =>
      if userId = c then (⟨400, "Cannot remove group creator"⟩, g)
      else
        match filterE (fun m : Member => (idIs m.userId userId).map (fun b => !b)) g.members with
        | Except.error _ => (⟨500, "Failed to remove member"⟩, g)
        | Except.ok ms => (⟨200, "Member removed successfully"⟩, { g with members := ms })

/-- Handler `requestJoinGroup` on a group that was found. -/
def requestJoinGroup (now : Nat) (g : Group) (userId : UserId) (message : String) :
    Reply × Group :=
  if !g.isPublic then (⟨403, "This group is private"⟩, g)
  else
    match someE (fun m : Member => idIs m.userId userId) g.members with
    | Except.error _ => (⟨500, "Failed to send join request"⟩, g)
    | Except.ok true => (⟨400, "You are already a member of this group"⟩, g)
    | Except.ok false =>
      match someE (fun r : JoinRequest => idIs r.userId userId) g.joinRequests with
      | Except.error _ => (⟨500, "Failed to send join request"⟩, g)
      | Except.ok true => (⟨400, "You already have a pending request"⟩, g)
      | Except.ok false =>
        if g.members.length ≥ g.maxMembers then (⟨400, "Group is full"⟩, g)
        else
          (⟨200, "Join request sent successfully"⟩, { g with joinRequests :=
            g.joinRequests ++ [{ userId := some userId, requestedAt := now, message := message }] })

/-- Handler `approveJoinRequest` on a group that was found. -/
def approveJoinRequest (now : Nat) (g : Group) (actor : UserId) (userId : UserId) :
    Reply × Group :=
  match notAdmin g actor with
  | Except.error _ => (⟨500, "Failed to approve request"⟩, g)
  | Except.ok true => (⟨403, "Only group admins can approve requests"⟩, g)
  | Except.ok false =>
    if g.members.length ≥ g.maxMembers then (⟨400, "Group is full"⟩, g)
    else
      match findIndexE (fun r : JoinRequest => idIs r.userId userId) g.joinRequests with
      | Except.error _ => (⟨500, "Failed to approve request"⟩, g)
      | Except.ok none => (⟨404, "Join request not found"⟩, g)
      | Except.ok (some requestIndex) =>
        (⟨200, "Join request approved"⟩, updateActivity now
          { g with
            joinRequests := g.joinRequests.eraseIdx requestIndex
            members :=
              g.members ++ [{ userId := some userId, role := Role.member, joinedAt := now }] })

/-- Handler `rejectJoinRequest` on a group that was found. -/
def rejectJoinRequest (g : Group) (actor : UserId) (userId : UserId) : Reply × Group :=
  match notAdmin g actor with
  | Except.error _ => (⟨500, "Failed to reject request"⟩, g)
  | Except.ok true => (⟨403, "Only group admins can reject requests"⟩, g)
  | Except.ok false =>
    match findIndexE (fun r : JoinRequest => idIs r.userId userId) g.joinRequests with
    | Except.error _ => (⟨500, "Failed to reject request"⟩, g)
    | Except.ok none => (⟨404, "Join request not found"⟩, g)
    | Except.ok (some requestIndex) =>
      (⟨200, "Join request rejected"⟩,
        { g with joinRequests := g.joinRequests.eraseIdx requestIndex })

/-- Handler `createAnnouncement` on a group that was found. `newId` is the id the store gives
the new entry. `title` and `content` are as the route validators leave them (trimmed and not
empty), so the schema's `required` holds when `updateActivity` saves. -/
def createAnnouncement (newId : Nat) (now : Nat) (g : Group) (userId : UserId)
    (title content : String) (isPinned : Option Bool) : Reply × Group :=
  match notAdmin g userId with
  | Except.error _ => (⟨500, "Failed to create announcement"⟩, g)
  | Except.ok true => (⟨403, "Only group admins can create announcements"⟩, g)
  | Except.ok false =>
    (⟨201, "Announcement created"⟩, updateActivity now
      { g with announcements :=
          g.announcements ++
            [{ id := newId, title := title, content := content, createdBy := userId,
               createdAt := now,
               isPinned := match isPinned with
                 | none => false
                 | some b => b }] })

/-- Handler `deleteAnnouncement` on a group that was found. -/
def deleteAnnouncement (g : Group) (userId : UserId) (announcementId : Nat) : Reply × Group :=
  match notAdmin g userId with
  | Except.error _ => (⟨500, "Failed to delete announcement"⟩, g)
  | Except.ok true => (⟨403, "Only group admins can delete announcements"⟩, g)
  | Except.ok false =>
    (⟨200, "Announcement deleted"⟩,
      { g with announcements := g.announcements.filter (fun a => a.id != announcementId) })

/-- One request against an existing group, by one of the five membership handlers. -/
inductive GroupCall
  | requestJoinGroup (now : Nat) (userId : UserId) (message : String)
  | approveJoinRequest (now : Nat) (actor : UserId) (userId : UserId)
  | rejectJoinRequest (actor : UserId) (userId : UserId)
  | addGroupMember (now : Nat) (actor : UserId) (emailOrStudentId : String)
  | removeGroupMember (actor : UserId) (userId : UserId)
deriving DecidableEq, Repr

/-- The stored group after one call. -/
def applyCall (users : List User) (g : Group) : GroupCall → Group
  | GroupCall.requestJoinGroup now userId message => (requestJoinGroup now g userId message).2
  | GroupCall.approveJoinRequest now actor userId => (approveJoinRequest now g actor userId).2
  | GroupCall.rejectJoinRequest actor userId => (rejectJoinRequest g actor userId).2
  | GroupCall.addGroupMember now actor e => (addGroupMember users now g actor e).2
  | GroupCall.removeGroupMember actor userId => (removeGroupMember g actor userId).2

/-- The stored group after a sequence of calls, oldest first. -/
def applyCalls (users : List User) (g : Group) (calls : List GroupCall) : Group :=
  calls.foldl (applyCall users) g

/-- The populated view of `members.userId`: the user document, or null when the reference
does not resolve. -/
structure PopulatedMember where
  userId : Option User
  role : Role
  joinedAt : Nat
deriving DecidableEq, Repr

/-- The call `populate(members.userId, ...)` on one member. -/
def populateMember (users : List User) (m : Member) : PopulatedMember :=
  { userId := m.userId.bind (findById users), role := m.role, joinedAt := m.joinedAt }

/-- What `save()` writes for a populated member: the reference, not the document. -/
def depopulate (m : PopulatedMember) : Member :=
  { userId := m.userId.map (fun u => u.id), role := m.role, joinedAt := m.joinedAt }

/-- One row of the `members` array in the reply of `getGroupDetails`. -/
structure MemberView where
  id : UserId
  email : String
  full_name : String
  student_id : Option String
  role : Role
  joined_at : Nat
deriving DecidableEq, Repr

/-- Reply of `getGroupDetails`: the status, the `error` text if any and, on 200, the member
rows. -/
structure GroupDetailsReply where
  status : Nat
  error : String
  members : List MemberView
deriving DecidableEq, Repr

/-- Handler `getGroupDetails`. `stored` is the document `Group.findById(groupId)` finds, if
any; the result is the reply and the document as stored afterwards. The handler populates
`members.userId`, drops the members whose populated `userId` is null, saves when that
shortened the list, and only then checks that the caller is a member. When that `save()`
is refused the `catch` answers 500 and the document stays as it was. -/
def getGroupDetails (users : List User) (stored : Option Group) (userId : UserId) :
    GroupDetailsReply × Option Group :=
  match stored with
  | none => ({ status := 404, error := "Group not found", members := [] }, none)
  | some group =>
    let populated := group.members.map (populateMember users)
    let validMembers := populated.filter (fun m => m.userId.isSome)
    let changed := validMembers.length != populated.length
    if changed && !saveAccepts group then
      ({ status := 500, error := "Failed to fetch group details", members := [] }, some group)
    else
      let members := if changed then validMembers else populated
      let after : Group :=
        if changed then { group with members := validMembers.map depopulate } else group
      let isMember := members.any (fun m =>
        match m.userId with
        | none => false
        | some u => u.id == userId)
      if !isMember then
        ({ status := 403, error := "You are not a member of this group", members := [] },
          some after)
      else
        ({ status := 200
           error := ""
           members := members.filterMap (fun m =>
             m.userId.map (fun u =>
               { id := u.id, email := u.email, full_name := u.fullName,
                 student_id := u.studentId, role := m.role, joined_at := m.joinedAt })) },
         some after)

/-! ## Integrity repair (cleanupDeletedUsers.js) -/

/-- The in-place write `anyMember.role = admin` on the element
`members.find(m => m.userId)` returned: the first member with a non-null `userId`. -/
def promoteFirst : List Member → List Member
  | [] => []
  | m :: ms =>
    if m.userId.isSome then { m with role := Role.admin } :: ms else m :: promoteFirst ms

/-- Lines 34-63 of the per-group body: the creator check and the ownership transfer. The
result is the group in memory and the `groupModified` flag. -/
def transferOwnership (users : List User) (group : Group) : Group × Bool :=
  match group.creatorId with
  | none => (group, false)
  | some creatorId =>
    match findById users creatorId with
    | some _ => (group, false)
    | none =>
      match group.members.find? (fun m => m.role == Role.admin && m.userId.isSome) with
      | some adminMember =>
        match adminMember.userId.bind (findById users) with
        | some _ => ({ group with creatorId := adminMember.userId }, true)
        | none => (group, false)
      | none =>
        match group.members.find? (fun m => m.userId.isSome) with
        | some anyMember =>
          match anyMember.userId.bind (findById users) with
          | some _ =>
            ({ group with creatorId := anyMember.userId, members := promoteFirst group.members },
              true)
          | none => (group, false)
        | none => (group, false)

/-- The two nested tests of the cleanup loops on a reference: it is non-null and
`User.findById` finds it. -/
def resolves (users : List User) (x : Option UserId) : Bool :=
  match x with
  | none => false
  | some u => (findById users u).isSome

/-- The test of the member loop: `member.userId` is non-null and `User.findById` finds it. -/
def memberValid (users : List User) (m : Member) : Bool :=
  resolves users m.userId

/-- The test of the join-request loop. -/
def requestValid (users : List User) (r : JoinRequest) : Bool :=
  resolves users r.userId

/-- Lines 65-85 of the per-group body: keep the members that resolve; the list is replaced
(and the flag raised) when that changed its length. The state is the group in memory and
the `groupModified` flag. -/
def cleanMembers (users : List User) (originalMemberCount : Nat) (st : Group × Bool) :
    Group × Bool :=
  let validMembers := st.1.members.filter (memberValid users)
  if validMembers.length != originalMemberCount then
    ({ st.1 with members := validMembers }, true)
  else st

/-- Lines 87-107 of the per-group body: the same for the join requests. -/
def cleanRequests (users : List User) (originalRequestCount : Nat) (st : Group × Bool) :
    Group × Bool :=
  let validRequests := st.1.joinRequests.filter (requestValid users)
  if validRequests.length != originalRequestCount then
    ({ st.1 with joinRequests := validRequests }, true)
  else st

/-- The per-group body of the loop in `cleanupDeletedUsers` (lines 29-107), up to the point
where the group is deleted or saved: the group in memory and the `groupModified` flag. -/
def cleanupInMemory (users : List User) (group : Group) : Group × Bool :=
  let originalMemberCount := group.members.length
  let originalRequestCount := group.joinRequests.length
  cleanRequests users originalRequestCount
    (cleanMembers users originalMemberCount (transferOwnership users group))

/-- The per-group body of `cleanupDeletedUsers` (lines 29-123): `Except.ok` of the document
as stored afterwards, `none` when `Group.findByIdAndDelete` removed it; `Except.error` when
`group.save()` is refused and throws. An unmodified group is not saved. -/
def cleanupStep (users : List User) (group : Group) : Except Unit (Option Group) :=
  let (g, groupModified) := cleanupInMemory users group
  if g.members.length == 0 then Except.ok none
  else if groupModified then
    if saveAccepts g then Except.ok (some g) else Except.error ()
  else Except.ok (some group)

/-- What the store holds for the group after the per-group body ran on it: a refused
`save()` leaves the document as it was. -/
def cleanupGroup (users : List User) (group : Group) : Option Group :=
  match cleanupStep users group with
  | Except.ok stored => stored
  | Except.error _ => some group

/-- The sweep `cleanupDeletedUsers` over the whole collection. The `try` encloses the loop,
so a `save()` that throws ends the sweep: that group and the groups after it stay as they
were. -/
def cleanupDeletedUsers (users : List User) : List Group → List Group
  | [] => []
  | group :: rest =>
    match cleanupStep users group with
    | Except.ok none => cleanupDeletedUsers users rest
    | Except.ok (some g) => g :: cleanupDeletedUsers users rest
    | Except.error _ => group :: rest

/-- Running the per-group repair on a stored document that may already be gone. -/
def cleanupStored (users : List User) (stored : Option Group) : Option Group :=
  stored.bind (cleanupGroup users)

/-! ## Submission aggregate (models/Submission.js, models/Assignment.js) -/

inductive Status
  | pending
  | submitted
  | reviewed
  | graded
deriving DecidableEq, Repr

/-- One entry of `uploadedFiles`. -/
structure UploadedFile where
  filename : String
  originalName : String
  path : String
  mimetype : String
  size : Nat
  uploadedAt : Nat
deriving DecidableEq, Repr

structure Submission where
  id : Nat
  assignmentId : Nat
  groupId : Nat
  submittedBy : UserId
  status : Status
  submissionNotes : Option String
  uploadedFiles : List UploadedFile
  grade : Option ℚ
  feedback : Option String
  reviewedBy : Option UserId
  reviewedAt : Option Nat
  submittedAt : Option Nat
deriving DecidableEq, Repr

structure Assignment where
  id : Nat
  title : String
  isForAll : Bool
  assignedGroups : List Nat
deriving DecidableEq, Repr

/-- One entry of `req.files`, as the upload middleware left it on disk. -/
structure ReqFile where
  filename : String
  originalname : String
  path : String
  mimetype : String
  size : Nat
deriving DecidableEq, Repr

/-- The collections the submission handlers read and write, and the paths present in the
upload directory. -/
structure World where
  groups : List Group
  assignments : List Assignment
  submissions : List Submission
  files : List String
deriving DecidableEq, Repr

/-- The call `fs.unlink(path)`. -/
def unlink (path : String) (files : List String) : List String :=
  files.filter (fun q => q != path)

/-- The loop `paths.forEach(p => fs.unlink(p))`. -/
def unlinkAll (paths : List String) (files : List String) : List String :=
  paths.foldl (fun acc p => unlink p acc) files

/-- The query `Group.findById(groupId)`. -/
def findGroup (groups : List Group) (groupId : Nat) : Option Group :=
  groups.find? (fun g => g.id == groupId)

/-- The query `Assignment.findById(assignmentId)`. -/
def findAssignment (assignments : List Assignment) (assignmentId : Nat) : Option Assignment :=
  assignments.find? (fun a => a.id == assignmentId)

/-- The query `Submission.findOne` on the pair `assignmentId`, `groupId`. -/
def findSubmission (submissions : List Submission) (assignmentId groupId : Nat) :
    Option Submission :=
  submissions.find? (fun s => s.assignmentId == assignmentId && s.groupId == groupId)

/-- The query `Submission.findById(submissionId)`. -/
def findSubmissionById (submissions : List Submission) (submissionId : Nat) :
    Option Submission :=
  submissions.find? (fun s => s.id == submissionId)

/-- The write `doc.save()` of a loaded submission: the stored document with that id is
replaced. -/
def saveSubmission (doc : Submission) (submissions : List Submission) : List Submission :=
  submissions.map (fun s => if s.id == doc.id then doc else s)

/-- The entry pushed to `uploadedFiles` for one request file. -/
def toUploadedFile (now : Nat) (file : ReqFile) : UploadedFile :=
  { filename := file.filename, originalName := file.originalname, path := file.path,
    mimetype := file.mimetype, size := file.size, uploadedAt := now }

/-! ## Submission handlers (controllers/submissionController.js) -/

/-- Handler `submitAssignment`. The request files are already on disk when it runs. The
membership test `m.userId.toString() === userId || m.userId._id?.toString() === userId`
is one comparison here: the members are not populated, and an ObjectId is its own `_id`.
A null `m.userId` throws; the `catch` unlinks the request files and answers 500. -/
def submitAssignment (newId : Nat) (now : Nat) (w : World) (userId : UserId)
    (assignmentId groupId : Nat) (submissionNotes : Option String) (files : List ReqFile) :
    Reply × World :=
  let cleaned : World := { w with files := unlinkAll (files.map (fun f => f.path)) w.files }
  match findGroup w.groups groupId with
  | none => (⟨403, "You are not a member of this group"⟩, cleaned)
  | some group =>
    match someE (fun m : Member => idIs m.userId userId) group.members with
    | Except.error _ => (⟨500, "Failed to submit assignment"⟩, cleaned)
    | Except.ok false => (⟨403, "You are not a member of this group"⟩, cleaned)
    | Except.ok true =>
      match findAssignment w.assignments assignmentId with
      | none => (⟨404, "Assignment not found"⟩, w)
      | some _ =>
        let uploadedFiles := files.map (toUploadedFile now)
        match findSubmission w.submissions assignmentId groupId with
        | some existingSubmission =>
          if existingSubmission.status = Status.graded then
            (⟨400, "Assignment already graded. Cannot resubmit."⟩, cleaned)
          else
            let files1 :=
              if uploadedFiles.length > 0 ∧ existingSubmission.uploadedFiles.length > 0 then
                unlinkAll (existingSubmission.uploadedFiles.map (fun f => f.path)) w.files
              else w.files
            let updated : Submission :=
              { existingSubmission with
                status := Status.submitted
                submissionNotes := submissionNotes
                submittedBy := userId
                submittedAt := some now
                uploadedFiles :=
                  if uploadedFiles.length > 0 then uploadedFiles
                  else existingSubmission.uploadedFiles }
            (⟨200, "Assignment resubmitted successfully!"⟩,
              { w with submissions := saveSubmission updated w.submissions, files := files1 })
        | none =>
          (⟨201, "Assignment submitted successfully!"⟩, { w with submissions := w.submissions ++
            [{ id := newId, assignmentId := assignmentId, groupId := groupId,
               submittedBy := userId, status := Status.submitted,
               submissionNotes := submissionNotes, uploadedFiles := uploadedFiles,
               grade := none, feedback := none, reviewedBy := none, reviewedAt := none,
               submittedAt := some now }] })

/-- Handler `gradeSubmission`. An absent `grade` (undefined) is `none`. -/
def gradeSubmission (now : Nat) (w : World) (submissionId : Nat) (reviewerId : UserId)
    (grade : Option ℚ) (feedback : Option String) : Reply × World :=
  match findSubmissionById w.submissions submissionId with
  | none => (⟨404, "Submission not found"⟩, w)
  | some submission =>
    if submission.status ≠ Status.submitted ∧ submission.status ≠ Status.reviewed then
      (⟨400, "Can only grade submitted assignments"⟩, w)
    else
      let outOfRange := match grade with
        | none => false
        | some g => decide (g < 0) || decide (g > 100)
      if outOfRange then (⟨400, "Grade must be between 0 and 100"⟩, w)
      else
        let graded : Submission :=
          { submission with
            grade := grade
            feedback := feedback
            reviewedBy := some reviewerId
            reviewedAt := some now
            status := Status.graded }
        (⟨200, "Submission graded successfully"⟩,
          { w with submissions := saveSubmission graded w.submissions })

/-- Handler `submitAssignment` with the outcome of its persistence step made explicit:
`persistOk = false` means that `existingSubmission.save()` (resubmission) or
`Submission.create` (first submission) throws. The `catch` then unlinks the request files
from the storage as it is at that moment, that is after the old files of a resubmission
were unlinked, and answers 500. Everything before the persistence step is as in
`submitAssignment`. -/
def submitAssignmentPersist (persistOk : Bool) (newId : Nat) (now : Nat) (w : World)
    (userId : UserId) (assignmentId groupId : Nat) (submissionNotes : Option String)
    (files : List ReqFile) : Reply × World :=
  let cleaned : World := { w with files := unlinkAll (files.map (fun f => f.path)) w.files }
  match findGroup w.groups groupId with
  | none => (⟨403, "You are not a member of this group"⟩, cleaned)
  | some group =>
    match someE (fun m : Member => idIs m.userId userId) group.members with
    | Except.error _ => (⟨500, "Failed to submit assignment"⟩, cleaned)
    | Except.ok false => (⟨403, "You are not a member of this group"⟩, cleaned)
    | Except.ok true =>
      match findAssignment w.assignments assignmentId with
      | none => (⟨404, "Assignment not found"⟩, w)
      | some _ =>
        let uploadedFiles := files.map (toUploadedFile now)
        match findSubmission w.submissions assignmentId groupId with
        | some existingSubmission =>
          if existingSubmission.status = Status.graded then
            (⟨400, "Assignment already graded. Cannot resubmit."⟩, cleaned)
          else
            let files1 :=
              if uploadedFiles.length > 0 ∧ existingSubmission.uploadedFiles.length > 0 then
                unlinkAll (existingSubmission.uploadedFiles.map (fun f => f.path)) w.files
              else w.files
            let updated : Submission :=
              { existingSubmission with
                status := Status.submitted
                submissionNotes := submissionNotes
                submittedBy := userId
                submittedAt := some now
                uploadedFiles :=
                  if uploadedFiles.length > 0 then uploadedFiles
                  else existingSubmission.uploadedFiles }
            if persistOk then
              (⟨200, "Assignment resubmitted successfully!"⟩,
                { w with submissions := saveSubmission updated w.submissions, files := files1 })
            else
              (⟨500, "Failed to submit assignment"⟩,
                { w with files := unlinkAll (files.map (fun f => f.path)) files1 })
        | none =>
          if persistOk then
            (⟨201, "Assignment submitted successfully!"⟩,
              { w with submissions := w.submissions ++
                [{ id := newId, assignmentId := assignmentId, groupId := groupId,
                   submittedBy := userId, status := Status.submitted,
                   submissionNotes := submissionNotes, uploadedFiles := uploadedFiles,
                   grade := none, feedback := none, reviewedBy := none, reviewedAt := none,
                   submittedAt := some now }] })
          else (⟨500, "Failed to submit assignment"⟩, cleaned)

/-! ## JavaScript numbers -/

/-- The integer nearest to `x`, a tie going to the even one. -/
def roundTiesEven (x : ℚ) : Int :=
  let f := ⌊x⌋
  if x - f < 1 / 2 then f
  else if 1 / 2 < x - f then f + 1
  else if f % 2 = 0 then f else f + 1

/-- The Number (IEEE 754 binary64) nearest to the rational `q`, ties to even: `q` rounded
to 53 significant bits. The exponent range is not bounded here, which is the binary64 value
for every `q` whose size is in the normal range, as all quotients and products of counts
below `2 ^ 53` are. -/
def toDouble (q : ℚ) : ℚ :=
  if q = 0 then 0
  else
    let e := Int.log 2 |q| - 52
    (roundTiesEven (q / 2 ^ e) : ℚ) * 2 ^ e

/-- The function `Math.round`: the nearest integer, a tie going up. -/
def mathRound (x : ℚ) : Int :=
  ⌊x + 1 / 2⌋

/-! ## Progress and download (controllers/submissionController.js) -/

/-- The figures in the reply of `getGroupProgress`. -/
structure Progress where
  total : Nat
  submitted : Nat
  graded : Nat
  pending : Int
  completionPercentage : Int
deriving DecidableEq, Repr

/-- The filter of the assignment count: `isForAll` is true or `assignedGroups` contains the
group. -/
def visibleTo (groupId : Nat) (a : Assignment) : Bool :=
  a.isForAll || a.assignedGroups.contains groupId

/-- The count `Assignment.countDocuments` of `getGroupProgress`. -/
def totalAssignments (w : World) (groupId : Nat) : Nat :=
  w.assignments.countP (visibleTo groupId)

/-- The count of the group's submissions whose status is submitted, reviewed or graded. -/
def submittedCount (w : World) (groupId : Nat) : Nat :=
  w.submissions.countP (fun s =>
    s.groupId == groupId &&
      (s.status == Status.submitted || s.status == Status.reviewed ||
        s.status == Status.graded))

/-- The count of the group's submissions whose status is graded. -/
def gradedCount (w : World) (groupId : Nat) : Nat :=
  w.submissions.countP (fun s => s.groupId == groupId && s.status == Status.graded)

/-- The expression
`totalAssignments > 0 ? Math.round((submittedCount / totalAssignments) * 100) : 0`,
in Number arithmetic: the quotient and the product are each rounded to a Number. -/
def completionPercentage (submitted total : Nat) : Int :=
  if total > 0 then mathRound (toDouble (toDouble ((submitted : ℚ) / (total : ℚ)) * 100))
  else 0

/-- Handler `getGroupProgress`. The membership test is that of `submitAssignment`. -/
def getGroupProgress (w : World) (groupId : Nat) (userId : UserId) :
    Reply × Option Progress :=
  match findGroup w.groups groupId with
  | none => (⟨403, "You are not a member of this group"⟩, none)
  | some group =>
    match someE (fun m : Member => idIs m.userId userId) group.members with
    | Except.error _ => (⟨500, "Failed to fetch group progress"⟩, none)
    | Except.ok false => (⟨403, "You are not a member of this group"⟩, none)
    | Except.ok true =>
      (⟨200, ""⟩, some
        { total := totalAssignments w groupId
          submitted := submittedCount w groupId
          graded := gradedCount w groupId
          pending := (totalAssignments w groupId : Int) - (submittedCount w groupId : Int)
          completionPercentage :=
            completionPercentage (submittedCount w groupId) (totalAssignments w groupId) })

/-- The reference definition of the progress figures, in the words of the spec: `total`
counts the assignments that are global or target the group, `submitted` the submissions of
the group with status submitted or graded, `graded` those with status graded,
`pending = total - submitted`, and `completionPercentage` is `100 * submitted / total`
rounded to the nearest integer in exact arithmetic, a half going up, and 0 when
`total = 0`. -/
def progressReference (w : World) (groupId : Nat) : Progress :=
  let total := w.assignments.countP (fun a => a.isForAll || a.assignedGroups.contains groupId)
  let submitted := w.submissions.countP (fun s =>
    s.groupId == groupId && (s.status == Status.submitted || s.status == Status.graded))
  let graded := w.submissions.countP (fun s =>
    s.groupId == groupId && s.status == Status.graded)
  { total := total
    submitted := submitted
    graded := graded
    pending := (total : Int) - (submitted : Int)
    completionPercentage :=
      if total = 0 then 0 else ⌊(100 * (submitted : ℚ)) / (total : ℚ) + 1 / 2⌋ }

/-- Reply of `downloadFile`: the status, the `error` text if any and, on success, the path
sent and the name it is sent under. -/
structure DownloadReply where
  status : Nat
  error : String
  path : Option String
  name : Option String
deriving DecidableEq, Repr

/-- The array access `uploadedFiles[parseInt(fileIndex)]`: `none` stands for `undefined`,
which is what NaN, a negative index and an index past the end give. -/
def fileAt (uploadedFiles : List UploadedFile) (index : Option Int) : Option UploadedFile :=
  match index with
  | none => none
  | some i => if i < 0 then none else uploadedFiles.get? i.toNat

/-- Handler `downloadFile`. `fileIndex` is the value of `parseInt(req.params.fileIndex)`,
`none` for NaN. -/
def downloadFile (w : World) (submissionId : Nat) (fileIndex : Option Int) : DownloadReply :=
  match findSubmissionById w.submissions submissionId with
  | none => { status := 404, error := "Submission not found", path := none, name := none }
  | some submission =>
    match fileAt submission.uploadedFiles fileIndex with
    | none => { status := 404, error := "File not found", path := none, name := none }
    | some file =>
      if !w.files.contains file.path then
        { status := 404, error := "File no longer exists on server", path := none,
          name := none }
      else { status := 200, error := "", path := some file.path, name := some file.originalName }

/-! ## Assignment creation (controllers/assignmentController.js) -/

/-- Handler `createAssignment` for an authenticated admin. `newId` is the id the store gives
the document. `title` is as the route validators leave it (trimmed, not empty); the fields
the embedding does not carry (description, dueDate, onedriveLink, createdBy) are taken to
pass validation, so `Assignment.create` succeeds. -/
def createAssignment (newId : Nat) (w : World) (title : String) (isForAll : Bool)
    (groupIds : Option (List Nat)) : Reply × World :=
  (⟨201, "Assignment created successfully"⟩,
    { w with assignments := w.assignments ++
        [{ id := newId, title := title, isForAll := isForAll,
           assignedGroups := if isForAll then [] else
             match groupIds with
             | none => []
             | some ids => ids }] })

/-! ## The grade route (routes/submissionRoutes.js) -/

/-- The validator chain of `POST /grade/:submissionId`: `body(grade).isFloat` with
`min: 0, max: 100`. The field is not optional, so an absent grade fails the chain. -/
def gradeValidator (grade : Option ℚ) : Bool :=
  match grade with
  | none => false
  | some g => decide (0 ≤ g) && decide (g ≤ 100)

/-- Modelled from the spec: the `validate` middleware of `middleware/validation.js`, which
is not among the sources. A request whose validator chain failed fails with a
ValidationError, answered as status 400 with the message of the failed validator, and the
handler does not run, so the store stays as it was; otherwise the handler runs. -/
def validate {σ : Type} (passed : Bool) (message : String) (store : σ) (next : Reply × σ) :
    Reply × σ :=
  if passed then next else (⟨400, message⟩, store)

/-- The route `POST /grade/:submissionId` for an authenticated admin: the validator chain,
`validate`, then the handler `gradeSubmission`. -/
def gradeSubmissionRoute (now : Nat) (w : World) (submissionId : Nat) (reviewerId : UserId)
    (grade : Option ℚ) (feedback : Option String) : Reply × World :=
  validate (gradeValidator grade) "Grade must be between 0 and 100" w
    (gradeSubmission now w submissionId reviewerId grade feedback)

/-! ## The create-group route (routes/groupRoutes.js) -/

/-- Body of `POST /groups` as the validator chain sees it. `name` is the text after the
`trim()` sanitizer; `maxMembers` is the supplied integer, if any. The fields the embedding
does not carry (description, category, tags) are taken to pass their validators. -/
structure CreateGroupRequest where
  name : String
  isPublic : Option Bool
  maxMembers : Option Int
deriving DecidableEq, Repr

/-- The validator `body(name).trim().notEmpty()`. -/
def nameValidator (name : String) : Bool :=
  name != ""

/-- The validator `body(maxMembers).optional().isInt` with `min: 2, max: 100`. -/
def capacityValidator (maxMembers : Option Int) : Bool :=
  match maxMembers with
  | none => true
  | some n => decide (2 ≤ n) && decide (n ≤ 100)

/-- The route `POST /groups` for an authenticated student: the validator chain, `validate`,
then the handler `createGroup`. -/
def createGroupRoute (newId : Nat) (now : Nat) (creatorId : UserId)
    (request : CreateGroupRequest) : Reply × Option Group :=
  validate (nameValidator request.name && capacityValidator request.maxMembers)
    (if nameValidator request.name then "Invalid value" else "Group name is required") none
    (createGroup newId now creatorId
      { name := request.name, isPublic := request.isPublic,
        maxMembers := request.maxMembers.map Int.toNat })

/-! ## Reachable submission stores -/

/-- Stores reachable from an empty submission collection by sequential `submitAssignment`
and `gradeSubmission` calls. The store gives every created document an id that no stored
document has. Between two calls the groups, the assignments and the upload directory may
change in any way (members come and go, the upload middleware writes the request files). -/
inductive StoreReachable : World → Prop
  | empty (groups : List Group) (assignments : List Assignment) (files : List String) :
      StoreReachable
        { groups := groups, assignments := assignments, submissions := [], files := files }
  | submit (w : World) (newId now : Nat) (userId : UserId) (assignmentId groupId : Nat)
      (submissionNotes : Option String) (files : List ReqFile)
      (fresh : ∀ s ∈ w.submissions, s.id ≠ newId) (h : StoreReachable w) :
      StoreReachable
        (submitAssignment newId now w userId assignmentId groupId submissionNotes files).2
  | grade (w : World) (now submissionId : Nat) (reviewerId : UserId) (grade : Option ℚ)
      (feedback : Option String) (h : StoreReachable w) :
      StoreReachable (gradeSubmission now w submissionId reviewerId grade feedback).2
  | environment (w : World) (groups : List Group) (assignments : List Assignment)
      (files : List String) (h : StoreReachable w) :
      StoreReachable { w with groups := groups, assignments := assignments, files := files }

/-- States reachable from a store without assignments and submissions by creating
assignments and by sequential `submitAssignment` and `gradeSubmission` calls, over a fixed
collection of groups. The store gives every created document a fresh id. -/
inductive ProgressReachable : World → Prop
  | empty (groups : List Group) (files : List String) :
      ProgressReachable
        { groups := groups, assignments := [], submissions := [], files := files }
  | createAssignment (w : World) (newId : Nat) (title : String) (isForAll : Bool)
      (groupIds : Option (List Nat)) (fresh : ∀ a ∈ w.assignments, a.id ≠ newId)
      (h : ProgressReachable w) :
      ProgressReachable (createAssignment newId w title isForAll groupIds).2
  | submit (w : World) (newId now : Nat) (userId : UserId) (assignmentId groupId : Nat)
      (submissionNotes : Option String) (files : List ReqFile)
      (fresh : ∀ s ∈ w.submissions, s.id ≠ newId) (h : ProgressReachable w) :
      ProgressReachable
        (submitAssignment newId now w userId assignmentId groupId submissionNotes files).2
  | grade (w : World) (now submissionId : Nat) (reviewerId : UserId) (grade : Option ℚ)
      (feedback : Option String) (h : ProgressReachable w) :
      ProgressReachable (gradeSubmission now w submissionId reviewerId grade feedback).2

/-! ## Reachable group states and sample data -/

/-- Group states reachable from a successful `createGroup` by a finite sequence of
`requestJoinGroup`, `approveJoinRequest`, `rejectJoinRequest`, `addGroupMember` and
`removeGroupMember` calls, over a fixed user collection. -/
def Reachable (users : List User) (g : Group) : Prop :=
  ∃ (newId now : Nat) (creatorId : UserId) (body : CreateGroupBody) (reply : Reply)
    (g0 : Group) (calls : List GroupCall),
    createGroup newId now creatorId body = (reply, some g0) ∧ applyCalls users g0 calls = g

def alice : User :=
  { id := 1, email := "alice@uni.edu", fullName := "Alice", role := UserRole.student,
    studentId := some "S1" }

def bob : User :=
  { id := 2, email := "bob@uni.edu", fullName := "Bob", role := UserRole.student,
    studentId := some "S2" }

def carol : User :=
  { id := 3, email := "carol@uni.edu", fullName := "Carol", role := UserRole.student,
    studentId := some "S3" }

/-- Scenario A of the spec: members U1 (admin) and U2 (member), created by U1. -/
def scenarioA : Group :=
  { id := 7, name := "G", creatorId := some 1,
    members := [{ userId := some 1, role := Role.admin, joinedAt := 0 },
                { userId := some 2, role := Role.member, joinedAt := 1 }],
    joinRequests := [], isPublic := true, maxMembers := 50, lastActivityAt := 1,
    activityCount := 2 }

/-- A group with two admins, U1 (the creator) and U3, and a plain member U2. -/
def twoAdmins : Group :=
  { id := 8, name := "H", creatorId := some 1,
    members := [{ userId := some 1, role := Role.admin, joinedAt := 0 },
                { userId := some 2, role := Role.member, joinedAt := 1 },
                { userId := some 3, role := Role.admin, joinedAt := 2 }],
    joinRequests := [], isPublic := true, maxMembers := 50, lastActivityAt := 2,
    activityCount := 3 }

/-- A group created by U1 with member U2 and a pending join request of U3. -/
def withRequest : Group :=
  { id := 9, name := "K", creatorId := some 1,
    members := [{ userId := some 1, role := Role.admin, joinedAt := 0 },
                { userId := some 2, role := Role.member, joinedAt := 1 }],
    joinRequests := [{ userId := some 3, requestedAt := 2, message := "please" }],
    isPublic := true, maxMembers := 50, lastActivityAt := 1, activityCount := 2 }

/-- A document without `creatorId`, as the sweep's test `if (group.creatorId)` allows for:
the members U1 and U2 and a pending request of U3. -/
def noCreator : Group :=
  { withRequest with creatorId := none }

/-- A stored file entry and the matching request file used in the submission examples. -/
def fileX : UploadedFile :=
  { filename := "x", originalName := "x.pdf", path := "uploads/x", mimetype := "application/pdf",
    size := 10, uploadedAt := 1 }

def fileY : ReqFile :=
  { filename := "y", originalname := "y.pdf", path := "uploads/y", mimetype := "application/pdf",
    size := 12 }

def assignment5 : Assignment :=
  { id := 5, title := "Essay", isForAll := true, assignedGroups := [] }

/-- The submission of group 7 for assignment 5, already graded. -/
def gradedSubmission : Submission :=
  { id := 100, assignmentId := 5, groupId := 7, submittedBy := 1, status := Status.graded,
    submissionNotes := some "notes", uploadedFiles := [fileX], grade := some 90,
    feedback := some "good", reviewedBy := some 9, reviewedAt := some 2, submittedAt := some 1 }

/-- A store holding the graded submission; the upload of a new attempt, `uploads/y`, is
already on disk. -/
def gradedWorld : World :=
  { groups := [scenarioA], assignments := [assignment5], submissions := [gradedSubmission],
    files := ["uploads/x", "uploads/y"] }

/-- The submission of group 7 for assignment 5, not yet graded, with `uploads/x` attached. -/
def submittedSubmission : Submission :=
  { id := 100, assignmentId := 5, groupId := 7, submittedBy := 1, status := Status.submitted,
    submissionNotes := some "notes", uploadedFiles := [fileX], grade := none,
    feedback := none, reviewedBy := none, reviewedAt := none, submittedAt := some 1 }

/-- A store holding the ungraded submission; the upload of a new attempt, `uploads/y`, is
already on disk. -/
def submittedWorld : World :=
  { groups := [scenarioA], assignments := [assignment5], submissions := [submittedSubmission],
    files := ["uploads/x", "uploads/y"] }

def fileXRequest : ReqFile :=
  { filename := "x", originalname := "x.pdf", path := "uploads/x", mimetype := "application/pdf",
    size := 10 }

/-- A store with no submission yet; the upload `uploads/x` is on disk. -/
def emptyWorld : World :=
  { groups := [scenarioA], assignments := [assignment5], submissions := [],
    files := ["uploads/x"] }

/-- The group after U1 created it, U2 asked to join and U1 added U2 directly: U2 is a member
and the request of U2 is still pending. -/
def staleRequest : Group :=
  { id := 7, name := "G", creatorId := some 1,
    members := [{ userId := some 1, role := Role.admin, joinedAt := 0 },
                { userId := some 2, role := Role.member, joinedAt := 2 }],
    joinRequests := [{ userId := some 2, requestedAt := 1, message := "hi" }],
    isPublic := true, maxMembers := 50, lastActivityAt := 2, activityCount := 2 }

def dave : User :=
  { id := 4, email := "dave@uni.edu", fullName := "Dave", role := UserRole.student,
    studentId := some "S4" }

/-- Scenario B of the spec: capacity 2, the single member U1 (admin), a pending request of
U3. -/
def scenarioB : Group :=
  { id := 10, name := "B", creatorId := some 1,
    members := [{ userId := some 1, role := Role.admin, joinedAt := 0 }],
    joinRequests := [{ userId := some 3, requestedAt := 1, message := "" }],
    isPublic := true, maxMembers := 2, lastActivityAt := 1, activityCount := 1 }

/-- Scenario E of the spec for group 7: four assignments visible to the group, three
submissions of the group, one of them graded. -/
def scenarioE : World :=
  { groups := [scenarioA],
    assignments :=
      [{ id := 1, title := "A1", isForAll := true, assignedGroups := [] },
       { id := 2, title := "A2", isForAll := true, assignedGroups := [] },
       { id := 3, title := "A3", isForAll := false, assignedGroups := [7] },
       { id := 4, title := "A4", isForAll := false, assignedGroups := [7, 8] },
       { id := 5, title := "A5", isForAll := false, assignedGroups := [8] }],
    submissions :=
      [{ gradedSubmission with id := 101, assignmentId := 1, uploadedFiles := [] },
       { submittedSubmission with id := 102, assignmentId := 2, uploadedFiles := [] },
       { submittedSubmission with id := 103, assignmentId := 3, uploadedFiles := [] }],
    files := [] }

/-- A store with forty assignments for everybody and twenty-three submissions of group 7,
one for each of the first twenty-three assignments. -/
def fortyWorld : World :=
  { groups := [scenarioA],
    assignments := (List.range 40).map (fun i =>
      { id := i, title := "A", isForAll := true, assignedGroups := [] }),
    submissions := (List.range 23).map (fun i =>
      { submittedSubmission with id := 100 + i, assignmentId := i, uploadedFiles := [] }),
    files := [] }

/-- A store in which the record of group 7 for assignment 5 has status reviewed. -/
def reviewedWorld : World :=
  { groups := [scenarioA], assignments := [assignment5],
    submissions := [{ submittedSubmission with status := Status.reviewed }],
    files := ["uploads/x"] }

/-- The store after the admin created assignment 1 for everybody and assignment 2 for
group 8 only, and U1 submitted both for group 7. -/
def overSubmitted : World :=
  (submitAssignment 202 4
    (submitAssignment 201 3
      (createAssignment 2
        (createAssignment 1
          { groups := [scenarioA], assignments := [], submissions := [], files := [] }
          "A1" true none).2
        "A2" false (some [8])).2
      1 1 7 none []).2
    1 2 7 none []).2

/-! ## Auxiliary facts -/

theorem findById_id {users : List User} {i : UserId} {u : User}
    (h : findById users i = some u) : u.id = i := by
  have := List.find?_some h
  simpa using this

theorem resolves_iff {users : List User} {x : Option UserId} :
    resolves users x = true ↔ ∃ i u, x = some i ∧ findById users i = some u := by
  cases x with
  | none => simp [resolves]
  | some i =>
    simp [resolves, Option.isSome_iff_exists]

theorem populateMember_isSome (users : List User) (m : Member) :
    (populateMember users m).userId.isSome = memberValid users m := by
  cases m with
  | mk userId role joinedAt =>
    cases userId <;> simp [populateMember, memberValid, resolves]

theorem depopulate_populateMember {users : List User} {m : Member}
    (h : memberValid users m = true) : depopulate (populateMember users m) = m := by
  cases m with
  | mk userId role joinedAt =>
    cases userId with
    | none => simp [memberValid, resolves] at h
    | some i =>
      cases hf : findById users i with
      | none => simp [memberValid, resolves, hf] at h
      | some u => simp [populateMember, depopulate, hf, findById_id hf]

theorem filter_of_length_eq {α : Type} {p : α → Bool} {l : List α}
    (h : ¬ ((l.filter p).length != l.length) = true) : l.filter p = l := by
  apply List.filter_eq_self.2
  apply List.filter_length_eq_length.1
  simpa using h

theorem map_depopulate_populate_filter (users : List User) (ms : List Member) :
    ((ms.map (populateMember users)).filter (fun m => m.userId.isSome)).map depopulate =
      ms.filter (memberValid users) := by
  induction ms with
  | nil => rfl
  | cons m ms ih =>
    simp only [List.map_cons, List.filter_cons, populateMember_isSome]
    by_cases h : memberValid users m = true
    · simp [h, ih, depopulate_populateMember h]
    · simp [h, ih]

theorem snd_ite_same {α β : Type} {c : Prop} [Decidable c] (a b : α) (s : β) :
    (if c then (a, s) else (b, s)).2 = s := by
  split <;> rfl

/-- The member list on which `getGroupDetails` takes its access decision. -/
theorem getGroupDetails_members_eq (users : List User) (ms : List Member) :
    (if (((ms.map (populateMember users)).filter (fun m => m.userId.isSome)).length !=
          (ms.map (populateMember users)).length) = true
      then (ms.map (populateMember users)).filter (fun m => m.userId.isSome)
      else ms.map (populateMember users)) =
    (ms.filter (memberValid users)).map (populateMember users) := by
  have hf : (ms.map (populateMember users)).filter (fun m => m.userId.isSome) =
      (ms.filter (memberValid users)).map (populateMember users) := by
    rw [List.filter_map]
    congr 1
    apply List.filter_congr
    intro m _
    simp [populateMember_isSome]
  split
  · exact hf
  · rename_i h
    rw [← hf, filter_of_length_eq h]

theorem any_populated_iff (users : List User) (ms : List Member) (caller : UserId) :
    (((ms.filter (memberValid users)).map (populateMember users)).any (fun m =>
      match m.userId with
      | none => false
      | some u => u.id == caller)) = true ↔
    some caller ∈ (ms.filter (memberValid users)).map (fun m => m.userId) := by
  simp only [List.any_eq_true, List.mem_map, List.mem_filter]
  constructor
  · rintro ⟨pm, ⟨m, ⟨hm, hv⟩, rfl⟩, hp⟩
    refine ⟨m, ⟨hm, hv⟩, ?_⟩
    cases m with
    | mk userId role joinedAt =>
      cases userId with
      | none => simp [memberValid, resolves] at hv
      | some i =>
        cases hf : findById users i with
        | none => simp [memberValid, resolves, hf] at hv
        | some u =>
          simp [populateMember, hf] at hp
          have := findById_id hf
          simp_all
  · rintro ⟨m, ⟨hm, hv⟩, hid⟩
    refine ⟨populateMember users m, ⟨m, ⟨hm, hv⟩, rfl⟩, ?_⟩
    cases m with
    | mk userId role joinedAt =>
      simp at hid
      subst hid
      cases hf : findById users caller with
      | none => simp [memberValid, resolves, hf] at hv
      | some u => simp [populateMember, hf, findById_id hf]

theorem saveAccepts_of_creator {g : Group} (hc : g.creatorId ≠ none) :
    saveAccepts g = true := by
  cases h : g.creatorId with
  | none => exact absurd h hc
  | some c => simp [saveAccepts, h]

theorem getGroupDetails_stored (users : List User) (g : Group) (caller : UserId)
    (hc : g.creatorId ≠ none) :
    (getGroupDetails users (some g) caller).2 =
      some { g with members := g.members.filter (memberValid users) } := by
  have hafter : (if (((g.members.map (populateMember users)).filter
        (fun m => m.userId.isSome)).length != (g.members.map (populateMember users)).length) = true
      then { g with members := ((g.members.map (populateMember users)).filter
        (fun m => m.userId.isSome)).map depopulate } else g) =
      { g with members := g.members.filter (memberValid users) } := by
    split
    · rw [map_depopulate_populate_filter]
    · rename_i h
      have h2 : (g.members.map (populateMember users)).filter (fun m => m.userId.isSome) =
          g.members.map (populateMember users) := filter_of_length_eq h
      have h3 := map_depopulate_populate_filter users g.members
      rw [h2] at h3
      have h4 : (g.members.filter (memberValid users)).length = g.members.length := by
        rw [← h3]; simp
      have h5 : g.members.filter (memberValid users) = g.members :=
        List.filter_eq_self.2 (List.filter_length_eq_length.1 h4)
      rw [h5]
  simp only [getGroupDetails, saveAccepts_of_creator hc, Bool.not_true, Bool.and_false,
    Bool.false_eq_true, if_false, snd_ite_same]
  exact congrArg some hafter

theorem getGroupDetails_status (users : List User) (g : Group) (caller : UserId)
    (hc : g.creatorId ≠ none) :
    ((getGroupDetails users (some g) caller).1.status = 200 ↔
      some caller ∈ (g.members.filter (memberValid users)).map (fun m => m.userId)) ∧
    ((getGroupDetails users (some g) caller).1.status = 200 ∨
      (getGroupDetails users (some g) caller).1.status = 403) := by
  rw [← any_populated_iff]
  simp only [getGroupDetails, saveAccepts_of_creator hc, Bool.not_true, Bool.and_false,
    Bool.false_eq_true, if_false, getGroupDetails_members_eq]
  cases ((g.members.filter (memberValid users)).map (populateMember users)).any (fun m =>
      match m.userId with
      | none => false
      | some u => u.id == caller)
  · simp
  · simp

theorem promoteFirst_map_userId (ms : List Member) :
    (promoteFirst ms).map (fun m => m.userId) = ms.map (fun m => m.userId) := by
  induction ms with
  | nil => rfl
  | cons m ms ih =>
    simp only [promoteFirst]
    split <;> simp [ih]

theorem transferOwnership_frame (users : List User) (g : Group) :
    (transferOwnership users g).1.members.map (fun m => m.userId) =
        g.members.map (fun m => m.userId) ∧
      (transferOwnership users g).1.joinRequests = g.joinRequests ∧
      ((transferOwnership users g).2 = false → (transferOwnership users g).1 = g) := by
  simp only [transferOwnership]
  repeat' split
  all_goals simp [promoteFirst_map_userId]

theorem transferOwnership_length (users : List User) (g : Group) :
    (transferOwnership users g).1.members.length = g.members.length := by
  have := congrArg List.length (transferOwnership_frame users g).1
  simpa using this

theorem transferOwnership_of_resolves {users : List User} {g : Group}
    (h : resolves users g.creatorId = true) : transferOwnership users g = (g, false) := by
  cases hc : g.creatorId with
  | none => simp [hc, resolves] at h
  | some c =>
    cases hf : findById users c with
    | none => simp [hc, resolves, hf] at h
    | some u => simp only [transferOwnership, hc, hf]

theorem map_userId_filter_memberValid (users : List User) (ms : List Member) :
    (ms.filter (memberValid users)).map (fun m => m.userId) =
      (ms.map (fun m => m.userId)).filter (resolves users) := by
  rw [List.filter_map]
  rfl

theorem map_userId_filter_requestValid (users : List User) (rs : List JoinRequest) :
    (rs.filter (requestValid users)).map (fun r => r.userId) =
      (rs.map (fun r => r.userId)).filter (resolves users) := by
  rw [List.filter_map]
  rfl

theorem cleanMembers_fst (users : List User) (n : Nat) (st : Group × Bool)
    (hn : st.1.members.length = n) :
    (cleanMembers users n st).1 =
      { st.1 with members := st.1.members.filter (memberValid users) } := by
  simp only [cleanMembers]
  split
  · rfl
  · rename_i h
    rw [← hn] at h
    rw [filter_of_length_eq h]

theorem cleanMembers_unmodified (users : List User) (n : Nat) (st : Group × Bool)
    (h : (cleanMembers users n st).2 = false) : cleanMembers users n st = st := by
  simp only [cleanMembers] at h ⊢
  split
  · rename_i hc
    simp [hc] at h
  · rfl

theorem cleanRequests_fst (users : List User) (n : Nat) (st : Group × Bool)
    (hn : st.1.joinRequests.length = n) :
    (cleanRequests users n st).1 =
      { st.1 with joinRequests := st.1.joinRequests.filter (requestValid users) } := by
  simp only [cleanRequests]
  split
  · rfl
  · rename_i h
    rw [← hn] at h
    rw [filter_of_length_eq h]

theorem cleanRequests_unmodified (users : List User) (n : Nat) (st : Group × Bool)
    (h : (cleanRequests users n st).2 = false) : cleanRequests users n st = st := by
  simp only [cleanRequests] at h ⊢
  split
  · rename_i hc
    simp [hc] at h
  · rfl

theorem cleanupInMemory_fst (users : List User) (g : Group) :
    (cleanupInMemory users g).1 =
      { (transferOwnership users g).1 with
        members := (transferOwnership users g).1.members.filter (memberValid users)
        joinRequests := g.joinRequests.filter (requestValid users) } := by
  have hj := (transferOwnership_frame users g).2.1
  have hlen := transferOwnership_length users g
  have h1 := cleanMembers_fst users g.members.length (transferOwnership users g) hlen
  have h2 := cleanRequests_fst users g.joinRequests.length
    (cleanMembers users g.members.length (transferOwnership users g))
    (by rw [h1]; simp [hj])
  simp only [cleanupInMemory]
  rw [h2, h1]
  simp [hj]

theorem cleanupInMemory_unmodified (users : List User) (g : Group)
    (h : (cleanupInMemory users g).2 = false) : (cleanupInMemory users g).1 = g := by
  simp only [cleanupInMemory] at h ⊢
  have e1 := cleanRequests_unmodified users _ _ h
  rw [e1] at h ⊢
  have e2 := cleanMembers_unmodified users _ _ h
  rw [e2] at h ⊢
  exact (transferOwnership_frame users g).2.2 h

theorem transferOwnership_creatorId (users : List User) (g : Group) :
    (transferOwnership users g).1.creatorId = none ↔ g.creatorId = none := by
  cases hc : g.creatorId with
  | none => simp [transferOwnership, hc]
  | some c =>
    simp only [transferOwnership, hc]
    cases hf : findById users c with
    | some u => simp [hc]
    | none =>
      simp only
      cases ha : g.members.find? (fun m => m.role == Role.admin && m.userId.isSome) with
      | some a =>
        have hp := List.find?_some ha
        simp only [Bool.and_eq_true] at hp
        cases hu : a.userId with
        | none => simp [hu] at hp
        | some i =>
          cases hb : findById users i with
          | some _ => simp [hu, hb]
          | none => simp [hu, hb, hc]
      | none =>
        simp only
        cases hm : g.members.find? (fun m => m.userId.isSome) with
        | some a =>
          have hp := List.find?_some hm
          cases hu : a.userId with
          | none => simp [hu] at hp
          | some i =>
            cases hb : findById users i with
            | some _ => simp [hu, hb]
            | none => simp [hu, hb, hc]
        | none => simp [hc]

/-- The per-group repair on a document with a creator reference: `save()` is accepted, the
group is deleted when no member resolves, otherwise stored as the group after the transfer
step with both lists filtered. -/
theorem cleanupStep_eq (users : List User) (g : Group) (hc : g.creatorId ≠ none) :
    cleanupStep users g =
      Except.ok
        (if (transferOwnership users g).1.members.filter (memberValid users) = [] then none
        else some
          { (transferOwnership users g).1 with
            members := (transferOwnership users g).1.members.filter (memberValid users)
            joinRequests := g.joinRequests.filter (requestValid users) }) := by
  have h1 := cleanupInMemory_fst users g
  have h2 := cleanupInMemory_unmodified users g
  rcases hcm : cleanupInMemory users g with ⟨g3, m3⟩
  rw [hcm] at h1 h2
  simp only at h1 h2
  have hs : saveAccepts g3 = true := by
    apply saveAccepts_of_creator
    rw [h1]
    exact fun h => hc ((transferOwnership_creatorId users g).1 h)
  simp only [cleanupStep, hcm]
  by_cases he : (transferOwnership users g).1.members.filter (memberValid users) = []
  · have : g3.members.length = 0 := by rw [h1]; simp [he]
    simp [he, this]
  · have : ¬ g3.members.length = 0 := by
      rw [h1]; simpa using he
    cases m3 with
    | true =>
      rw [if_neg he, ← h1]
      simp [this, hs]
    | false =>
      have hg := h2 rfl
      subst hg
      rw [if_neg he, ← h1]
      simp [this]

/-- The stored result of the per-group repair on a document with a creator reference. -/
theorem cleanupGroup_eq (users : List User) (g : Group) (hc : g.creatorId ≠ none) :
    cleanupGroup users g =
      if (transferOwnership users g).1.members.filter (memberValid users) = [] then none
      else some
        { (transferOwnership users g).1 with
          members := (transferOwnership users g).1.members.filter (memberValid users)
          joinRequests := g.joinRequests.filter (requestValid users) } := by
  simp only [cleanupGroup, cleanupStep_eq users g hc]

/-- The stored result of the per-group repair on a document without `creatorId`: the group
is deleted when no member resolves; otherwise it stays as it was, either because nothing
needed cleaning or because `save()` is refused. -/
theorem cleanupGroup_of_no_creator (users : List User) (g : Group) (hc : g.creatorId = none) :
    cleanupGroup users g =
      if g.members.filter (memberValid users) = [] then none else some g := by
  have h1 := cleanupInMemory_fst users g
  have h2 := cleanupInMemory_unmodified users g
  have ht : transferOwnership users g = (g, false) := by
    simp only [transferOwnership, hc]
  rcases hcm : cleanupInMemory users g with ⟨g3, m3⟩
  rw [hcm] at h1 h2
  rw [ht] at h1
  simp only at h1 h2
  have hs : saveAccepts g3 = false := by
    rw [h1]
    simp [saveAccepts, hc]
  simp only [cleanupGroup, cleanupStep, hcm]
  by_cases he : g.members.filter (memberValid users) = []
  · have : g3.members.length = 0 := by rw [h1]; simp [he]
    simp [he, this]
  · have : ¬ g3.members.length = 0 := by
      rw [h1]; simpa using he
    cases m3 with
    | true => simp [he, this, hs]
    | false =>
      have hg := h2 rfl
      subst hg
      simp [he, this]

theorem unlink_subset {p x : String} {files : List String} (h : x ∈ unlink p files) :
    x ∈ files := by
  simp only [unlink, List.mem_filter] at h
  exact h.1

theorem unlinkAll_subset {paths : List String} {x : String} :
    ∀ {files : List String}, x ∈ unlinkAll paths files → x ∈ files := by
  induction paths with
  | nil => intro files h; exact h
  | cons p ps ih =>
    intro files h
    exact unlink_subset (ih h)

theorem not_mem_unlink (p : String) (files : List String) : p ∉ unlink p files := by
  simp [unlink]

/-- After `paths.forEach(p => fs.unlink(p))` none of the paths is left in storage. -/
theorem not_mem_unlinkAll {paths : List String} {p : String} :
    ∀ {files : List String}, p ∈ paths → p ∉ unlinkAll paths files := by
  induction paths with
  | nil => intro files h; simp at h
  | cons q qs ih =>
    intro files h hin
    rcases List.mem_cons.1 h with rfl | h
    · exact not_mem_unlink p files (unlinkAll_subset hin)
    · exact ih h hin

theorem someE_idIs_false {α : Type} (f : α → Option UserId) (u : UserId) :
    ∀ l : List α, someE (fun x => idIs (f x) u) l = Except.ok false → some u ∉ l.map f := by
  intro l
  induction l with
  | nil => intro _; simp
  | cons x xs ih =>
    intro h
    simp only [someE] at h
    cases hx : f x with
    | none => simp [idIs, hx] at h
    | some i =>
      by_cases hi : i = u
      · simp [idIs, hx, hi] at h
      · have hb : (i == u) = false := by simpa using hi
        simp only [idIs, hx, hb] at h
        have := ih h
        simp only [List.map_cons, List.mem_cons, hx, Option.some.injEq, not_or]
        exact ⟨fun e => hi e.symm, this⟩

theorem nodup_map_eraseIdx {α β : Type} (f : α → β) (l : List α) (i : Nat)
    (h : (l.map f).Nodup) : ((l.eraseIdx i).map f).Nodup :=
  List.Nodup.sublist ((List.eraseIdx_sublist l i).map f) h

/-! ## Membership invariants of the handlers -/

/-- C1 (evaluation at the failing input). U1 creates a public group, U2 asks to join, U1
adds U2 directly with `addGroupMember` (the pending request stays), then U1 approves the
stale request: `approveJoinRequest` has no already-a-member check and appends U2 again, so
a reachable group lists U2 twice. -/
theorem approveJoinRequest_after_addGroupMember_duplicates_member :
    ∃ g : Group, Reachable [alice, bob] g ∧
      g.members.map (fun m => m.userId) = [some 1, some 2, some 2] ∧
      ¬ (g.members.map (fun m => m.userId)).Nodup :=
  ⟨applyCalls [alice, bob]
      { id := 7, name := "G", creatorId := some 1,
        members := [{ userId := some 1, role := Role.admin, joinedAt := 0 }],
        joinRequests := [], isPublic := true, maxMembers := 50, lastActivityAt := 0,
        activityCount := 1 }
      [GroupCall.requestJoinGroup 1 2 "hi", GroupCall.addGroupMember 2 1 "bob@uni.edu",
        GroupCall.approveJoinRequest 3 1 2],
    ⟨7, 0, 1, { name := "G", isPublic := none, maxMembers := none }, _, _, _, rfl, rfl⟩,
    by decide, by decide⟩

/-- C2 (evaluation at the failing input). U1 creates a public group, U2 asks to join, and
U1 adds U2 directly: `addGroupMember` appends the member and leaves the join request in
place, so a reachable group has U2 both in `members` and in `joinRequests`. -/
theorem addGroupMember_keeps_pending_request_of_new_member :
    ∃ g : Group, Reachable [alice, bob] g ∧
      g.members.map (fun m => m.userId) = [some 1, some 2] ∧
      g.joinRequests.map (fun r => r.userId) = [some 2] :=
  ⟨applyCalls [alice, bob]
      { id := 7, name := "G", creatorId := some 1,
        members := [{ userId := some 1, role := Role.admin, joinedAt := 0 }],
        joinRequests := [], isPublic := true, maxMembers := 50, lastActivityAt := 0,
        activityCount := 1 }
      [GroupCall.requestJoinGroup 1 2 "hi", GroupCall.addGroupMember 2 1 "bob@uni.edu"],
    ⟨7, 0, 1, { name := "G", isPublic := none, maxMembers := none }, _, _, _, rfl, rfl⟩,
    by decide, by decide⟩

/-- Each of the five membership handlers keeps the join requests free of repeated userIds. -/
theorem applyCall_joinRequests_nodup (users : List User) (g : Group) (c : GroupCall)
    (h : (g.joinRequests.map (fun r => r.userId)).Nodup) :
    ((applyCall users g c).joinRequests.map (fun r => r.userId)).Nodup := by
  cases c with
  | requestJoinGroup now userId message =>
    simp only [applyCall, requestJoinGroup]
    repeat' split
    all_goals try exact h
    rename_i hreq _
    have := someE_idIs_false (fun r : JoinRequest => r.userId) userId g.joinRequests hreq
    simp only [List.map_append, List.map_cons, List.map_nil]
    exact List.Nodup.append h (List.nodup_singleton _) (by simpa using this)
  | approveJoinRequest now actor userId =>
    simp only [applyCall, approveJoinRequest, updateActivity]
    repeat' split
    all_goals try exact h
    exact nodup_map_eraseIdx _ _ _ h
  | rejectJoinRequest actor userId =>
    simp only [applyCall, rejectJoinRequest]
    repeat' split
    all_goals try exact h
    exact nodup_map_eraseIdx _ _ _ h
  | addGroupMember now actor e =>
    simp only [applyCall, addGroupMember, updateActivity]
    repeat' split
    all_goals exact h
  | removeGroupMember actor userId =>
    simp only [applyCall, removeGroupMember]
    repeat' split
    all_goals exact h

/-- In every reachable group no userId has more than one pending join request. -/
theorem reachable_joinRequests_nodup (users : List User) (g : Group)
    (h : Reachable users g) : (g.joinRequests.map (fun r => r.userId)).Nodup := by
  obtain ⟨newId, now, creatorId, body, reply, g0, calls, hcreate, hrun⟩ := h
  have h0 : (g0.joinRequests.map (fun r => r.userId)).Nodup := by
    simp only [createGroup] at hcreate
    split at hcreate
    · simp at hcreate
    · simp only [Prod.mk.injEq, Option.some.injEq] at hcreate
      rw [← hcreate.2]
      simp
  subst hrun
  clear hcreate
  induction calls generalizing g0 with
  | nil => exact h0
  | cons c cs ih =>
    exact ih (applyCall users g0 c) (applyCall_joinRequests_nodup users g0 c h0)

/-! ## Integrity repair: ownership transfer -/

/-- C3 (evaluation at the failing input, Scenario A). With U1 deleted and U2 existing, one
run of the repair on members U1 (admin), U2 (member), creator U1 keeps the group with the
single member U2, but U2 still has role member and `creatorId` is still the deleted U1: the
transfer step runs before the member cleanup, picks the deleted U1 as the admin candidate
and gives up. -/
theorem cleanupGroup_scenarioA_leaves_deleted_creator :
    findById [bob] 1 = none ∧
    cleanupGroup [bob] scenarioA =
      some { scenarioA with
        members := [{ userId := some 2, role := Role.member, joinedAt := 1 }] } := by
  decide

/-- C4 (evaluation at the failing input). The creator U1 is deleted while U3, an admin
member, and U2 still exist. The transfer step looks only at the first admin entry with a
non-null `userId`, which is the deleted U1, and changes nothing: `creatorId` stays U1
although a resolving admin member exists. -/
theorem transferOwnership_skips_later_resolving_admin :
    findById [bob, carol] 1 = none ∧
    (∃ m ∈ twoAdmins.members, m.role = Role.admin ∧ memberValid [bob, carol] m = true) ∧
    transferOwnership [bob, carol] twoAdmins = (twoAdmins, false) ∧
    (cleanupGroup [bob, carol] twoAdmins).map (fun g => g.creatorId) = some (some 1) := by
  refine ⟨by decide, ⟨{ userId := some 3, role := Role.admin, joinedAt := 2 }, ?_, ?_, ?_⟩,
    by decide, by decide⟩ <;> decide

/-- C5 (evaluation at the failing input). On a group whose creator U1 is deleted, with
members U1 (admin) and U2 (member) and a join request of U3, a second run of the repair
changes what the first run stored: the first run only drops U1, the second run promotes U2
and makes U2 the creator. -/
theorem cleanupGroup_second_run_differs :
    cleanupGroup [bob, carol] withRequest =
      some { withRequest with
        members := [{ userId := some 2, role := Role.member, joinedAt := 1 }] } ∧
    cleanupStored [bob, carol] (cleanupGroup [bob, carol] withRequest) =
      some { withRequest with
        creatorId := some 2
        members := [{ userId := some 2, role := Role.admin, joinedAt := 1 }] } ∧
    cleanupStored [bob, carol] (cleanupGroup [bob, carol] withRequest) ≠
      cleanupGroup [bob, carol] withRequest := by
  decide

theorem transferOwnership_of_creator_ok {users : List User} {g : Group}
    (hc : g.creatorId = none ∨ resolves users g.creatorId = true) :
    transferOwnership users g = (g, false) := by
  rcases hc with hc | hc
  · simp only [transferOwnership, hc]
  · exact transferOwnership_of_resolves hc

/-- When the ownership step has nothing to do (the creator reference is null or resolves),
a second run of the per-group repair stores what the first run stored. -/
theorem cleanupGroup_idempotent_of_creator_ok (users : List User) (g : Group)
    (hc : g.creatorId = none ∨ resolves users g.creatorId = true) :
    cleanupStored users (cleanupGroup users g) = cleanupGroup users g := by
  by_cases hnone : g.creatorId = none
  · rw [cleanupGroup_of_no_creator users g hnone]
    split
    · rfl
    · rename_i hne
      simp only [cleanupStored, Option.bind]
      rw [cleanupGroup_of_no_creator users g hnone, if_neg hne]
  · rw [cleanupGroup_eq users g hnone, transferOwnership_of_creator_ok hc]
    simp only
    split
    · rfl
    · rename_i hne
      simp only [cleanupStored, Option.bind]
      rw [cleanupGroup_eq _ _ (by simpa using hnone),
        transferOwnership_of_creator_ok (by simpa using hc)]
      simp [List.filter_filter, hne]

/-! ## Read-time reconciliation (getGroupDetails) -/

/-- C6 (evaluation at the failing input). U3 has a pending join request and no user
document. U1, a member, opens the group: `getGroupDetails` answers 200 and the stored group
still holds the request of U3, so the read path does not remove dangling join requests. The
sweep on the same group removes the request. -/
theorem getGroupDetails_keeps_dangling_join_request :
    resolves [alice, bob] (some 3) = false ∧
    (getGroupDetails [alice, bob] (some withRequest) 1).1.status = 200 ∧
    ((getGroupDetails [alice, bob] (some withRequest) 1).2.map
      (fun g => g.joinRequests.map (fun r => r.userId))) = some [some 3] ∧
    (cleanupGroup [alice, bob] withRequest).map (fun g => g.joinRequests) = some [] := by
  decide

/-- The half of read-time reconciliation the handler performs. For every user collection,
caller and stored group with a creator reference, `getGroupDetails` leaves stored exactly
the group with `members` cut down to the entries whose `userId` resolves (every other
field, `joinRequests` included, as it was), and it answers 200 exactly when the caller is
among those remaining members and 403 otherwise: the access decision is taken on the
reconciled member list. -/
theorem getGroupDetails_reconciles_members_before_access_check (users : List User)
    (g : Group) (caller : UserId) (hc : g.creatorId ≠ none) :
    (getGroupDetails users (some g) caller).2 =
        some { g with members := g.members.filter (memberValid users) } ∧
      ((getGroupDetails users (some g) caller).1.status = 200 ↔
        some caller ∈ (g.members.filter (memberValid users)).map (fun m => m.userId)) ∧
      ((getGroupDetails users (some g) caller).1.status = 200 ∨
        (getGroupDetails users (some g) caller).1.status = 403) :=
  ⟨getGroupDetails_stored users g caller hc, getGroupDetails_status users g caller hc⟩

/-- On a document without `creatorId` whose member list needs cleaning, the `save()` of
`getGroupDetails` is refused: the reply is 500 and the document stays as it was. -/
theorem getGroupDetails_save_refused (users : List User) (g : Group) (caller : UserId)
    (hc : g.creatorId = none) (hm : ∃ m ∈ g.members, memberValid users m = false) :
    getGroupDetails users (some g) caller =
      ({ status := 500, error := "Failed to fetch group details", members := [] },
        some g) := by
  have hf : (g.members.map (populateMember users)).filter (fun m => m.userId.isSome) =
      (g.members.filter (memberValid users)).map (populateMember users) := by
    rw [List.filter_map]
    congr 1
    apply List.filter_congr
    intro m _
    simp [populateMember_isSome]
  have hlt : (g.members.filter (memberValid users)).length < g.members.length := by
    rw [List.length_filter_lt_length_iff_exists]
    obtain ⟨m, hmem, hv⟩ := hm
    exact ⟨m, hmem, by simp [hv]⟩
  have hchanged : (((g.members.map (populateMember users)).filter
      (fun m => m.userId.isSome)).length != (g.members.map (populateMember users)).length) =
      true := by
    rw [hf]
    simp only [List.length_map, bne_iff_ne, ne_eq]
    omega
  simp only [getGroupDetails, hchanged, saveAccepts, hc, Option.isSome_none, Bool.not_false,
    Bool.and_self, if_true]

/-- The refused `save()` at a concrete document: with U1 deleted, the sweep cannot store the
cleaned `noCreator`, stops there and leaves the groups after it untouched, and
`getGroupDetails` answers 500; the dangling member U1 stays stored. -/
theorem repair_refused_without_creator :
    cleanupGroup [bob] noCreator = some noCreator ∧
    cleanupDeletedUsers [bob] [noCreator, withRequest] = [noCreator, withRequest] ∧
    cleanupDeletedUsers [bob] [withRequest, noCreator] =
      [{ withRequest with
          members := [{ userId := some 2, role := Role.member, joinedAt := 1 }]
          joinRequests := [] },
        noCreator] ∧
    getGroupDetails [bob] (some noCreator) 2 =
      ({ status := 500, error := "Failed to fetch group details", members := [] },
        some noCreator) := by
  decide

/-! ## Integrity repair: what the sweep stores -/

/-- C7 (evaluation at the failing input). Both members of the group are deleted users and
U3 opens it. Read-time reconciliation answers 403 and saves the group with an empty member
list; it does not delete it, as the sweep does for the same group. -/
theorem getGroupDetails_stores_group_with_no_members :
    (∀ m ∈ scenarioA.members, memberValid [carol] m = false) ∧
    getGroupDetails [carol] (some scenarioA) 3 =
      ({ status := 403, error := "You are not a member of this group", members := [] },
        some { scenarioA with members := [] }) ∧
    cleanupGroup [carol] scenarioA = none := by
  decide

/-- The sweep never stores a group with an empty member list: the per-group body of
`cleanupDeletedUsers` deletes the group exactly when no member resolves to an existing
user, and every group it keeps has at least one member. -/
theorem cleanupGroup_never_stores_empty_group (users : List User) (g : Group) :
    (cleanupGroup users g = none ↔ ∀ m ∈ g.members, memberValid users m = false) ∧
      (∀ kept : Group, cleanupGroup users g = some kept → kept.members ≠ []) := by
  have hnil : (transferOwnership users g).1.members.filter (memberValid users) = [] ↔
      ∀ m ∈ g.members, memberValid users m = false := by
    have h1 := map_userId_filter_memberValid users (transferOwnership users g).1.members
    have h2 := map_userId_filter_memberValid users g.members
    rw [(transferOwnership_frame users g).1, ← h2] at h1
    rw [← List.map_eq_nil_iff, h1, List.map_eq_nil_iff, List.filter_eq_nil_iff]
    simp
  by_cases hnone : g.creatorId = none
  · have ht : transferOwnership users g = (g, false) := by
      simp only [transferOwnership, hnone]
    rw [ht] at hnil
    rw [cleanupGroup_of_no_creator users g hnone]
    constructor
    · rw [← hnil]
      split <;> simp_all
    · intro kept hk
      split at hk
      · simp at hk
      · rename_i hne
        simp only [Option.some.injEq] at hk
        rw [← hk]
        intro hnil2
        exact hne (by rw [hnil2]; rfl)
  · rw [cleanupGroup_eq users g hnone]
    constructor
    · rw [← hnil]
      split <;> simp_all
    · intro kept hk
      split at hk
      · simp at hk
      · rename_i hne
        simp only [Option.some.injEq] at hk
        rw [← hk]
        exact hne

/-- C8. For every group with a creator reference (the schema requires `creatorId`) that the
sweep keeps, the userIds of its members afterwards are the userIds of the original members
that resolve, in the original order, and likewise for the join requests; every stored
member and join request resolves. -/
theorem cleanupGroup_keeps_exactly_resolving_entries (users : List User) (g kept : Group)
    (hcreator : g.creatorId ≠ none)
    (h : cleanupGroup users g = some kept) :
    kept.members.map (fun m => m.userId) =
        (g.members.filter (memberValid users)).map (fun m => m.userId) ∧
      kept.joinRequests.map (fun r => r.userId) =
        (g.joinRequests.filter (requestValid users)).map (fun r => r.userId) ∧
      (∀ m ∈ kept.members, memberValid users m = true) ∧
      (∀ r ∈ kept.joinRequests, requestValid users r = true) := by
  rw [cleanupGroup_eq users g hcreator] at h
  split at h
  · simp at h
  · simp only [Option.some.injEq] at h
    subst h
    refine ⟨?_, rfl, ?_, ?_⟩
    · simp only
      rw [map_userId_filter_memberValid, map_userId_filter_memberValid,
        (transferOwnership_frame users g).1]
    · intro m hm
      exact (List.mem_filter.1 hm).2
    · intro r hr
      exact (List.mem_filter.1 hr).2

/-- Witness for C8: the sweep over the group with a dangling request, U1 deleted. -/
theorem cleanupGroup_keeps_exactly_resolving_entries_witness :
    cleanupGroup [bob] withRequest =
        some { withRequest with
          members := [{ userId := some 2, role := Role.member, joinedAt := 1 }]
          joinRequests := [] } ∧
      [some 2] = (withRequest.members.filter (memberValid [bob])).map (fun m => m.userId) :=
  ⟨by decide,
    (cleanupGroup_keeps_exactly_resolving_entries [bob] withRequest
      { withRequest with
        members := [{ userId := some 2, role := Role.member, joinedAt := 1 }]
        joinRequests := [] } (by decide) (by decide)).1⟩

/-- C9. Reconciliation is a no-op on a clean group: when the group has a member and its
`creatorId`, every member `userId` and every join-request `userId` resolve, the sweep keeps
the group and stores it unchanged, and `getGroupDetails` leaves it stored unchanged for
every caller. -/
theorem reconciliation_noop_on_clean_group (users : List User) (g : Group) (caller : UserId)
    (hne : g.members ≠ [])
    (hc : resolves users g.creatorId = true)
    (hm : ∀ m ∈ g.members, memberValid users m = true)
    (hr : ∀ r ∈ g.joinRequests, requestValid users r = true) :
    cleanupGroup users g = some g ∧
      cleanupDeletedUsers users [g] = [g] ∧
      (getGroupDetails users (some g) caller).2 = some g := by
  have hfm : g.members.filter (memberValid users) = g.members := List.filter_eq_self.2 hm
  have hfr : g.joinRequests.filter (requestValid users) = g.joinRequests :=
    List.filter_eq_self.2 hr
  have hcreator : g.creatorId ≠ none := by
    intro hnone
    rw [hnone] at hc
    simp [resolves] at hc
  have hstep : cleanupStep users g = Except.ok (some g) := by
    rw [cleanupStep_eq users g hcreator, transferOwnership_of_resolves hc]
    simp only [hfm, hfr, if_neg hne]
  have hsweep : cleanupGroup users g = some g := by
    simp only [cleanupGroup, hstep]
  refine ⟨hsweep, ?_, ?_⟩
  · simp [cleanupDeletedUsers, hstep]
  · rw [getGroupDetails_stored users g caller hcreator, hfm]

/-- Witness for C9: Scenario A while both users still exist. -/
theorem reconciliation_noop_on_clean_group_witness :
    scenarioA.members ≠ [] ∧ resolves [alice, bob] scenarioA.creatorId = true ∧
      cleanupGroup [alice, bob] scenarioA = some scenarioA ∧
      (getGroupDetails [alice, bob] (some scenarioA) 2).2 = some scenarioA :=
  have h := reconciliation_noop_on_clean_group [alice, bob] scenarioA 2 (by decide) (by decide)
    (by decide) (by decide)
  ⟨by decide, by decide, h.1, h.2.2⟩

/-! ## Submission workflow: the terminal state -/

/-- While the record of a pair is graded, no submit on that pair writes to the submission
collection, whoever calls and whatever the reply. -/
theorem submitAssignment_graded_never_writes (newId now : Nat) (w : World) (s : Submission)
    (userId : UserId) (submissionNotes : Option String) (files : List ReqFile)
    (hpair : findSubmission w.submissions s.assignmentId s.groupId = some s)
    (hgraded : s.status = Status.graded) :
    (submitAssignment newId now w userId s.assignmentId s.groupId submissionNotes
      files).2.submissions = w.submissions ∧
    400 ≤ (submitAssignment newId now w userId s.assignmentId s.groupId submissionNotes
      files).1.status := by
  simp only [submitAssignment, hpair, hgraded, if_true]
  repeat' split
  all_goals simp

/-- C10. A graded submission is terminal. Let `s` be the record `Submission.findOne` finds
for its pair and `Submission.findById` finds for its id, with status graded. A submit on
that pair by a current member of the group, naming the existing assignment, is answered 400
with "Assignment already graded. Cannot resubmit.", leaves the submission collection as it
was, and afterwards no file uploaded with the request is in storage. Grading `s` again is
answered 400 with "Can only grade submitted assignments" and changes nothing. -/
theorem graded_is_terminal (newId now : Nat) (w : World) (s : Submission) (group : Group)
    (assignment : Assignment) (userId reviewerId : UserId) (submissionNotes : Option String)
    (files : List ReqFile) (grade : Option ℚ) (feedback : Option String)
    (hpair : findSubmission w.submissions s.assignmentId s.groupId = some s)
    (hid : findSubmissionById w.submissions s.id = some s)
    (hgraded : s.status = Status.graded)
    (hgroup : findGroup w.groups s.groupId = some group)
    (hmember : someE (fun m : Member => idIs m.userId userId) group.members = Except.ok true)
    (hassignment : findAssignment w.assignments s.assignmentId = some assignment) :
    (submitAssignment newId now w userId s.assignmentId s.groupId submissionNotes files).1 =
        ⟨400, "Assignment already graded. Cannot resubmit."⟩ ∧
      (submitAssignment newId now w userId s.assignmentId s.groupId submissionNotes
        files).2.submissions = w.submissions ∧
      (∀ f ∈ files, f.path ∉
        (submitAssignment newId now w userId s.assignmentId s.groupId submissionNotes
          files).2.files) ∧
      gradeSubmission now w s.id reviewerId grade feedback =
        (⟨400, "Can only grade submitted assignments"⟩, w) := by
  have hsub : submitAssignment newId now w userId s.assignmentId s.groupId submissionNotes files =
      (⟨400, "Assignment already graded. Cannot resubmit."⟩,
        { w with files := unlinkAll (files.map (fun f => f.path)) w.files }) := by
    simp only [submitAssignment, hgroup, hmember, hassignment, hpair, hgraded, if_true]
  refine ⟨by rw [hsub], by rw [hsub], ?_, ?_⟩
  · intro f hf
    rw [hsub]
    exact not_mem_unlinkAll (List.mem_map.2 ⟨f, hf, rfl⟩)
  · simp [gradeSubmission, hid, hgraded]

/-- Witness for C10: U2, a member of group 7, resubmits assignment 5 with `uploads/y` after
the submission was graded, and the reviewer grades it again. -/
theorem graded_is_terminal_witness :
    findSubmission gradedWorld.submissions 5 7 = some gradedSubmission ∧
      gradedSubmission.status = Status.graded ∧
      submitAssignment 101 3 gradedWorld 2 5 7 (some "again") [fileY] =
        (⟨400, "Assignment already graded. Cannot resubmit."⟩,
          { gradedWorld with files := ["uploads/x"] }) ∧
      gradeSubmission 3 gradedWorld 100 9 (some 95) (some "better") =
        (⟨400, "Can only grade submitted assignments"⟩, gradedWorld) :=
  have h := graded_is_terminal 101 3 gradedWorld gradedSubmission scenarioA assignment5 2 9
    (some "again") [fileY] (some 95) (some "better") (by decide) (by decide) (by decide)
    (by decide) rfl (by decide)
  ⟨by decide, by decide, by decide, h.2.2.2⟩

/-! ## Auxiliary facts on the submission store -/

theorem someE_idIs_of_not_mem {α : Type} (f : α → Option UserId) (u : UserId) :
    ∀ l : List α, (∀ x ∈ l, f x ≠ none) → (∀ x ∈ l, f x ≠ some u) →
      someE (fun x => idIs (f x) u) l = Except.ok false := by
  intro l
  induction l with
  | nil => intro _ _; rfl
  | cons x xs ih =>
    intro hnn hne
    have h1 := hnn x (List.mem_cons_self _ _)
    have h2 := hne x (List.mem_cons_self _ _)
    cases hx : f x with
    | none => exact absurd hx h1
    | some i =>
      have hi : (i == u) = false := by
        simp only [beq_eq_false_iff_ne, ne_eq]
        intro e
        exact h2 (by rw [hx, e])
      simp only [someE, idIs, hx, hi]
      exact ih (fun y hy => hnn y (List.mem_cons_of_mem _ hy))
        (fun y hy => hne y (List.mem_cons_of_mem _ hy))

theorem mem_unlinkAll {paths : List String} {p : String} :
    ∀ {files : List String}, p ∈ files → p ∉ paths → p ∈ unlinkAll paths files := by
  induction paths with
  | nil => intro files h _; exact h
  | cons q qs ih =>
    intro files h hn
    simp only [List.mem_cons, not_or] at hn
    apply ih _ hn.2
    simp only [unlink, List.mem_filter]
    exact ⟨h, by simpa using hn.1⟩

theorem length_saveSubmission (doc : Submission) (submissions : List Submission) :
    (saveSubmission doc submissions).length = submissions.length := by
  simp [saveSubmission]

theorem findSubmissionById_saveSubmission (doc : Submission) :
    ∀ (submissions : List Submission) (old : Submission),
      findSubmissionById submissions doc.id = some old →
      findSubmissionById (saveSubmission doc submissions) doc.id = some doc := by
  intro submissions
  induction submissions with
  | nil => intro old h; simp [findSubmissionById] at h
  | cons s ss ih =>
    intro old h
    simp only [findSubmissionById, saveSubmission, List.map_cons, List.find?_cons] at h ⊢
    by_cases hs : (s.id == doc.id) = true
    · simp [hs]
    · simp only [hs] at h ⊢
      simp only [Bool.false_eq_true, if_false]
      simp only [Bool.not_eq_true] at hs
      rw [hs]
      exact ih old h

theorem submitAssignmentPersist_true (newId now : Nat) (w : World) (userId : UserId)
    (assignmentId groupId : Nat) (submissionNotes : Option String) (files : List ReqFile) :
    submitAssignmentPersist true newId now w userId assignmentId groupId submissionNotes files =
      submitAssignment newId now w userId assignmentId groupId submissionNotes files := by
  simp only [submitAssignmentPersist, submitAssignment, if_true]

/-! ## Submission workflow: rejected and repeated submits -/

/-- Whenever the caller is a member and the assignment is missing, `submitAssignment` answers
404 and returns before any cleanup: the store, the upload directory included, is exactly as
it was. -/
theorem submitAssignment_missing_assignment (newId now : Nat) (w : World) (group : Group)
    (userId : UserId) (assignmentId groupId : Nat) (submissionNotes : Option String)
    (files : List ReqFile)
    (hgroup : findGroup w.groups groupId = some group)
    (hmember : someE (fun m : Member => idIs m.userId userId) group.members = Except.ok true)
    (hassignment : findAssignment w.assignments assignmentId = none) :
    submitAssignment newId now w userId assignmentId groupId submissionNotes files =
      (⟨404, "Assignment not found"⟩, w) := by
  simp only [submitAssignment, hgroup, hmember, hassignment]

/-- C11 (evaluation at the failing input). U2, a member of group 7, submits `uploads/y` for
assignment 6, which does not exist. The handler answers 404 and no submission changes, but
it returns without unlinking: `uploads/y` is still in storage. -/
theorem submitAssignment_missing_assignment_keeps_upload :
    findAssignment gradedWorld.assignments 6 = none ∧
    submitAssignment 101 3 gradedWorld 2 6 7 (some "late") [fileY] =
      (⟨404, "Assignment not found"⟩, gradedWorld) ∧
    fileY.path ∈ (submitAssignment 101 3 gradedWorld 2 6 7 (some "late") [fileY]).2.files := by
  decide

/-- C12. A submit whose group does not exist, or whose submitter matches no entry of the
group's member list (the member references being non-null ObjectIds), is answered 403 with
"You are not a member of this group"; the submission collection is as it was and no file
uploaded with the request is left in storage. -/
theorem submitAssignment_non_member_forbidden (newId now : Nat) (w : World) (userId : UserId)
    (assignmentId groupId : Nat) (submissionNotes : Option String) (files : List ReqFile)
    (hnot : ∀ group : Group, findGroup w.groups groupId = some group →
      (∀ m ∈ group.members, m.userId ≠ none) ∧
        (∀ m ∈ group.members, m.userId ≠ some userId)) :
    (submitAssignment newId now w userId assignmentId groupId submissionNotes files).1 =
        ⟨403, "You are not a member of this group"⟩ ∧
      (submitAssignment newId now w userId assignmentId groupId submissionNotes
        files).2.submissions = w.submissions ∧
      (∀ f ∈ files, f.path ∉
        (submitAssignment newId now w userId assignmentId groupId submissionNotes
          files).2.files) := by
  have hsub : submitAssignment newId now w userId assignmentId groupId submissionNotes files =
      (⟨403, "You are not a member of this group"⟩,
        { w with files := unlinkAll (files.map (fun f => f.path)) w.files }) := by
    cases hg : findGroup w.groups groupId with
    | none => simp only [submitAssignment, hg]
    | some group =>
      have hm := someE_idIs_of_not_mem (fun m : Member => m.userId) userId group.members
        (hnot group hg).1 (hnot group hg).2
      simp only [submitAssignment, hg, hm]
  refine ⟨by rw [hsub], by rw [hsub], ?_⟩
  intro f hf
  rw [hsub]
  exact not_mem_unlinkAll (List.mem_map.2 ⟨f, hf, rfl⟩)

/-- Witness for C12: U3 is not a member of group 7 and submits `uploads/y`. -/
theorem submitAssignment_non_member_forbidden_witness :
    submitAssignment 101 3 gradedWorld 3 5 7 none [fileY] =
        (⟨403, "You are not a member of this group"⟩,
          { gradedWorld with files := ["uploads/x"] }) ∧
      (∀ f ∈ [fileY], f.path ∉
        (submitAssignment 101 3 gradedWorld 3 5 7 none [fileY]).2.files) :=
  ⟨by decide,
    (submitAssignment_non_member_forbidden 101 3 gradedWorld 3 5 7 none [fileY]
      (by
        intro group hg
        have : group = scenarioA := by
          have h : findGroup gradedWorld.groups 7 = some scenarioA := by decide
          rw [h] at hg
          exact (Option.some.inj hg).symm
        subst this
        decide)).2.2⟩

/-- C13. Resubmission on a pair whose record `e` is not graded, by a member, for an existing
assignment, with request files `F`. The call answers 200; the collection is the old one with
the document of id `e.id` replaced, so no record is added and the record found under `e.id`
is `e` with status submitted and `submissionNotes`, `submittedBy`, `submittedAt`
overwritten. If `F` is not empty the file list is exactly `F` and afterwards no previously
attached path is in storage, while every other stored path stays. If `F` is empty the file
list and the storage are untouched. -/
theorem submitAssignment_resubmit_replaces_files (newId now : Nat) (w : World)
    (e : Submission) (group : Group) (assignment : Assignment) (userId : UserId)
    (assignmentId groupId : Nat) (submissionNotes : Option String) (files : List ReqFile)
    (hgroup : findGroup w.groups groupId = some group)
    (hmember : someE (fun m : Member => idIs m.userId userId) group.members = Except.ok true)
    (hassignment : findAssignment w.assignments assignmentId = some assignment)
    (hpair : findSubmission w.submissions assignmentId groupId = some e)
    (hopen : e.status ≠ Status.graded) :
    (submitAssignment newId now w userId assignmentId groupId submissionNotes files).1 =
        ⟨200, "Assignment resubmitted successfully!"⟩ ∧
      (submitAssignment newId now w userId assignmentId groupId submissionNotes
          files).2.submissions =
        saveSubmission
          { e with
            status := Status.submitted
            submissionNotes := submissionNotes
            submittedBy := userId
            submittedAt := some now
            uploadedFiles := if files = [] then e.uploadedFiles
              else files.map (toUploadedFile now) }
          w.submissions ∧
      (submitAssignment newId now w userId assignmentId groupId submissionNotes
          files).2.submissions.length = w.submissions.length ∧
      findSubmissionById
          (submitAssignment newId now w userId assignmentId groupId submissionNotes
            files).2.submissions e.id =
        some
          { e with
            status := Status.submitted
            submissionNotes := submissionNotes
            submittedBy := userId
            submittedAt := some now
            uploadedFiles := if files = [] then e.uploadedFiles
              else files.map (toUploadedFile now) } ∧
      (files ≠ [] →
        (∀ f ∈ e.uploadedFiles, f.path ∉
          (submitAssignment newId now w userId assignmentId groupId submissionNotes
            files).2.files) ∧
        (∀ p ∈ w.files, p ∉ e.uploadedFiles.map (fun f => f.path) → p ∈
          (submitAssignment newId now w userId assignmentId groupId submissionNotes
            files).2.files)) ∧
      (files = [] →
        (submitAssignment newId now w userId assignmentId groupId submissionNotes
          files).2.files = w.files) := by
  have hfiles : (if (files.map (toUploadedFile now)).length > 0 then
        files.map (toUploadedFile now) else e.uploadedFiles) =
      (if files = [] then e.uploadedFiles else files.map (toUploadedFile now)) := by
    cases files <;> simp
  have hsub : submitAssignment newId now w userId assignmentId groupId submissionNotes files =
      (⟨200, "Assignment resubmitted successfully!"⟩,
        { w with
          submissions := saveSubmission
            { e with
              status := Status.submitted
              submissionNotes := submissionNotes
              submittedBy := userId
              submittedAt := some now
              uploadedFiles := if files = [] then e.uploadedFiles
                else files.map (toUploadedFile now) }
            w.submissions
          files :=
            if (files.map (toUploadedFile now)).length > 0 ∧ e.uploadedFiles.length > 0 then
              unlinkAll (e.uploadedFiles.map (fun f => f.path)) w.files
            else w.files }) := by
    simp only [submitAssignment, hgroup, hmember, hassignment, hpair, hopen, if_false, hfiles]
  have hmem : e ∈ w.submissions := List.mem_of_find?_eq_some hpair
  obtain ⟨old, hold⟩ : ∃ old, findSubmissionById w.submissions e.id = some old := by
    apply Option.isSome_iff_exists.1
    simp only [findSubmissionById, List.find?_isSome]
    exact ⟨e, hmem, by simp⟩
  rw [hsub]
  refine ⟨rfl, rfl, length_saveSubmission _ _, ?_, ?_, ?_⟩
  · exact findSubmissionById_saveSubmission
      { e with
        status := Status.submitted
        submissionNotes := submissionNotes
        submittedBy := userId
        submittedAt := some now
        uploadedFiles := if files = [] then e.uploadedFiles
          else files.map (toUploadedFile now) } w.submissions old hold
  · intro hne
    have hpos : (files.map (toUploadedFile now)).length > 0 := by
      cases files with
      | nil => exact absurd rfl hne
      | cons f fs => simp
    constructor
    · intro f hf
      have hold : e.uploadedFiles.length > 0 := List.length_pos_of_mem hf
      simp only [hpos, hold, and_self, if_true]
      exact not_mem_unlinkAll (List.mem_map.2 ⟨f, hf, rfl⟩)
    · intro p hp hnot
      by_cases hold : e.uploadedFiles.length > 0
      · simp only [hpos, hold, and_self, if_true]
        exact mem_unlinkAll hp hnot
      · simp only [hold, and_false, if_false]
        exact hp
  · intro hnil
    subst hnil
    simp

/-- What `submitAssignment` can do to the submission collection: nothing, replace the
ungraded record of the pair, or append the first record of the pair. -/
theorem submitAssignment_submissions_cases (newId now : Nat) (w : World) (userId : UserId)
    (assignmentId groupId : Nat) (submissionNotes : Option String) (files : List ReqFile) :
    (submitAssignment newId now w userId assignmentId groupId submissionNotes
        files).2.submissions = w.submissions ∨
      (∃ e : Submission, findSubmission w.submissions assignmentId groupId = some e ∧
        e.status ≠ Status.graded ∧
        (submitAssignment newId now w userId assignmentId groupId submissionNotes
            files).2.submissions =
          saveSubmission
            { e with
              status := Status.submitted
              submissionNotes := submissionNotes
              submittedBy := userId
              submittedAt := some now
              uploadedFiles :=
                if (files.map (toUploadedFile now)).length > 0 then
                  files.map (toUploadedFile now)
                else e.uploadedFiles }
            w.submissions) ∨
      (findSubmission w.submissions assignmentId groupId = none ∧
        (submitAssignment newId now w userId assignmentId groupId submissionNotes
            files).2.submissions =
          w.submissions ++
            [{ id := newId, assignmentId := assignmentId, groupId := groupId,
               submittedBy := userId, status := Status.submitted,
               submissionNotes := submissionNotes,
               uploadedFiles := files.map (toUploadedFile now),
               grade := none, feedback := none, reviewedBy := none, reviewedAt := none,
               submittedAt := some now }]) := by
  cases hg : findGroup w.groups groupId with
  | none => exact Or.inl (by simp only [submitAssignment, hg])
  | some group =>
    cases hm : someE (fun m : Member => idIs m.userId userId) group.members with
    | error e => exact Or.inl (by simp only [submitAssignment, hg, hm])
    | ok b =>
      cases b with
      | false => exact Or.inl (by simp only [submitAssignment, hg, hm])
      | true =>
        cases ha : findAssignment w.assignments assignmentId with
        | none => exact Or.inl (by simp only [submitAssignment, hg, hm, ha])
        | some a =>
          cases hs : findSubmission w.submissions assignmentId groupId with
          | none =>
            exact Or.inr (Or.inr ⟨rfl, by simp only [submitAssignment, hg, hm, ha, hs]⟩)
          | some e =>
            by_cases hst : e.status = Status.graded
            · exact Or.inl (by simp only [submitAssignment, hg, hm, ha, hs, hst, if_true])
            · exact Or.inr (Or.inl ⟨e, rfl, hst,
                by simp only [submitAssignment, hg, hm, ha, hs, hst, if_false]⟩)

/-- What `gradeSubmission` can do to the submission collection: nothing, or replace a record
that was submitted or reviewed by its graded version. -/
theorem gradeSubmission_submissions_cases (now : Nat) (w : World) (submissionId : Nat)
    (reviewerId : UserId) (grade : Option ℚ) (feedback : Option String) :
    (gradeSubmission now w submissionId reviewerId grade feedback).2.submissions =
        w.submissions ∨
      (∃ s : Submission, findSubmissionById w.submissions submissionId = some s ∧
        (s.status = Status.submitted ∨ s.status = Status.reviewed) ∧
        (gradeSubmission now w submissionId reviewerId grade feedback).2.submissions =
          saveSubmission
            { s with
              grade := grade
              feedback := feedback
              reviewedBy := some reviewerId
              reviewedAt := some now
              status := Status.graded }
            w.submissions) := by
  cases hs : findSubmissionById w.submissions submissionId with
  | none => exact Or.inl (by simp only [gradeSubmission, hs])
  | some s =>
    by_cases hst : s.status ≠ Status.submitted ∧ s.status ≠ Status.reviewed
    · exact Or.inl (by simp only [gradeSubmission, hs]; rw [if_pos hst])
    · have hor : s.status = Status.submitted ∨ s.status = Status.reviewed := by
        by_cases h1 : s.status = Status.submitted
        · exact Or.inl h1
        · by_cases h2 : s.status = Status.reviewed
          · exact Or.inr h2
          · exact absurd ⟨h1, h2⟩ hst
      simp only [gradeSubmission, hs]
      rw [if_neg hst]
      split
      · exact Or.inl rfl
      · exact Or.inr ⟨s, rfl, hor, rfl⟩

theorem map_id_saveSubmission (doc : Submission) (submissions : List Submission) :
    (saveSubmission doc submissions).map (fun s => s.id) = submissions.map (fun s => s.id) := by
  simp only [saveSubmission, List.map_map]
  apply List.map_congr_left
  intro s _
  simp only [Function.comp]
  split
  · rename_i h
    simpa using (beq_iff_eq.1 h).symm
  · rfl

/-- Saving a document that keeps the id and the pair of a stored one leaves the pairs of the
collection as they were, provided ids are unique. -/
theorem map_pair_saveSubmission (doc old : Submission) (submissions : List Submission)
    (hnodup : (submissions.map (fun s => s.id)).Nodup) (hold : old ∈ submissions)
    (hid : doc.id = old.id) (ha : doc.assignmentId = old.assignmentId)
    (hg : doc.groupId = old.groupId) :
    (saveSubmission doc submissions).map (fun s => (s.assignmentId, s.groupId)) =
      submissions.map (fun s => (s.assignmentId, s.groupId)) := by
  simp only [saveSubmission, List.map_map]
  apply List.map_congr_left
  intro s hs
  simp only [Function.comp]
  split
  · rename_i h
    have hsid : s.id = old.id := by rw [← hid]; exact beq_iff_eq.1 h
    have : s = old := List.inj_on_of_nodup_map hnodup hs hold hsid
    rw [this, ha, hg]
  · rfl

theorem mem_saveSubmission {doc s : Submission} {submissions : List Submission}
    (h : s ∈ saveSubmission doc submissions) : s = doc ∨ s ∈ submissions := by
  simp only [saveSubmission, List.mem_map] at h
  obtain ⟨t, ht, rfl⟩ := h
  split
  · exact Or.inl rfl
  · exact Or.inr ht

theorem findSubmissionById_mem {submissions : List Submission} {i : Nat} {s : Submission}
    (h : findSubmissionById submissions i = some s) : s ∈ submissions ∧ s.id = i :=
  ⟨List.mem_of_find?_eq_some h, by simpa using List.find?_some h⟩

theorem findSubmission_mem {submissions : List Submission} {a g : Nat} {s : Submission}
    (h : findSubmission submissions a g = some s) :
    s ∈ submissions ∧ s.assignmentId = a ∧ s.groupId = g := by
  refine ⟨List.mem_of_find?_eq_some h, ?_⟩
  simpa using List.find?_some h

theorem findSubmission_none {submissions : List Submission} {a g : Nat}
    (h : findSubmission submissions a g = none) :
    (a, g) ∉ submissions.map (fun s => (s.assignmentId, s.groupId)) := by
  simp only [findSubmission, List.find?_eq_none] at h
  simp only [List.mem_map, not_exists, not_and]
  intro s hs he
  apply h s hs
  simp only [Prod.mk.injEq] at he
  simp [he.1, he.2]

/-- The invariant of reachable stores: ids are unique, no pair has two records, and every
record is submitted or graded. -/
theorem storeReachable_invariant (w : World) (h : StoreReachable w) :
    (w.submissions.map (fun s => s.id)).Nodup ∧
      (w.submissions.map (fun s => (s.assignmentId, s.groupId))).Nodup ∧
      (∀ s ∈ w.submissions, s.status = Status.submitted ∨ s.status = Status.graded) := by
  induction h with
  | empty groups assignments files => simp
  | submit w newId now userId assignmentId groupId submissionNotes files fresh h ih =>
    obtain ⟨hid, hpair, hst⟩ := ih
    rcases submitAssignment_submissions_cases newId now w userId assignmentId groupId
      submissionNotes files with h1 | ⟨e, he, -, h1⟩ | ⟨hn, h1⟩
    · rw [h1]; exact ⟨hid, hpair, hst⟩
    · rw [h1]
      obtain ⟨hmem, -, -⟩ := findSubmission_mem he
      refine ⟨by rw [map_id_saveSubmission]; exact hid, ?_, ?_⟩
      · rw [map_pair_saveSubmission _ e _ hid hmem]
        · exact hpair
        all_goals rfl
      · intro s hs
        rcases mem_saveSubmission hs with rfl | hs
        · exact Or.inl rfl
        · exact hst s hs
    · rw [h1]
      refine ⟨?_, ?_, ?_⟩
      · rw [List.map_append]
        refine List.Nodup.append hid (List.nodup_singleton _) ?_
        simp only [List.map_cons, List.map_nil, List.disjoint_singleton, List.mem_map,
          not_exists, not_and]
        intro s hs
        exact fresh s hs
      · rw [List.map_append]
        refine List.Nodup.append hpair (List.nodup_singleton _) ?_
        simp only [List.map_cons, List.map_nil, List.disjoint_singleton]
        exact findSubmission_none hn
      · intro s hs
        rcases List.mem_append.1 hs with hs | hs
        · exact hst s hs
        · simp only [List.mem_singleton] at hs
          rw [hs]; exact Or.inl rfl
  | grade w now submissionId reviewerId grade feedback h ih =>
    obtain ⟨hid, hpair, hst⟩ := ih
    rcases gradeSubmission_submissions_cases now w submissionId reviewerId grade feedback
      with h1 | ⟨s, hs, -, h1⟩
    · rw [h1]; exact ⟨hid, hpair, hst⟩
    · rw [h1]
      obtain ⟨hmem, -⟩ := findSubmissionById_mem hs
      refine ⟨by rw [map_id_saveSubmission]; exact hid, ?_, ?_⟩
      · rw [map_pair_saveSubmission _ s _ hid hmem]
        · exact hpair
        all_goals rfl
      · intro t ht
        rcases mem_saveSubmission ht with rfl | ht
        · exact Or.inr rfl
        · exact hst t ht
  | environment w groups assignments files h ih => exact ih

/-- When the persistence step of a submit fails, the submission collection is as it was and
no file uploaded with the request is left in storage. -/
theorem submitAssignmentPersist_failure_rolls_back_uploads (newId now : Nat) (w : World)
    (userId : UserId) (assignmentId groupId : Nat) (submissionNotes : Option String)
    (files : List ReqFile) (group : Group) (assignment : Assignment)
    (hgroup : findGroup w.groups groupId = some group)
    (hmember : someE (fun m : Member => idIs m.userId userId) group.members = Except.ok true)
    (hassignment : findAssignment w.assignments assignmentId = some assignment) :
    (submitAssignmentPersist false newId now w userId assignmentId groupId submissionNotes
        files).2.submissions = w.submissions ∧
      (∀ f ∈ files, f.path ∉
        (submitAssignmentPersist false newId now w userId assignmentId groupId submissionNotes
          files).2.files) := by
  simp only [submitAssignmentPersist, hgroup, hmember, hassignment]
  cases hs : findSubmission w.submissions assignmentId groupId with
  | none =>
    simp only [Bool.false_eq_true, if_false, true_and]
    intro f hf
    exact not_mem_unlinkAll (List.mem_map.2 ⟨f, hf, rfl⟩)
  | some e =>
    simp only [Bool.false_eq_true, if_false]
    split
    · refine ⟨rfl, ?_⟩
      intro f hf
      exact not_mem_unlinkAll (List.mem_map.2 ⟨f, hf, rfl⟩)
    · refine ⟨rfl, ?_⟩
      intro f hf
      exact not_mem_unlinkAll (List.mem_map.2 ⟨f, hf, rfl⟩)

/-- C14 (evaluation at the failing input). The record of the pair is submitted with
`uploads/x` attached; U2 resubmits with `uploads/y` and `save()` throws. The handler answers
500, the record is unchanged and `uploads/y` is unlinked, but `uploads/x` was unlinked
before the save: the unchanged record references a file that is no longer in storage. -/
theorem submitAssignmentPersist_failed_resubmit_loses_old_files :
    submitAssignmentPersist false 101 3 submittedWorld 2 5 7 (some "notes2") [fileY] =
      (⟨500, "Failed to submit assignment"⟩, { submittedWorld with files := [] }) ∧
    findSubmission
        (submitAssignmentPersist false 101 3 submittedWorld 2 5 7 (some "notes2")
          [fileY]).2.submissions 5 7 = some submittedSubmission ∧
    fileX ∈ submittedSubmission.uploadedFiles ∧
    fileX.path ∈ submittedWorld.files ∧
    fileX.path ∉
      (submitAssignmentPersist false 101 3 submittedWorld 2 5 7 (some "notes2")
        [fileY]).2.files := by
  decide

/-! ## Submission workflow: one record per pair, reachable statuses -/

/-- C15. In every store reachable from an empty submission collection by sequential
`submitAssignment` and `gradeSubmission` calls, no two stored submissions share both
`assignmentId` and `groupId`. On such a store a submit (by a member, for an existing
assignment) on a pair without record answers 201 and appends exactly one record, with
status submitted, for that pair; a submit on a pair that has a record leaves the number of
records as it was. -/
theorem one_submission_per_pair (w : World) (h : StoreReachable w) :
    (w.submissions.map (fun s => (s.assignmentId, s.groupId))).Nodup ∧
      (∀ (newId now : Nat) (userId : UserId) (assignmentId groupId : Nat)
          (submissionNotes : Option String) (files : List ReqFile) (group : Group)
          (assignment : Assignment),
        findGroup w.groups groupId = some group →
        someE (fun m : Member => idIs m.userId userId) group.members = Except.ok true →
        findAssignment w.assignments assignmentId = some assignment →
        findSubmission w.submissions assignmentId groupId = none →
        (submitAssignment newId now w userId assignmentId groupId submissionNotes
            files).1.status = 201 ∧
          (submitAssignment newId now w userId assignmentId groupId submissionNotes
              files).2.submissions =
            w.submissions ++
              [{ id := newId, assignmentId := assignmentId, groupId := groupId,
                 submittedBy := userId, status := Status.submitted,
                 submissionNotes := submissionNotes,
                 uploadedFiles := files.map (toUploadedFile now),
                 grade := none, feedback := none, reviewedBy := none, reviewedAt := none,
                 submittedAt := some now }]) ∧
      (∀ (newId now : Nat) (userId : UserId) (assignmentId groupId : Nat)
          (submissionNotes : Option String) (files : List ReqFile) (e : Submission),
        findSubmission w.submissions assignmentId groupId = some e →
        (submitAssignment newId now w userId assignmentId groupId submissionNotes
            files).2.submissions.length = w.submissions.length) := by
  refine ⟨(storeReachable_invariant w h).2.1, ?_, ?_⟩
  · intro newId now userId assignmentId groupId submissionNotes files group assignment
      hgroup hmember hassignment hnone
    simp only [submitAssignment, hgroup, hmember, hassignment, hnone, and_self]
  · intro newId now userId assignmentId groupId submissionNotes files e he
    rcases submitAssignment_submissions_cases newId now w userId assignmentId groupId
      submissionNotes files with h1 | ⟨e2, -, -, h1⟩ | ⟨hn, -⟩
    · rw [h1]
    · rw [h1, length_saveSubmission]
    · rw [he] at hn
      exact absurd hn (by simp)

/-- Witness for C15: the store after the first submit of group 7 for assignment 5. -/
theorem one_submission_per_pair_witness :
    StoreReachable (submitAssignment 100 1 emptyWorld 1 5 7 (some "notes") [fileXRequest]).2 ∧
      ((submitAssignment 100 1 emptyWorld 1 5 7 (some "notes")
        [fileXRequest]).2.submissions.map (fun s => (s.assignmentId, s.groupId))).Nodup ∧
      (submitAssignment 100 1 emptyWorld 1 5 7 (some "notes") [fileXRequest]).2.submissions =
        [submittedSubmission] :=
  have hreach : StoreReachable
      (submitAssignment 100 1 emptyWorld 1 5 7 (some "notes") [fileXRequest]).2 :=
    StoreReachable.submit emptyWorld 100 1 1 5 7 (some "notes") [fileXRequest]
      (by intro s hs; simp [emptyWorld] at hs)
      (StoreReachable.empty [scenarioA] [assignment5] ["uploads/x"])
  ⟨hreach, (one_submission_per_pair _ hreach).1, by decide⟩

/-- A record of the saved collection that has the id of a record of the old one is either
the saved document, standing for the old document it replaced, or that old record. -/
theorem mem_saveSubmission_same_id {doc old s t : Submission} {submissions : List Submission}
    (hnodup : (submissions.map (fun s => s.id)).Nodup) (hold : old ∈ submissions)
    (hs : s ∈ submissions) (ht : t ∈ saveSubmission doc submissions)
    (hts : t.id = s.id) (hid : doc.id = old.id) : (t = doc ∧ s = old) ∨ t = s := by
  simp only [saveSubmission, List.mem_map] at ht
  obtain ⟨u, hu, rfl⟩ := ht
  split at hts
  · rename_i h
    refine Or.inl ⟨by simp only [h, if_true], ?_⟩
    exact List.inj_on_of_nodup_map hnodup hs hold (by rw [← hts, hid])
  · rename_i h
    refine Or.inr ?_
    simp only [h, if_false]
    exact List.inj_on_of_nodup_map hnodup hu hs hts

/-- C18. In every store reachable from an empty submission collection by sequential
`submitAssignment` and `gradeSubmission` calls, every record has status submitted or graded
(never pending or reviewed). From such a store, a submit leaves the status of every existing
record as it was (a resubmitted record was submitted and stays submitted), and a grade
either leaves the status of a record as it was or takes it from submitted to graded. -/
theorem reviewed_and_pending_unreachable (w : World) (h : StoreReachable w) :
    (∀ s ∈ w.submissions, s.status = Status.submitted ∨ s.status = Status.graded) ∧
      (∀ (newId now : Nat) (userId : UserId) (assignmentId groupId : Nat)
          (submissionNotes : Option String) (files : List ReqFile),
        (∀ s ∈ w.submissions, s.id ≠ newId) →
        ∀ s ∈ w.submissions,
        ∀ t ∈ (submitAssignment newId now w userId assignmentId groupId submissionNotes
          files).2.submissions,
        t.id = s.id → t.status = s.status) ∧
      (∀ (now submissionId : Nat) (reviewerId : UserId) (grade : Option ℚ)
          (feedback : Option String),
        ∀ s ∈ w.submissions,
        ∀ t ∈ (gradeSubmission now w submissionId reviewerId grade feedback).2.submissions,
        t.id = s.id →
          t.status = s.status ∨ (s.status = Status.submitted ∧ t.status = Status.graded)) := by
  obtain ⟨hid, -, hst⟩ := storeReachable_invariant w h
  refine ⟨hst, ?_, ?_⟩
  · intro newId now userId assignmentId groupId submissionNotes files fresh s hs t ht hts
    rcases submitAssignment_submissions_cases newId now w userId assignmentId groupId
      submissionNotes files with h1 | ⟨e, he, hopen, h1⟩ | ⟨-, h1⟩
    · rw [h1] at ht
      rw [List.inj_on_of_nodup_map hid ht hs hts]
    · rw [h1] at ht
      obtain ⟨hmem, -, -⟩ := findSubmission_mem he
      rcases mem_saveSubmission_same_id hid hmem hs ht hts rfl with ⟨rfl, rfl⟩ | rfl
      · rcases hst s hs with h2 | h2
        · rw [h2]
        · exact absurd h2 hopen
      · rfl
    · rw [h1] at ht
      rcases List.mem_append.1 ht with ht | ht
      · rw [List.inj_on_of_nodup_map hid ht hs hts]
      · simp only [List.mem_singleton] at ht
        rw [ht] at hts
        exact absurd hts.symm (fresh s hs)
  · intro now submissionId reviewerId grade feedback s hs t ht hts
    rcases gradeSubmission_submissions_cases now w submissionId reviewerId grade feedback
      with h1 | ⟨e, he, hor, h1⟩
    · rw [h1] at ht
      exact Or.inl (by rw [List.inj_on_of_nodup_map hid ht hs hts])
    · rw [h1] at ht
      obtain ⟨hmem, -⟩ := findSubmissionById_mem he
      rcases mem_saveSubmission_same_id hid hmem hs ht hts rfl with ⟨rfl, rfl⟩ | rfl
      · refine Or.inr ⟨?_, rfl⟩
        rcases hst s hs with h2 | h2
        · exact h2
        · rcases hor with h3 | h3
          · exact h3
          · rw [h2] at h3
            exact absurd h3 (by decide)
      · exact Or.inl rfl

/-- Witness for C18: submit, then grade; the stored record is graded. -/
theorem reviewed_and_pending_unreachable_witness :
    StoreReachable
        (gradeSubmission 2
          (submitAssignment 100 1 emptyWorld 1 5 7 (some "notes") [fileXRequest]).2
          100 9 (some 90) (some "good")).2 ∧
      (gradeSubmission 2
          (submitAssignment 100 1 emptyWorld 1 5 7 (some "notes") [fileXRequest]).2
          100 9 (some 90) (some "good")).2.submissions = [gradedSubmission] ∧
      (∀ s ∈ (gradeSubmission 2
          (submitAssignment 100 1 emptyWorld 1 5 7 (some "notes") [fileXRequest]).2
          100 9 (some 90) (some "good")).2.submissions,
        s.status = Status.submitted ∨ s.status = Status.graded) :=
  have hreach : StoreReachable
      (gradeSubmission 2
        (submitAssignment 100 1 emptyWorld 1 5 7 (some "notes") [fileXRequest]).2
        100 9 (some 90) (some "good")).2 :=
    StoreReachable.grade _ 2 100 9 (some 90) (some "good")
      (StoreReachable.submit emptyWorld 100 1 1 5 7 (some "notes") [fileXRequest]
        (by intro s hs; simp [emptyWorld] at hs)
        (StoreReachable.empty [scenarioA] [assignment5] ["uploads/x"]))
  ⟨hreach, by decide, (reviewed_and_pending_unreachable _ hreach).1⟩

/-- Witness for C13 (Scenario C): after the first submit with `uploads/x` and notes, U1
submits `uploads/y` with notes2. The same record now has `uploads/y` as its only
attachment and notes2, and `uploads/x` is no longer in storage. -/
theorem submitAssignment_resubmit_replaces_files_witness :
    (submitAssignment 100 1 emptyWorld 1 5 7 (some "notes") [fileXRequest]).2.submissions =
        [submittedSubmission] ∧
      submitAssignment 101 3 submittedWorld 1 5 7 (some "notes2") [fileY] =
        (⟨200, "Assignment resubmitted successfully!"⟩,
          { submittedWorld with
            submissions :=
              [{ submittedSubmission with
                  submissionNotes := some "notes2"
                  submittedAt := some 3
                  uploadedFiles := [toUploadedFile 3 fileY] }]
            files := ["uploads/y"] }) ∧
      (∀ f ∈ submittedSubmission.uploadedFiles, f.path ∉
        (submitAssignment 101 3 submittedWorld 1 5 7 (some "notes2") [fileY]).2.files) :=
  have h := submitAssignment_resubmit_replaces_files 101 3 submittedWorld submittedSubmission
    scenarioA assignment5 1 5 7 (some "notes2") [fileY] (by decide) rfl (by decide)
    (by decide) (by decide)
  ⟨by decide, by decide, (h.2.2.2.2.1 (by decide)).1⟩

/-! ## Grading -/

/-- C16. Through the grade route, a grade that is absent, below 0 or above 100 is rejected
for every existing submission: the reply is the ValidationError 400 "Grade must be between
0 and 100" and the store is as it was. The handler itself never grades with a numeric grade
outside the range either: it answers 400 and changes nothing. -/
theorem grade_outside_range_rejected (now : Nat) (w : World) (submissionId : Nat)
    (s : Submission) (reviewerId : UserId) (grade : Option ℚ) (feedback : Option String)
    (hs : findSubmissionById w.submissions submissionId = some s)
    (hbad : grade = none ∨ ∃ g : ℚ, grade = some g ∧ (g < 0 ∨ 100 < g)) :
    gradeSubmissionRoute now w submissionId reviewerId grade feedback =
        (⟨400, "Grade must be between 0 and 100"⟩, w) ∧
      (∀ g : ℚ, grade = some g →
        (gradeSubmission now w submissionId reviewerId grade feedback).1.status = 400 ∧
        (gradeSubmission now w submissionId reviewerId grade feedback).2 = w) := by
  constructor
  · have hv : gradeValidator grade = false := by
      rcases hbad with rfl | ⟨g, rfl, hg⟩
      · rfl
      · simp only [gradeValidator, Bool.and_eq_false_imp, decide_eq_true_eq,
          decide_eq_false_iff_not, not_le]
        intro h0
        rcases hg with hg | hg
        · exact absurd h0 (not_le.2 hg)
        · exact hg
    simp only [gradeSubmissionRoute, validate, hv, Bool.false_eq_true, if_false]
  · intro g hg
    subst hg
    have hout : (decide (g < 0) || decide (g > 100)) = true := by
      rcases hbad with h | ⟨g2, h, hg2⟩
      · exact absurd h (by simp)
      · have : g = g2 := Option.some.inj h
        subst this
        simpa using hg2
    simp only [gradeSubmission, hs, hout, if_true]
    split <;> exact ⟨rfl, rfl⟩

/-- Witness for C16 (Scenario D): grade 105 on the submitted record. -/
theorem grade_outside_range_rejected_witness :
    findSubmissionById submittedWorld.submissions 100 = some submittedSubmission ∧
      gradeSubmissionRoute 3 submittedWorld 100 9 (some 105) (some "") =
        (⟨400, "Grade must be between 0 and 100"⟩, submittedWorld) :=
  ⟨by decide,
    (grade_outside_range_rejected 3 submittedWorld 100 submittedSubmission 9 (some 105)
      (some "") (by decide) (Or.inr ⟨105, rfl, Or.inr (by norm_num)⟩)).1⟩

/-- The handler `gradeSubmission` alone, without the validator chain of the route, accepts
an absent grade: its range check is guarded by `grade !== undefined`. -/
theorem gradeSubmission_accepts_absent_grade :
    gradeSubmission 3 submittedWorld 100 9 none (some "fine") =
      (⟨200, "Submission graded successfully"⟩,
        { submittedWorld with
          submissions :=
            [{ submittedSubmission with
                status := Status.graded
                feedback := some "fine"
                reviewedBy := some 9
                reviewedAt := some 3 }] }) := by
  decide

/-- C17. Grading a submitted record with a grade `g` between 0 and 100 succeeds: the reply
is 200, the collection is the old one with the document of that id replaced, and the record
found under the id is the old record with `grade = g`, the given feedback, `reviewedBy` the
reviewer, `reviewedAt` the time of the call and status graded; `assignmentId`, `groupId`,
`submittedBy`, `submittedAt`, `submissionNotes` and `uploadedFiles` are those of the old
record. The route gives the same result. -/
theorem gradeSubmission_sets_grade_only (now : Nat) (w : World) (submissionId : Nat)
    (s : Submission) (reviewerId : UserId) (g : ℚ) (feedback : Option String)
    (hs : findSubmissionById w.submissions submissionId = some s)
    (hsubmitted : s.status = Status.submitted)
    (hlow : 0 ≤ g) (hhigh : g ≤ 100) :
    gradeSubmission now w submissionId reviewerId (some g) feedback =
        (⟨200, "Submission graded successfully"⟩,
          { w with
            submissions := saveSubmission
              { s with
                grade := some g
                feedback := feedback
                reviewedBy := some reviewerId
                reviewedAt := some now
                status := Status.graded }
              w.submissions }) ∧
      findSubmissionById
          (gradeSubmission now w submissionId reviewerId (some g) feedback).2.submissions
          submissionId =
        some
          { id := s.id, assignmentId := s.assignmentId, groupId := s.groupId,
            submittedBy := s.submittedBy, status := Status.graded,
            submissionNotes := s.submissionNotes, uploadedFiles := s.uploadedFiles,
            grade := some g, feedback := feedback, reviewedBy := some reviewerId,
            reviewedAt := some now, submittedAt := s.submittedAt } ∧
      gradeSubmissionRoute now w submissionId reviewerId (some g) feedback =
        gradeSubmission now w submissionId reviewerId (some g) feedback := by
  have hout : (decide (g < 0) || decide (g > 100)) = false := by
    simp only [Bool.or_eq_false_iff, decide_eq_false_iff_not, not_lt, gt_iff_lt]
    exact ⟨hlow, hhigh⟩
  have hgrade : gradeSubmission now w submissionId reviewerId (some g) feedback =
      (⟨200, "Submission graded successfully"⟩,
        { w with
          submissions := saveSubmission
            { s with
              grade := some g
              feedback := feedback
              reviewedBy := some reviewerId
              reviewedAt := some now
              status := Status.graded }
            w.submissions }) := by
    simp [gradeSubmission, hs, hsubmitted, hout]
  have hid : s.id = submissionId := (findSubmissionById_mem hs).2
  subst hid
  refine ⟨hgrade, ?_, ?_⟩
  · rw [hgrade]
    exact findSubmissionById_saveSubmission
      { s with
        grade := some g
        feedback := feedback
        reviewedBy := some reviewerId
        reviewedAt := some now
        status := Status.graded } w.submissions s hs
  · have hv : gradeValidator (some g) = true := by
      simp only [gradeValidator, Bool.and_eq_true, decide_eq_true_eq]
      exact ⟨hlow, hhigh⟩
    simp only [gradeSubmissionRoute, validate, hv, if_true]

/-- Witness for C17: grade 90 with feedback on the submitted record gives the graded record
of the sample data. -/
theorem gradeSubmission_sets_grade_only_witness :
    findSubmissionById submittedWorld.submissions 100 = some submittedSubmission ∧
      submittedSubmission.status = Status.submitted ∧
      findSubmissionById
          (gradeSubmission 2 submittedWorld 100 9 (some 90) (some "good")).2.submissions 100 =
        some gradedSubmission :=
  ⟨by decide, rfl,
    (gradeSubmission_sets_grade_only 2 submittedWorld 100 submittedSubmission 9 90
      (some "good") (by decide) rfl (by norm_num) (by norm_num)).2.1⟩

/-! ## Admin authorization and approval -/

theorem findE_idIs_eq (u : UserId) :
    ∀ l : List Member, (∀ m ∈ l, m.userId ≠ none) →
      findE (fun m : Member => idIs m.userId u) l =
        Except.ok (l.find? (fun m => m.userId == some u)) := by
  intro l
  induction l with
  | nil => intro _; rfl
  | cons x xs ih =>
    intro hnn
    have h1 := hnn x (List.mem_cons_self _ _)
    cases hx : x.userId with
    | none => exact absurd hx h1
    | some i =>
      by_cases hi : i = u
      · subst hi
        simp [findE, idIs, hx, List.find?_cons]
      · have hb : (i == u) = false := by simpa using hi
        have hb2 : (some i == some u) = false := by simpa using hi
        simp only [findE, idIs, hx, hb, List.find?_cons, hb2]
        exact ih (fun y hy => hnn y (List.mem_cons_of_mem _ hy))

/-- The admin gate decides exactly "the actor appears in `members` with role admin", on a
member list with non-null references in which no userId is listed with two different roles
(in particular when the userIds are pairwise different). -/
theorem notAdmin_eq (g : Group) (actor : UserId)
    (hnn : ∀ m ∈ g.members, m.userId ≠ none)
    (hrole : ∀ m ∈ g.members, ∀ m' ∈ g.members, m.userId = m'.userId → m.role = m'.role) :
    (notAdmin g actor = Except.ok false ↔
        ∃ m ∈ g.members, m.userId = some actor ∧ m.role = Role.admin) ∧
      (notAdmin g actor = Except.ok true ↔
        ¬ ∃ m ∈ g.members, m.userId = some actor ∧ m.role = Role.admin) := by
  simp only [notAdmin, findE_idIs_eq actor g.members hnn]
  cases hf : g.members.find? (fun m => m.userId == some actor) with
  | none =>
    have hno : ¬ ∃ m ∈ g.members, m.userId = some actor ∧ m.role = Role.admin := by
      rintro ⟨m, hm, hid, -⟩
      have := List.find?_eq_none.1 hf m hm
      simp [hid] at this
    simp [hno]
  | some m =>
    have hm : m ∈ g.members := List.mem_of_find?_eq_some hf
    have hid : m.userId = some actor := by simpa using List.find?_some hf
    have hiff : (∃ m' ∈ g.members, m'.userId = some actor ∧ m'.role = Role.admin) ↔
        m.role = Role.admin := by
      constructor
      · rintro ⟨m', hm', hid', hr⟩
        rw [← hrole m' hm' m hm (by rw [hid', hid])]
        exact hr
      · intro hr
        exact ⟨m, hm, hid, hr⟩
    rw [hiff]
    cases hr : m.role <;> simp [hr]

/-- C19. On a group whose member references are non-null and list no userId with two
different roles (as when the userIds are pairwise different), the authorization check of
`approveJoinRequest`, `rejectJoinRequest`, `addGroupMember`, `removeGroupMember`,
`createAnnouncement` and `deleteAnnouncement` passes exactly when the actor appears in
`members` with role admin. When the actor does not, each of the six answers 403 "Only group
admins can ..." and leaves the group as it was; when the actor does, none of them answers
403. -/
theorem admin_only_operations_gate (users : List User) (now newId : Nat) (g : Group)
    (actor userId : UserId) (emailOrStudentId title content : String)
    (isPinned : Option Bool) (announcementId : Nat)
    (hnn : ∀ m ∈ g.members, m.userId ≠ none)
    (hrole : ∀ m ∈ g.members, ∀ m' ∈ g.members, m.userId = m'.userId → m.role = m'.role) :
    (notAdmin g actor = Except.ok false ↔
        ∃ m ∈ g.members, m.userId = some actor ∧ m.role = Role.admin) ∧
      ((¬ ∃ m ∈ g.members, m.userId = some actor ∧ m.role = Role.admin) →
        approveJoinRequest now g actor userId =
            (⟨403, "Only group admins can approve requests"⟩, g) ∧
          rejectJoinRequest g actor userId =
            (⟨403, "Only group admins can reject requests"⟩, g) ∧
          addGroupMember users now g actor emailOrStudentId =
            (⟨403, "Only group admins can add members"⟩, g) ∧
          removeGroupMember g actor userId =
            (⟨403, "Only group admins can remove members"⟩, g) ∧
          createAnnouncement newId now g actor title content isPinned =
            (⟨403, "Only group admins can create announcements"⟩, g) ∧
          deleteAnnouncement g actor announcementId =
            (⟨403, "Only group admins can delete announcements"⟩, g)) ∧
      ((∃ m ∈ g.members, m.userId = some actor ∧ m.role = Role.admin) →
        (approveJoinRequest now g actor userId).1.status ≠ 403 ∧
          (rejectJoinRequest g actor userId).1.status ≠ 403 ∧
          (addGroupMember users now g actor emailOrStudentId).1.status ≠ 403 ∧
          (removeGroupMember g actor userId).1.status ≠ 403 ∧
          (createAnnouncement newId now g actor title content isPinned).1.status ≠ 403 ∧
          (deleteAnnouncement g actor announcementId).1.status ≠ 403) := by
  obtain ⟨hpass, hfail⟩ := notAdmin_eq g actor hnn hrole
  refine ⟨hpass, ?_, ?_⟩
  · intro hno
    have hgate := hfail.2 hno
    simp only [approveJoinRequest, rejectJoinRequest, addGroupMember, removeGroupMember,
      createAnnouncement, deleteAnnouncement, hgate, and_self]
  · intro hyes
    have hgate := hpass.2 hyes
    refine ⟨?_, ?_, ?_, ?_, ?_, ?_⟩
    · simp only [approveJoinRequest, hgate]
      repeat' split
      all_goals simp
    · simp only [rejectJoinRequest, hgate]
      repeat' split
      all_goals simp
    · simp only [addGroupMember, hgate]
      repeat' split
      all_goals simp
    · simp only [removeGroupMember, hgate]
      repeat' split
      all_goals simp
    · simp only [createAnnouncement, hgate]
      simp
    · simp only [deleteAnnouncement, hgate]
      simp

/-- Witness for C19: in Scenario A, U2 is a plain member and is refused; U1 is the admin. -/
theorem admin_only_operations_gate_witness :
    (scenarioA.members.map (fun m => m.userId)).Nodup ∧
      (¬ ∃ m ∈ scenarioA.members, m.userId = some 2 ∧ m.role = Role.admin) ∧
      removeGroupMember scenarioA 2 1 =
        (⟨403, "Only group admins can remove members"⟩, scenarioA) ∧
      deleteAnnouncement scenarioA 2 4 =
        (⟨403, "Only group admins can delete announcements"⟩, scenarioA) :=
  have hno : ¬ ∃ m ∈ scenarioA.members, m.userId = some 2 ∧ m.role = Role.admin := by decide
  have h := (admin_only_operations_gate [alice, bob] 5 11 scenarioA 2 1 "carol@uni.edu"
    "Exam" "Monday" none 4 (by decide) (by decide)).2.1 hno
  ⟨by decide, hno, h.2.2.2.1, h.2.2.2.2.2⟩

theorem findIndexE_idIs_none (u : UserId) :
    ∀ l : List JoinRequest, (∀ r ∈ l, r.userId ≠ none) →
      some u ∉ l.map (fun r => r.userId) →
      findIndexE (fun r : JoinRequest => idIs r.userId u) l = Except.ok none := by
  intro l
  induction l with
  | nil => intro _ _; rfl
  | cons x xs ih =>
    intro hnn hnot
    have h1 := hnn x (List.mem_cons_self _ _)
    simp only [List.map_cons, List.mem_cons, not_or] at hnot
    cases hx : x.userId with
    | none => exact absurd hx h1
    | some i =>
      have hb : (i == u) = false := by
        simp only [beq_eq_false_iff_ne, ne_eq]
        intro e
        exact hnot.1 (by rw [hx, e])
      have hp : idIs x.userId u = Except.ok false := by simp only [idIs, hx, hb]
      simp only [findIndexE, hp,
        ih (fun y hy => hnn y (List.mem_cons_of_mem _ hy)) hnot.2]

theorem findIndexE_idIs_first (u : UserId) (r : JoinRequest) (post : List JoinRequest)
    (hr : r.userId = some u) :
    ∀ pre : List JoinRequest, (∀ x ∈ pre, x.userId ≠ none) →
      some u ∉ pre.map (fun x => x.userId) →
      findIndexE (fun x : JoinRequest => idIs x.userId u) (pre ++ r :: post) =
        Except.ok (some pre.length) := by
  intro pre
  induction pre with
  | nil =>
    intro _ _
    simp [findIndexE, idIs, hr]
  | cons x xs ih =>
    intro hnn hnot
    have h1 := hnn x (List.mem_cons_self _ _)
    simp only [List.map_cons, List.mem_cons, not_or] at hnot
    cases hx : x.userId with
    | none => exact absurd hx h1
    | some i =>
      have hb : (i == u) = false := by
        simp only [beq_eq_false_iff_ne, ne_eq]
        intro e
        exact hnot.1 (by rw [hx, e])
      have hp : idIs x.userId u = Except.ok false := by simp only [idIs, hx, hb]
      simp only [List.cons_append, findIndexE, hp, List.append_eq,
        ih (fun y hy => hnn y (List.mem_cons_of_mem _ hy)) hnot.2, List.length_cons]

theorem eraseIdx_append_cons {α : Type} (pre : List α) (r : α) (post : List α) :
    (pre ++ r :: post).eraseIdx pre.length = pre ++ post := by
  induction pre with
  | nil => rfl
  | cons x xs ih => simp [List.eraseIdx, ih]

/-- The first entry with a given userId splits the list. -/
theorem exists_first_request (u : UserId) :
    ∀ l : List JoinRequest, some u ∈ l.map (fun r => r.userId) →
      ∃ pre r post, l = pre ++ r :: post ∧ r.userId = some u ∧
        some u ∉ pre.map (fun x => x.userId) := by
  intro l
  induction l with
  | nil => intro h; simp at h
  | cons x xs ih =>
    intro h
    by_cases hx : x.userId = some u
    · exact ⟨[], x, xs, rfl, hx, by simp⟩
    · simp only [List.map_cons, List.mem_cons] at h
      rcases h with h | h
      · exact absurd h.symm hx
      · obtain ⟨pre, r, post, hl, hr, hpre⟩ := ih h
        refine ⟨x :: pre, r, post, by rw [hl]; rfl, hr, ?_⟩
        simp only [List.map_cons, List.mem_cons, not_or]
        exact ⟨fun e => hx e.symm, hpre⟩

/-- C20. For an approver who passes the admin gate, on a group whose join requests carry
non-null references: a full group is answered 400 "Group is full" and is unchanged; a group
that is not full and has no request of `userId` is answered 404 "Join request not found" and
is unchanged; otherwise the first request of `userId` is removed, the other requests keep
their order, `userId` is appended as the last member with role member, the earlier members
are as they were, and the activity is updated. So the call succeeds exactly when a request
of `userId` exists and `members.length < maxMembers`. -/
theorem approveJoinRequest_spec (now : Nat) (g : Group) (actor userId : UserId)
    (hadmin : notAdmin g actor = Except.ok false)
    (hnn : ∀ r ∈ g.joinRequests, r.userId ≠ none) :
    (g.members.length ≥ g.maxMembers →
        approveJoinRequest now g actor userId = (⟨400, "Group is full"⟩, g)) ∧
      (g.members.length < g.maxMembers →
        some userId ∉ g.joinRequests.map (fun r => r.userId) →
        approveJoinRequest now g actor userId = (⟨404, "Join request not found"⟩, g)) ∧
      (g.members.length < g.maxMembers →
        ∀ (pre : List JoinRequest) (r : JoinRequest) (post : List JoinRequest),
          g.joinRequests = pre ++ r :: post → r.userId = some userId →
          some userId ∉ pre.map (fun x => x.userId) →
          approveJoinRequest now g actor userId =
            (⟨200, "Join request approved"⟩,
              { g with
                joinRequests := pre ++ post
                members :=
                  g.members ++ [{ userId := some userId, role := Role.member, joinedAt := now }]
                lastActivityAt := now
                activityCount := g.activityCount + 1 })) ∧
      ((approveJoinRequest now g actor userId).1.status = 200 ↔
        some userId ∈ g.joinRequests.map (fun r => r.userId) ∧
          g.members.length < g.maxMembers) := by
  have hfull : g.members.length ≥ g.maxMembers →
      approveJoinRequest now g actor userId = (⟨400, "Group is full"⟩, g) := by
    intro h
    simp only [approveJoinRequest, hadmin, h, if_true]
  have hmissing : g.members.length < g.maxMembers →
      some userId ∉ g.joinRequests.map (fun r => r.userId) →
      approveJoinRequest now g actor userId = (⟨404, "Join request not found"⟩, g) := by
    intro h hnot
    have hge : ¬ g.members.length ≥ g.maxMembers := not_le.2 h
    simp only [approveJoinRequest, hadmin, hge, if_false,
      findIndexE_idIs_none userId g.joinRequests hnn hnot]
  have hfound : g.members.length < g.maxMembers →
      ∀ (pre : List JoinRequest) (r : JoinRequest) (post : List JoinRequest),
        g.joinRequests = pre ++ r :: post → r.userId = some userId →
        some userId ∉ pre.map (fun x => x.userId) →
        approveJoinRequest now g actor userId =
          (⟨200, "Join request approved"⟩,
            { g with
              joinRequests := pre ++ post
              members :=
                g.members ++ [{ userId := some userId, role := Role.member, joinedAt := now }]
              lastActivityAt := now
              activityCount := g.activityCount + 1 }) := by
    intro h pre r post hsplit hr hpre
    have hge : ¬ g.members.length ≥ g.maxMembers := not_le.2 h
    have hpn : ∀ x ∈ pre, x.userId ≠ none := by
      intro x hx
      exact hnn x (by rw [hsplit]; exact List.mem_append_left _ hx)
    have hidx := findIndexE_idIs_first userId r post hr pre hpn hpre
    rw [← hsplit] at hidx
    simp only [approveJoinRequest, hadmin, hge, if_false, hidx, updateActivity]
    rw [hsplit, eraseIdx_append_cons]
  refine ⟨hfull, hmissing, hfound, ?_⟩
  constructor
  · intro hok
    by_cases hlt : g.members.length < g.maxMembers
    · by_cases hin : some userId ∈ g.joinRequests.map (fun r => r.userId)
      · exact ⟨hin, hlt⟩
      · rw [hmissing hlt hin] at hok
        simp at hok
    · rw [hfull (not_lt.1 hlt)] at hok
      simp at hok
  · rintro ⟨hin, hlt⟩
    obtain ⟨pre, r, post, hsplit, hr, hpre⟩ := exists_first_request userId g.joinRequests hin
    rw [hfound hlt pre r post hsplit hr hpre]

/-- Witness for C20: U1, the admin, approves the pending request of U3. -/
theorem approveJoinRequest_spec_witness :
    notAdmin withRequest 1 = Except.ok false ∧
      approveJoinRequest 5 withRequest 1 3 =
        (⟨200, "Join request approved"⟩,
          { withRequest with
            joinRequests := []
            members := withRequest.members ++
              [{ userId := some 3, role := Role.member, joinedAt := 5 }]
            lastActivityAt := 5
            activityCount := 3 }) :=
  ⟨rfl,
    (approveJoinRequest_spec 5 withRequest 1 3 rfl (by decide)).2.2.1 (by decide) []
      { userId := some 3, requestedAt := 2, message := "please" } [] rfl rfl (by simp)⟩

theorem mem_of_filterE {α : Type} (p : α → Except Unit Bool) :
    ∀ (l ms : List α), filterE p l = Except.ok ms → ∀ x ∈ ms, x ∈ l := by
  intro l
  induction l with
  | nil =>
    intro ms h x hx
    simp only [filterE, Except.ok.injEq] at h
    rw [← h] at hx
    exact hx
  | cons y ys ih =>
    intro ms h x hx
    simp only [filterE] at h
    cases hp : p y with
    | error e => simp [hp] at h
    | ok b =>
      cases hf : filterE p ys with
      | error e => simp [hp, hf] at h
      | ok zs =>
        simp only [hp, hf, Except.ok.injEq] at h
        rw [← h] at hx
        by_cases hb : b = true
        · simp only [hb, if_true, List.mem_cons] at hx
          rcases hx with rfl | hx
          · exact List.mem_cons_self _ _
          · exact List.mem_cons_of_mem _ (ih zs hf x hx)
        · simp only [hb, if_false] at hx
          exact List.mem_cons_of_mem _ (ih zs hf x hx)

/-- Each of the five membership handlers keeps member and join-request references
non-null. -/
theorem applyCall_references_nonnull (users : List User) (g : Group) (c : GroupCall)
    (h : (∀ m ∈ g.members, m.userId ≠ none) ∧
      (∀ r ∈ g.joinRequests, r.userId ≠ none)) :
    (∀ m ∈ (applyCall users g c).members, m.userId ≠ none) ∧
      (∀ r ∈ (applyCall users g c).joinRequests, r.userId ≠ none) := by
  obtain ⟨hm, hr⟩ := h
  have happend : ∀ (u : UserId) (now : Nat),
      ∀ m ∈ g.members ++ [{ userId := some u, role := Role.member, joinedAt := now }],
        m.userId ≠ none := by
    intro u now m hmem
    rcases List.mem_append.1 hmem with h1 | h1
    · exact hm m h1
    · simp only [List.mem_singleton] at h1
      rw [h1]; simp
  have herase : ∀ i : Nat, ∀ r ∈ g.joinRequests.eraseIdx i, r.userId ≠ none := by
    intro i r hmem
    exact hr r ((List.eraseIdx_sublist g.joinRequests i).subset hmem)
  cases c with
  | requestJoinGroup now userId message =>
    simp only [applyCall, requestJoinGroup]
    repeat' split
    all_goals try exact ⟨hm, hr⟩
    refine ⟨hm, ?_⟩
    intro r hmem
    rcases List.mem_append.1 hmem with h1 | h1
    · exact hr r h1
    · simp only [List.mem_singleton] at h1
      rw [h1]; simp
  | approveJoinRequest now actor userId =>
    simp only [applyCall, approveJoinRequest, updateActivity]
    repeat' split
    all_goals try exact ⟨hm, hr⟩
    exact ⟨happend userId now, herase _⟩
  | rejectJoinRequest actor userId =>
    simp only [applyCall, rejectJoinRequest]
    repeat' split
    all_goals try exact ⟨hm, hr⟩
    exact ⟨hm, herase _⟩
  | addGroupMember now actor e =>
    simp only [applyCall, addGroupMember, updateActivity]
    repeat' split
    all_goals try exact ⟨hm, hr⟩
    exact ⟨happend _ now, hr⟩
  | removeGroupMember actor userId =>
    simp only [applyCall, removeGroupMember]
    repeat' split
    all_goals try exact ⟨hm, hr⟩
    rename_i ms hfilter
    exact ⟨fun m hmem => hm m (mem_of_filterE _ _ _ hfilter m hmem), hr⟩

/-- In every reachable group the member and join-request references are non-null. -/
theorem reachable_references_nonnull (users : List User) (g : Group)
    (h : Reachable users g) :
    (∀ m ∈ g.members, m.userId ≠ none) ∧ (∀ r ∈ g.joinRequests, r.userId ≠ none) := by
  obtain ⟨newId, now, creatorId, body, reply, g0, calls, hcreate, hrun⟩ := h
  have h0 : (∀ m ∈ g0.members, m.userId ≠ none) ∧
      (∀ r ∈ g0.joinRequests, r.userId ≠ none) := by
    simp only [createGroup] at hcreate
    split at hcreate
    · simp at hcreate
    · simp only [Prod.mk.injEq, Option.some.injEq] at hcreate
      rw [← hcreate.2]
      simp
  subst hrun
  clear hcreate
  induction calls generalizing g0 with
  | nil => exact h0
  | cons c cs ih =>
    exact ih (applyCall users g0 c) (applyCall_references_nonnull users g0 c h0)

/-! ## Membership handlers: duplicates, requests, removal, rejection, creation -/

/-- Both handlers refuse a new member when the group is full: for an actor who passes the
admin gate, `approveJoinRequest` answers 400 "Group is full" whatever the request queue,
and `addGroupMember` answers 400 for every student it finds (already a member, or full). -/
theorem approve_and_add_reject_when_full (users : List User) (now : Nat) (g : Group)
    (actor userId : UserId) (emailOrStudentId : String)
    (hadmin : notAdmin g actor = Except.ok false)
    (hfull : g.members.length ≥ g.maxMembers) :
    approveJoinRequest now g actor userId = (⟨400, "Group is full"⟩, g) ∧
      (addGroupMember users now g actor emailOrStudentId).2 = g ∧
      (addGroupMember users now g actor emailOrStudentId).1.status ≠ 200 := by
  refine ⟨by simp only [approveJoinRequest, hadmin, hfull, if_true], ?_, ?_⟩
  · simp only [addGroupMember, hadmin, hfull, if_true]
    repeat' split
    all_goals rfl
  · simp only [addGroupMember, hadmin, hfull, if_true]
    repeat' split
    all_goals simp

/-- C21 (evaluation at the failing input). U2 is a member and still has a pending request.
For the admin U1, `addGroupMember` refuses U2 with 400 "User is already a member", while
`approveJoinRequest` on the same group state answers 200 and appends U2 a second time: it
has no duplicate check. -/
theorem approveJoinRequest_admits_target_addGroupMember_rejects :
    Reachable [alice, bob] staleRequest ∧
    addGroupMember [alice, bob] 3 staleRequest 1 "bob@uni.edu" =
      (⟨400, "User is already a member"⟩, staleRequest) ∧
    (approveJoinRequest 3 staleRequest 1 2).1 = ⟨200, "Join request approved"⟩ ∧
    (approveJoinRequest 3 staleRequest 1 2).2.members.map (fun m => m.userId) =
      [some 1, some 2, some 2] :=
  ⟨⟨7, 0, 1, { name := "G", isPublic := none, maxMembers := none }, _, _,
      [GroupCall.requestJoinGroup 1 2 "hi", GroupCall.addGroupMember 2 1 "bob@uni.edu"],
      rfl, by decide⟩,
    by decide, by decide, by decide⟩

theorem someE_idIs_of_mem {α : Type} (f : α → Option UserId) (u : UserId) :
    ∀ l : List α, (∀ x ∈ l, f x ≠ none) → some u ∈ l.map f →
      someE (fun x => idIs (f x) u) l = Except.ok true := by
  intro l
  induction l with
  | nil => intro _ h; simp at h
  | cons x xs ih =>
    intro hnn hmem
    have h1 := hnn x (List.mem_cons_self _ _)
    cases hx : f x with
    | none => exact absurd hx h1
    | some i =>
      by_cases hi : i = u
      · have hp : idIs (f x) u = Except.ok true := by simp [idIs, hx, hi]
        simp only [someE, hp]
      · have hp : idIs (f x) u = Except.ok false := by simp [idIs, hx, hi]
        simp only [someE, hp]
        apply ih (fun y hy => hnn y (List.mem_cons_of_mem _ hy))
        simp only [List.map_cons, List.mem_cons] at hmem
        rcases hmem with h | h
        · rw [hx] at h
          exact absurd (Option.some.inj h).symm hi
        · exact h

/-- C22. On a group whose member and join-request references are non-null,
`requestJoinGroup` answers 403 "This group is private" when the group is not public, 400
when the user is already a member, 400 when the user already has a request, 400 "Group is
full" when `members.length >= maxMembers` (the checks in this order), and leaves the group
as it was in each of these cases; otherwise it answers 200 and appends one request of the
user at the end of `joinRequests`, every other field unchanged. So it succeeds exactly when
the group is public, the user is neither a member nor a requester, and the group is not
full. -/
theorem requestJoinGroup_spec (now : Nat) (g : Group) (userId : UserId) (message : String)
    (hm : ∀ m ∈ g.members, m.userId ≠ none)
    (hr : ∀ r ∈ g.joinRequests, r.userId ≠ none) :
    (g.isPublic = false →
        requestJoinGroup now g userId message = (⟨403, "This group is private"⟩, g)) ∧
      (g.isPublic = true → some userId ∈ g.members.map (fun m => m.userId) →
        requestJoinGroup now g userId message =
          (⟨400, "You are already a member of this group"⟩, g)) ∧
      (g.isPublic = true → some userId ∉ g.members.map (fun m => m.userId) →
        some userId ∈ g.joinRequests.map (fun r => r.userId) →
        requestJoinGroup now g userId message =
          (⟨400, "You already have a pending request"⟩, g)) ∧
      (g.isPublic = true → some userId ∉ g.members.map (fun m => m.userId) →
        some userId ∉ g.joinRequests.map (fun r => r.userId) →
        g.members.length ≥ g.maxMembers →
        requestJoinGroup now g userId message = (⟨400, "Group is full"⟩, g)) ∧
      (g.isPublic = true → some userId ∉ g.members.map (fun m => m.userId) →
        some userId ∉ g.joinRequests.map (fun r => r.userId) →
        g.members.length < g.maxMembers →
        requestJoinGroup now g userId message =
          (⟨200, "Join request sent successfully"⟩,
            { g with joinRequests :=
                g.joinRequests ++
                  [{ userId := some userId, requestedAt := now, message := message }] })) ∧
      ((requestJoinGroup now g userId message).1.status = 200 ↔
        g.isPublic = true ∧ some userId ∉ g.members.map (fun m => m.userId) ∧
          some userId ∉ g.joinRequests.map (fun r => r.userId) ∧
          g.members.length < g.maxMembers) := by
  have notIn : ∀ {α : Type} (f : α → Option UserId) (l : List α),
      (∀ x ∈ l, f x ≠ none) → some userId ∉ l.map f →
      someE (fun x => idIs (f x) userId) l = Except.ok false := by
    intro α f l hnn hnot
    apply someE_idIs_of_not_mem f userId l hnn
    intro x hx e
    exact hnot (List.mem_map.2 ⟨x, hx, e⟩)
  have h1 : g.isPublic = false →
      requestJoinGroup now g userId message = (⟨403, "This group is private"⟩, g) := by
    intro hp
    simp [requestJoinGroup, hp]
  have h2 : g.isPublic = true → some userId ∈ g.members.map (fun m => m.userId) →
      requestJoinGroup now g userId message =
        (⟨400, "You are already a member of this group"⟩, g) := by
    intro hp hin
    simp [requestJoinGroup, hp,
      someE_idIs_of_mem (fun m : Member => m.userId) userId g.members hm hin]
  have h3 : g.isPublic = true → some userId ∉ g.members.map (fun m => m.userId) →
      some userId ∈ g.joinRequests.map (fun r => r.userId) →
      requestJoinGroup now g userId message =
        (⟨400, "You already have a pending request"⟩, g) := by
    intro hp hnot hin
    simp [requestJoinGroup, hp, notIn (fun m : Member => m.userId) g.members hm hnot,
      someE_idIs_of_mem (fun r : JoinRequest => r.userId) userId g.joinRequests hr hin]
  have h4 : g.isPublic = true → some userId ∉ g.members.map (fun m => m.userId) →
      some userId ∉ g.joinRequests.map (fun r => r.userId) →
      g.members.length ≥ g.maxMembers →
      requestJoinGroup now g userId message = (⟨400, "Group is full"⟩, g) := by
    intro hp hnot hnot2 hfull
    simp [requestJoinGroup, hp, notIn (fun m : Member => m.userId) g.members hm hnot,
      notIn (fun r : JoinRequest => r.userId) g.joinRequests hr hnot2, hfull]
  have h5 : g.isPublic = true → some userId ∉ g.members.map (fun m => m.userId) →
      some userId ∉ g.joinRequests.map (fun r => r.userId) →
      g.members.length < g.maxMembers →
      requestJoinGroup now g userId message =
        (⟨200, "Join request sent successfully"⟩,
          { g with joinRequests :=
              g.joinRequests ++
                [{ userId := some userId, requestedAt := now, message := message }] }) := by
    intro hp hnot hnot2 hlt
    have hge : ¬ g.members.length ≥ g.maxMembers := not_le.2 hlt
    simp [requestJoinGroup, hp, notIn (fun m : Member => m.userId) g.members hm hnot,
      notIn (fun r : JoinRequest => r.userId) g.joinRequests hr hnot2, hlt]
  refine ⟨h1, h2, h3, h4, h5, ?_⟩
  constructor
  · intro hok
    cases hp : g.isPublic with
    | false => rw [h1 hp] at hok; simp at hok
    | true =>
      by_cases hin : some userId ∈ g.members.map (fun m => m.userId)
      · rw [h2 hp hin] at hok; simp at hok
      · by_cases hin2 : some userId ∈ g.joinRequests.map (fun r => r.userId)
        · rw [h3 hp hin hin2] at hok; simp at hok
        · by_cases hlt : g.members.length < g.maxMembers
          · exact ⟨rfl, hin, hin2, hlt⟩
          · rw [h4 hp hin hin2 (not_lt.1 hlt)] at hok; simp at hok
  · rintro ⟨hp, hin, hin2, hlt⟩
    rw [h5 hp hin hin2 hlt]

/-- Witness for C22: U3 asks to join Scenario A's group. -/
theorem requestJoinGroup_spec_witness :
    scenarioA.isPublic = true ∧
      requestJoinGroup 4 scenarioA 3 "please" =
        (⟨200, "Join request sent successfully"⟩,
          { scenarioA with
            joinRequests := [{ userId := some 3, requestedAt := 4, message := "please" }] }) :=
  ⟨rfl,
    (requestJoinGroup_spec 4 scenarioA 3 "please" (by decide) (by decide)).2.2.2.2.1 rfl
      (by decide) (by decide) (by decide)⟩

theorem filterE_idIs_ne (u : UserId) :
    ∀ l : List Member, (∀ m ∈ l, m.userId ≠ none) →
      filterE (fun m : Member => (idIs m.userId u).map (fun b => !b)) l =
        Except.ok (l.filter (fun m => m.userId != some u)) := by
  intro l
  induction l with
  | nil => intro _; rfl
  | cons x xs ih =>
    intro hnn
    have h1 := hnn x (List.mem_cons_self _ _)
    have ih' := ih (fun y hy => hnn y (List.mem_cons_of_mem _ hy))
    cases hx : x.userId with
    | none => exact absurd hx h1
    | some i =>
      by_cases hi : i = u
      · have hp : (idIs x.userId u).map (fun b => !b) = Except.ok false := by
          simp [idIs, hx, hi, Except.map]
        have hb : (x.userId != some u) = false := by simp [hx, hi]
        simp only [filterE, hp, ih', List.filter_cons, hb]
      · have hp : (idIs x.userId u).map (fun b => !b) = Except.ok true := by
          simp [idIs, hx, hi, Except.map]
        have hb : (x.userId != some u) = true := by simp [hx, hi]
        simp only [filterE, hp, ih', List.filter_cons, hb, if_true]

/-- C23. For an actor who passes the admin gate, on a group with a creator reference and
non-null member references: removing the creator is answered 400 "Cannot remove group
creator" and the group is unchanged; removing any other user is answered 200 and `members`
becomes the old list without the entries of that user, the remaining entries in their
order and every other field unchanged. The entries of the creator stay, so a group whose
creator is a member is not empty afterwards. -/
theorem removeGroupMember_spec (g : Group) (actor userId creator : UserId)
    (hadmin : notAdmin g actor = Except.ok false)
    (hcreator : g.creatorId = some creator)
    (hnn : ∀ m ∈ g.members, m.userId ≠ none) :
    (userId = creator →
        removeGroupMember g actor userId = (⟨400, "Cannot remove group creator"⟩, g)) ∧
      (userId ≠ creator →
        removeGroupMember g actor userId =
            (⟨200, "Member removed successfully"⟩,
              { g with members := g.members.filter (fun m => m.userId != some userId) }) ∧
          (∀ m ∈ (removeGroupMember g actor userId).2.members, m.userId ≠ some userId) ∧
          (∀ m ∈ g.members, m.userId = some creator →
            m ∈ (removeGroupMember g actor userId).2.members) ∧
          ((∃ m ∈ g.members, m.userId = some creator) →
            (removeGroupMember g actor userId).2.members ≠ [])) := by
  constructor
  · intro h
    simp only [removeGroupMember, hadmin, hcreator, h, if_true]
  · intro h
    have hrm : removeGroupMember g actor userId =
        (⟨200, "Member removed successfully"⟩,
          { g with members := g.members.filter (fun m => m.userId != some userId) }) := by
      simp only [removeGroupMember, hadmin, hcreator, h, if_false,
        filterE_idIs_ne userId g.members hnn]
    have hkeep : ∀ m ∈ g.members, m.userId = some creator →
        m ∈ (removeGroupMember g actor userId).2.members := by
      intro m hm hid
      rw [hrm]
      simp only [List.mem_filter]
      refine ⟨hm, ?_⟩
      rw [hid]
      simpa using fun e : creator = userId => h e.symm
    refine ⟨hrm, ?_, hkeep, ?_⟩
    · intro m hm
      rw [hrm] at hm
      simp only [List.mem_filter] at hm
      simpa using hm.2
    · rintro ⟨m, hm, hid⟩
      exact List.ne_nil_of_mem (hkeep m hm hid)

/-- Witness for C23: in Scenario A the admin U1 removes U2; U1, the creator, stays. -/
theorem removeGroupMember_spec_witness :
    notAdmin scenarioA 1 = Except.ok false ∧
      removeGroupMember scenarioA 1 2 =
        (⟨200, "Member removed successfully"⟩,
          { scenarioA with
            members := [{ userId := some 1, role := Role.admin, joinedAt := 0 }] }) ∧
      removeGroupMember scenarioA 1 1 = (⟨400, "Cannot remove group creator"⟩, scenarioA) :=
  have h := removeGroupMember_spec scenarioA 1 2 1 rfl rfl (by decide)
  ⟨rfl, (h.2 (by decide)).1, by decide⟩

/-- C24. For an actor who passes the admin gate, on join requests with non-null
references: when `userId` has a request, `rejectJoinRequest` answers 200 and removes the
first request of `userId`; the other requests keep their order and every other field
(`members`, `creatorId`, `activityCount`, ...) is unchanged. When `userId` has no request it
answers 404 "Join request not found" and the group is unchanged. -/
theorem rejectJoinRequest_spec (g : Group) (actor userId : UserId)
    (hadmin : notAdmin g actor = Except.ok false)
    (hnn : ∀ r ∈ g.joinRequests, r.userId ≠ none) :
    (some userId ∉ g.joinRequests.map (fun r => r.userId) →
        rejectJoinRequest g actor userId = (⟨404, "Join request not found"⟩, g)) ∧
      (∀ (pre : List JoinRequest) (r : JoinRequest) (post : List JoinRequest),
        g.joinRequests = pre ++ r :: post → r.userId = some userId →
        some userId ∉ pre.map (fun x => x.userId) →
        rejectJoinRequest g actor userId =
          (⟨200, "Join request rejected"⟩, { g with joinRequests := pre ++ post })) ∧
      (some userId ∈ g.joinRequests.map (fun r => r.userId) →
        (rejectJoinRequest g actor userId).1.status = 200 ∧
          (rejectJoinRequest g actor userId).2.members = g.members ∧
          (rejectJoinRequest g actor userId).2.creatorId = g.creatorId ∧
          (rejectJoinRequest g actor userId).2.activityCount = g.activityCount ∧
          (rejectJoinRequest g actor userId).2.joinRequests.length + 1 =
            g.joinRequests.length) := by
  have hfound : ∀ (pre : List JoinRequest) (r : JoinRequest) (post : List JoinRequest),
      g.joinRequests = pre ++ r :: post → r.userId = some userId →
      some userId ∉ pre.map (fun x => x.userId) →
      rejectJoinRequest g actor userId =
        (⟨200, "Join request rejected"⟩, { g with joinRequests := pre ++ post }) := by
    intro pre r post hsplit hr hpre
    have hpn : ∀ x ∈ pre, x.userId ≠ none := by
      intro x hx
      exact hnn x (by rw [hsplit]; exact List.mem_append_left _ hx)
    have hidx := findIndexE_idIs_first userId r post hr pre hpn hpre
    rw [← hsplit] at hidx
    simp only [rejectJoinRequest, hadmin, hidx]
    rw [hsplit, eraseIdx_append_cons]
  refine ⟨?_, hfound, ?_⟩
  · intro hnot
    simp only [rejectJoinRequest, hadmin, findIndexE_idIs_none userId g.joinRequests hnn hnot]
  · intro hin
    obtain ⟨pre, r, post, hsplit, hr, hpre⟩ := exists_first_request userId g.joinRequests hin
    rw [hfound pre r post hsplit hr hpre]
    refine ⟨rfl, rfl, rfl, rfl, ?_⟩
    simp only [hsplit, List.length_append, List.length_cons]
    omega

/-- Witness for C24: U1, the admin, rejects the pending request of U3. -/
theorem rejectJoinRequest_spec_witness :
    notAdmin withRequest 1 = Except.ok false ∧
      rejectJoinRequest withRequest 1 3 =
        (⟨200, "Join request rejected"⟩, { withRequest with joinRequests := [] }) ∧
      rejectJoinRequest withRequest 1 2 = (⟨404, "Join request not found"⟩, withRequest) :=
  have h := rejectJoinRequest_spec withRequest 1 3 rfl (by decide)
  ⟨rfl,
    h.2.1 [] { userId := some 3, requestedAt := 2, message := "please" } [] rfl rfl
      (by simp),
    by decide⟩

/-- C25. Every successful `createGroup` call by creator `c` yields a group whose `members`
is the single entry of `c` with role admin, whose `creatorId` is `c` and whose
`joinRequests` is empty. -/
theorem createGroup_single_admin_member (newId now : Nat) (c : UserId)
    (body : CreateGroupBody) (reply : Reply) (g : Group)
    (h : createGroup newId now c body = (reply, some g)) :
    g.members = [{ userId := some c, role := Role.admin, joinedAt := now }] ∧
      g.members.length = 1 ∧
      g.creatorId = some c ∧
      g.joinRequests = [] ∧
      reply = ⟨201, "Group created successfully"⟩ := by
  simp only [createGroup] at h
  split at h
  · simp at h
  · simp only [Prod.mk.injEq, Option.some.injEq] at h
    obtain ⟨hr, hg⟩ := h
    subst hg
    subst hr
    exact ⟨rfl, rfl, rfl, rfl, rfl⟩

/-- Witness for C25: U1 creates a group with the default settings. -/
theorem createGroup_single_admin_member_witness :
    createGroup 7 0 1 { name := "G", isPublic := none, maxMembers := none } =
        (⟨201, "Group created successfully"⟩,
          some
            { id := 7, name := "G", creatorId := some 1,
              members := [{ userId := some 1, role := Role.admin, joinedAt := 0 }],
              joinRequests := [], isPublic := true, maxMembers := 50, lastActivityAt := 0,
              activityCount := 1 }) ∧
      (∀ g : Group,
        (createGroup 7 0 1 { name := "G", isPublic := none, maxMembers := none }).2 = some g →
        g.creatorId = some 1) :=
  ⟨by decide, fun g hg =>
    (createGroup_single_admin_member 7 0 1 { name := "G", isPublic := none, maxMembers := none }
      (createGroup 7 0 1 { name := "G", isPublic := none, maxMembers := none }).1 g
      (by rw [← hg])).2.2.1⟩

/-- C26. Through the create-group route, with a name that passes its validator: a supplied
capacity below 2 or above 100 is rejected with the ValidationError 400 and no group is
created; a supplied capacity from 2 to 100 creates a group with exactly that capacity. The
schema backs the route: the handler itself creates no group for a capacity of 1 or above
100. -/
theorem createGroup_capacity_bounds (newId now : Nat) (c : UserId)
    (request : CreateGroupRequest) (n : Int)
    (hname : nameValidator request.name = true)
    (hsupplied : request.maxMembers = some n) :
    ((n < 2 ∨ 100 < n) →
        createGroupRoute newId now c request = (⟨400, "Invalid value"⟩, none)) ∧
      ((2 ≤ n ∧ n ≤ 100) →
        (createGroupRoute newId now c request).1 = ⟨201, "Group created successfully"⟩ ∧
          (createGroupRoute newId now c request).2.map (fun g => (g.maxMembers : Int)) =
            some n) ∧
      (∀ k : Nat, (k = 1 ∨ 100 < k) →
        createGroup newId now c
            { name := request.name, isPublic := request.isPublic, maxMembers := some k } =
          (⟨500, "Failed to create group"⟩, none)) := by
  refine ⟨?_, ?_, ?_⟩
  · intro hout
    have hv : capacityValidator request.maxMembers = false := by
      rw [hsupplied]
      simp only [capacityValidator, Bool.and_eq_false_imp, decide_eq_true_eq,
        decide_eq_false_iff_not, not_le]
      intro h2
      rcases hout with h | h
      · omega
      · exact h
    simp [createGroupRoute, validate, hv, hname]
  · rintro ⟨h2, h100⟩
    have hv : capacityValidator request.maxMembers = true := by
      rw [hsupplied]
      simp only [capacityValidator, Bool.and_eq_true, decide_eq_true_eq]
      exact ⟨h2, h100⟩
    have hk : ¬ n.toNat = 0 := by omega
    have hin : ¬ (n.toNat < 2 ∨ 100 < n.toNat) := by omega
    have hto : ((n.toNat : Nat) : Int) = n := Int.toNat_of_nonneg (by omega)
    rw [hsupplied] at hv
    simp only [createGroupRoute, validate, hv, hname, Bool.and_self, if_true, createGroup,
      hsupplied, Option.map_some', hk, if_false, hin, hto, and_self]
  · intro k hk
    have hk0 : ¬ k = 0 := by omega
    have hout : k < 2 ∨ 100 < k := by omega
    simp only [createGroup, hk0, if_false, hout, if_true]

/-- Witness for C26: capacity 101 is refused, capacity 30 is kept. -/
theorem createGroup_capacity_bounds_witness :
    createGroupRoute 7 0 1 { name := "G", isPublic := none, maxMembers := some 101 } =
        (⟨400, "Invalid value"⟩, none) ∧
      ((createGroupRoute 7 0 1 { name := "G", isPublic := none, maxMembers := some 30 }).2.map
        (fun g => g.maxMembers)) = some 30 :=
  ⟨(createGroup_capacity_bounds 7 0 1 { name := "G", isPublic := none, maxMembers := some 101 }
      101 (by decide) rfl).1 (Or.inr (by decide)),
    by decide⟩

/-- The handler `createGroup` alone, without the validator chain of the route, turns a
supplied capacity of 0 into the default 50: the expression is `maxMembers || 50`. -/
theorem createGroup_zero_capacity_defaults :
    (createGroup 7 0 1 { name := "G", isPublic := none, maxMembers := some 0 }).2.map
      (fun g => g.maxMembers) = some 50 := by
  decide

/-! ## Download -/

theorem fileAt_eq_some_iff (files : List UploadedFile) (index : Option Int)
    (file : UploadedFile) :
    fileAt files index = some file ↔
      ∃ i : Nat, index = some (i : Int) ∧ i < files.length ∧ files.get? i = some file := by
  unfold fileAt
  cases index with
  | none => simp
  | some j =>
    by_cases hj : j < 0
    · simp only [hj, if_true]
      constructor
      · intro h; cases h
      · rintro ⟨i, hi, -, -⟩
        have : j = (i : Int) := by simpa using hi
        omega
    · simp only [hj, if_false]
      constructor
      · intro h
        refine ⟨j.toNat, ?_, ?_, h⟩
        · rw [Int.toNat_of_nonneg (by omega)]
        · exact (List.get?_eq_some.mp h).1
      · rintro ⟨i, hi, -, h⟩
        have : j = (i : Int) := by simpa using hi
        subst this
        simpa using h

/-- C28. `downloadFile` answers 200 if and only if the submission exists, the file
index parses to an index `i` with `0 ≤ i` below the number of attached files, and the
path of entry `i` is on disk; then it sends that path under the entry's `originalName`.
In every other case (no such submission, no such entry, no such file on disk) the reply is
404 and nothing is sent. -/
theorem downloadFile_spec (w : World) (submissionId : Nat) (fileIndex : Option Int) :
    ((downloadFile w submissionId fileIndex).status = 200 ↔
        ∃ (s : Submission) (i : Nat) (file : UploadedFile),
          findSubmissionById w.submissions submissionId = some s ∧
            fileIndex = some (i : Int) ∧ i < s.uploadedFiles.length ∧
            s.uploadedFiles.get? i = some file ∧ file.path ∈ w.files) ∧
      (∀ (s : Submission) (i : Nat) (file : UploadedFile),
        findSubmissionById w.submissions submissionId = some s →
        fileIndex = some (i : Int) → s.uploadedFiles.get? i = some file →
        file.path ∈ w.files →
        downloadFile w submissionId fileIndex =
          { status := 200, error := "", path := some file.path,
            name := some file.originalName }) ∧
      (findSubmissionById w.submissions submissionId = none →
        downloadFile w submissionId fileIndex =
          { status := 404, error := "Submission not found", path := none, name := none }) ∧
      (∀ s : Submission, findSubmissionById w.submissions submissionId = some s →
        (∀ i : Nat, fileIndex = some (i : Int) → s.uploadedFiles.length ≤ i) →
        downloadFile w submissionId fileIndex =
          { status := 404, error := "File not found", path := none, name := none }) ∧
      (∀ (s : Submission) (i : Nat) (file : UploadedFile),
        findSubmissionById w.submissions submissionId = some s →
        fileIndex = some (i : Int) → s.uploadedFiles.get? i = some file →
        file.path ∉ w.files →
        downloadFile w submissionId fileIndex =
          { status := 404, error := "File no longer exists on server", path := none,
            name := none }) ∧
      ((downloadFile w submissionId fileIndex).status = 200 ∨
        ((downloadFile w submissionId fileIndex).status = 404 ∧
          (downloadFile w submissionId fileIndex).path = none ∧
          (downloadFile w submissionId fileIndex).name = none)) := by
  cases hs : findSubmissionById w.submissions submissionId with
  | none =>
    have hd : downloadFile w submissionId fileIndex =
        { status := 404, error := "Submission not found", path := none, name := none } := by
      simp only [downloadFile, hs]
    rw [hd]
    refine ⟨⟨(fun h => by cases h), ?_⟩, ?_, fun _ => rfl, ?_, ?_, Or.inr ⟨rfl, rfl, rfl⟩⟩
    · rintro ⟨s, i, file, h, -⟩
      cases h
    · intro s i file h
      cases h
    · intro s h
      cases h
    · intro s i file h
      cases h
  | some s =>
    cases hf : fileAt s.uploadedFiles fileIndex with
    | none =>
      have hd : downloadFile w submissionId fileIndex =
          { status := 404, error := "File not found", path := none, name := none } := by
        simp only [downloadFile, hs, hf]
      have hnone : ∀ (i : Nat) (file : UploadedFile), fileIndex = some (i : Int) →
          s.uploadedFiles.get? i = some file → False := by
        intro i file hi hget
        have h := (fileAt_eq_some_iff s.uploadedFiles fileIndex file).mpr
          ⟨i, hi, (List.get?_eq_some.mp hget).1, hget⟩
        rw [hf] at h
        cases h
      rw [hd]
      refine ⟨⟨(fun h => by cases h), ?_⟩, ?_, (fun h => by cases h), fun _ _ _ => rfl, ?_,
        Or.inr ⟨rfl, rfl, rfl⟩⟩
      · rintro ⟨s', i, file, hs', hi, -, hget, -⟩
        cases hs'
        exact (hnone i file hi hget).elim
      · intro s' i file hs' hi hget
        cases hs'
        exact (hnone i file hi hget).elim
      · intro s' i file hs' hi hget
        cases hs'
        exact (hnone i file hi hget).elim
    | some file =>
      obtain ⟨i, hi, hlt, hget⟩ := (fileAt_eq_some_iff _ _ _).mp hf
      have hsame : ∀ (i' : Nat) (file' : UploadedFile), fileIndex = some (i' : Int) →
          s.uploadedFiles.get? i' = some file' → file' = file := by
        intro i' file' hi' hget'
        have : i = i' := by rw [hi] at hi'; simpa using hi'
        subst this
        rw [hget] at hget'
        cases hget'
        rfl
      by_cases hdisk : file.path ∈ w.files
      · have hd : downloadFile w submissionId fileIndex =
            { status := 200, error := "", path := some file.path,
              name := some file.originalName } := by
          simp [downloadFile, hs, hf, hdisk]
        rw [hd]
        refine ⟨⟨fun _ => ⟨s, i, file, rfl, hi, hlt, hget, hdisk⟩, fun _ => rfl⟩, ?_,
          (fun h => by cases h), ?_, ?_, Or.inl rfl⟩
        · intro s' i' file' hs' hi' hget' _
          cases hs'
          rw [hsame i' file' hi' hget']
        · intro s' hs' hall
          cases hs'
          exact absurd (hall i hi) (by omega)
        · intro s' i' file' hs' hi' hget' hnot
          cases hs'
          rw [hsame i' file' hi' hget'] at hnot
          exact absurd hdisk hnot
      · have hd : downloadFile w submissionId fileIndex =
            { status := 404, error := "File no longer exists on server", path := none,
              name := none } := by
          simp [downloadFile, hs, hf, hdisk]
        rw [hd]
        refine ⟨⟨(fun h => by cases h), ?_⟩, ?_, (fun h => by cases h), ?_, fun _ _ _ _ _ _ _ => rfl,
          Or.inr ⟨rfl, rfl, rfl⟩⟩
        · rintro ⟨s', i', file', hs', hi', -, hget', hmem⟩
          cases hs'
          rw [hsame i' file' hi' hget'] at hmem
          exact absurd hmem hdisk
        · intro s' i' file' hs' hi' hget' hmem
          cases hs'
          rw [hsame i' file' hi' hget'] at hmem
          exact absurd hmem hdisk
        · intro s' hs' hall
          cases hs'
          exact absurd (hall i hi) (by omega)

/-- Witness for C28: entry 0 of the submitted record is on disk and is sent under its
original name; the record has no entry 1. -/
theorem downloadFile_spec_witness :
    downloadFile submittedWorld 100 (some 0) =
        { status := 200, error := "", path := some "uploads/x", name := some "x.pdf" } ∧
      downloadFile submittedWorld 100 (some 1) =
        { status := 404, error := "File not found", path := none, name := none } :=
  ⟨(downloadFile_spec submittedWorld 100 (some 0)).2.1 submittedSubmission 0 fileX rfl rfl rfl
      (by decide),
    (downloadFile_spec submittedWorld 100 (some 1)).2.2.2.1 submittedSubmission rfl
      (by intro i hi; have : (1 : Int) = (i : Int) := by simpa using hi
          have h1 : i = 1 := by omega
          subst h1; decide)⟩

/-! ## Number arithmetic -/

theorem roundTiesEven_error (x : ℚ) : |(roundTiesEven x : ℚ) - x| ≤ 1 / 2 := by
  have h1 := Int.floor_le x
  have h2 := Int.lt_floor_add_one x
  unfold roundTiesEven
  rw [abs_le]
  simp only
  split_ifs with ha hb hc
  · constructor <;> linarith
  · push_cast; constructor <;> linarith
  · constructor <;> linarith
  · push_cast; constructor <;> linarith

theorem roundTiesEven_eq_of_lt (x : ℚ) (n : Int) (h1 : (n : ℚ) ≤ x) (h2 : x < n + 1 / 2) :
    roundTiesEven x = n := by
  have hf : ⌊x⌋ = n := by
    rw [Int.floor_eq_iff]
    constructor
    · exact h1
    · linarith
  unfold roundTiesEven
  simp only [hf]
  rw [if_pos (by linarith)]

theorem log_two_eq (q : ℚ) (k : Int) (h1 : (2 : ℚ) ^ k ≤ q) (h2 : q < (2 : ℚ) ^ (k + 1)) :
    Int.log 2 q = k := by
  have hq : 0 < q := lt_of_lt_of_le (zpow_pos (by norm_num) k) h1
  have ha : k ≤ Int.log 2 q := by
    have := (Int.zpow_le_iff_le_log (b := 2) (by norm_num) hq (x := k)).mp (by exact_mod_cast h1)
    exact this
  have hb : Int.log 2 q < k + 1 := by
    have := (Int.lt_zpow_iff_log_lt (b := 2) (by norm_num) hq (x := k + 1)).mp
      (by exact_mod_cast h2)
    exact this
  omega

theorem toDouble_error (q : ℚ) (hq : 0 ≤ q) : |toDouble q - q| ≤ q / 2 ^ 53 := by
  unfold toDouble
  by_cases h0 : q = 0
  · simp [h0]
  · have hpos : 0 < q := lt_of_le_of_ne hq (Ne.symm h0)
    simp only [h0, if_false, abs_of_pos hpos]
    have hlog : ((2 : ℚ)) ^ (Int.log 2 q) ≤ q := by
      have := Int.zpow_log_le_self (b := 2) (by norm_num) hpos
      exact_mod_cast this
    have he : (0 : ℚ) < 2 ^ (Int.log 2 q - 52) := zpow_pos (by norm_num) _
    have hr := roundTiesEven_error (q / 2 ^ (Int.log 2 q - 52))
    have heq : (roundTiesEven (q / 2 ^ (Int.log 2 q - 52)) : ℚ) * 2 ^ (Int.log 2 q - 52) - q =
        ((roundTiesEven (q / 2 ^ (Int.log 2 q - 52)) : ℚ) - q / 2 ^ (Int.log 2 q - 52)) *
          2 ^ (Int.log 2 q - 52) := by
      field_simp
    rw [heq, abs_mul, abs_of_pos he]
    have hsplit : (2 : ℚ) ^ (Int.log 2 q) = 2 ^ (Int.log 2 q - 52) * 2 ^ (52 : Int) := by
      rw [← zpow_add₀ (by norm_num : (2 : ℚ) ≠ 0)]
      congr 1
      omega
    have h52 : (2 : ℚ) ^ (52 : Int) = 2 ^ 52 := by norm_cast
    rw [hsplit, h52] at hlog
    calc |(roundTiesEven (q / 2 ^ (Int.log 2 q - 52)) : ℚ) - q / 2 ^ (Int.log 2 q - 52)| *
          2 ^ (Int.log 2 q - 52)
        ≤ 1 / 2 * 2 ^ (Int.log 2 q - 52) := by
          exact mul_le_mul_of_nonneg_right hr (le_of_lt he)
      _ ≤ q / 2 ^ 53 := by
          rw [le_div_iff₀ (by norm_num)]
          nlinarith

theorem toDouble_nonneg (q : ℚ) (hq : 0 ≤ q) : 0 ≤ toDouble q := by
  have h := (abs_le.mp (toDouble_error q hq)).1
  have h53 : q / 2 ^ 53 ≤ q := div_le_self hq (by norm_num)
  linarith

/-- The Number computed for the percentage differs from the exact value `100 * s / t` by at
most `201 * (s / t) / 2 ^ 53`. -/
theorem percentage_error (s t : Nat) :
    0 ≤ toDouble (toDouble ((s : ℚ) / (t : ℚ)) * 100) ∧
      |toDouble (toDouble ((s : ℚ) / (t : ℚ)) * 100) - 100 * ((s : ℚ) / (t : ℚ))| ≤
        201 * ((s : ℚ) / (t : ℚ)) / 2 ^ 53 := by
  have ha : (0 : ℚ) ≤ (s : ℚ) / (t : ℚ) := by positivity
  generalize (s : ℚ) / (t : ℚ) = a at ha
  have h1 := abs_le.mp (toDouble_error a ha)
  have hq1 : 0 ≤ toDouble a := toDouble_nonneg a ha
  have hp : 0 ≤ toDouble a * 100 := by positivity
  have h2 := abs_le.mp (toDouble_error (toDouble a * 100) hp)
  refine ⟨toDouble_nonneg _ hp, ?_⟩
  have hdiv : a / 2 ^ 53 * 2 ^ 53 = a := by field_simp
  have hdiv2 : toDouble a * 100 / 2 ^ 53 * 2 ^ 53 = toDouble a * 100 := by field_simp
  have hdiv3 : 201 * a / 2 ^ 53 * 2 ^ 53 = 201 * a := by field_simp
  generalize a / 2 ^ 53 = d1 at h1 hdiv
  generalize toDouble a * 100 / 2 ^ 53 = d2 at h2 hdiv2
  generalize 201 * a / 2 ^ 53 = d3 at hdiv3 ⊢
  rw [abs_le]
  norm_num at hdiv hdiv2 hdiv3
  constructor <;> nlinarith [h1.1, h1.2, h2.1, h2.2]

theorem completionPercentage_nonneg (s t : Nat) : 0 ≤ completionPercentage s t := by
  unfold completionPercentage mathRound
  split_ifs
  · apply Int.floor_nonneg.mpr
    have := (percentage_error s t).1
    linarith
  · exact le_refl 0

theorem completionPercentage_le_hundred (s t : Nat) (h : s ≤ t) :
    completionPercentage s t ≤ 100 := by
  unfold completionPercentage mathRound
  split_ifs with ht
  · have ht' : (0 : ℚ) < (t : ℚ) := by exact_mod_cast ht
    have ha : (s : ℚ) / (t : ℚ) ≤ 1 := by
      rw [div_le_one ht']
      exact_mod_cast h
    have ha0 : (0 : ℚ) ≤ (s : ℚ) / (t : ℚ) := by positivity
    have he := (abs_le.mp (percentage_error s t).2).2
    have hlt : toDouble (toDouble ((s : ℚ) / (t : ℚ)) * 100) + 1 / 2 < ((101 : Int) : ℚ) := by
      have hb : 201 * ((s : ℚ) / (t : ℚ)) / 2 ^ 53 ≤ 201 / 2 ^ 53 := by
        apply div_le_div_of_nonneg_right _ (by norm_num)
        linarith
      have hc : (201 : ℚ) / 2 ^ 53 < 1 / 2 := by norm_num
      push_cast
      linarith
    have := Int.floor_lt.mpr hlt
    omega
  · norm_num

/-- Away from exact halves, and for counts below `2 ^ 44`, the Number computation of the
percentage gives the exact quotient rounded half up; at an exact half it gives that value
or the integer below it. -/
theorem completionPercentage_exact (s t : Nat) (ht : 0 < t) (hs : s < 2 ^ 44) :
    (¬ (2 * t ∣ 200 * s + t) →
        completionPercentage s t = ⌊(100 * (s : ℚ)) / (t : ℚ) + 1 / 2⌋) ∧
      (completionPercentage s t = ⌊(100 * (s : ℚ)) / (t : ℚ) + 1 / 2⌋ ∨
        completionPercentage s t = ⌊(100 * (s : ℚ)) / (t : ℚ) + 1 / 2⌋ - 1) := by
  have ht' : (0 : ℚ) < (t : ℚ) := by exact_mod_cast ht
  have hs' : (s : ℚ) < 2 ^ 44 := by exact_mod_cast hs
  have hs0 : (0 : ℚ) ≤ (s : ℚ) := by positivity
  obtain ⟨-, he⟩ := percentage_error s t
  have he' := abs_le.mp he
  -- the error is below `1 / (2 * t)`
  have hdelta : 201 * ((s : ℚ) / (t : ℚ)) / 2 ^ 53 < 1 / (2 * (t : ℚ)) := by
    rw [div_lt_div_iff₀ (by norm_num) (by positivity)]
    rw [show 201 * ((s : ℚ) / (t : ℚ)) * (2 * (t : ℚ)) = 402 * (s : ℚ) by field_simp; ring]
    norm_num
    linarith
  have hy : (100 * (s : ℚ)) / (t : ℚ) + 1 / 2 =
      ((200 * s + t : Nat) : ℚ) / ((2 * t : Nat) : ℚ) := by
    push_cast
    field_simp
    ring
  have hr : 100 * ((s : ℚ) / (t : ℚ)) = (100 * (s : ℚ)) / (t : ℚ) := by ring
  rw [hr] at he'
  set n := ⌊(100 * (s : ℚ)) / (t : ℚ) + 1 / 2⌋ with hn
  have hn1 : (n : ℚ) ≤ (100 * (s : ℚ)) / (t : ℚ) + 1 / 2 := Int.floor_le _
  have hn2 : (100 * (s : ℚ)) / (t : ℚ) + 1 / 2 < (n : ℚ) + 1 := Int.lt_floor_add_one _
  have h2t : (0 : ℚ) < ((2 * t : Nat) : ℚ) := by push_cast; linarith
  have hhalf : 1 / (2 * (t : ℚ)) ≤ 1 / 2 := by
    rw [div_le_div_iff₀ (by positivity) (by norm_num)]
    have : (1 : ℚ) ≤ (t : ℚ) := by exact_mod_cast ht
    linarith
  have hpct : completionPercentage s t =
      ⌊toDouble (toDouble ((s : ℚ) / (t : ℚ)) * 100) + 1 / 2⌋ := by
    unfold completionPercentage mathRound
    rw [if_pos ht]
  have hexact : ¬ (2 * t ∣ 200 * s + t) → completionPercentage s t = n := by
    intro hdvd
    -- the exact value is at least `1 / (2 * t)` away from both `n` and `n + 1`
    have hi1 : (n : Int) * (2 * t : Nat) ≤ (200 * s + t : Nat) := by
      have : (n : ℚ) * ((2 * t : Nat) : ℚ) ≤ ((200 * s + t : Nat) : ℚ) := by
        rw [hy] at hn1
        exact (le_div_iff₀ h2t).mp hn1
      exact_mod_cast this
    have hi2 : ((200 * s + t : Nat) : Int) < (n + 1) * (2 * t : Nat) := by
      have : ((200 * s + t : Nat) : ℚ) < ((n : ℚ) + 1) * ((2 * t : Nat) : ℚ) := by
        rw [hy] at hn2
        exact (div_lt_iff₀ h2t).mp hn2
      exact_mod_cast this
    have hne : (n : Int) * (2 * t : Nat) ≠ (200 * s + t : Nat) := by
      intro heq
      apply hdvd
      have hn0 : 0 ≤ n := by
        apply Int.floor_nonneg.mpr
        positivity
      refine ⟨n.toNat, ?_⟩
      have : ((200 * s + t : Nat) : Int) = ((2 * t * n.toNat : Nat) : Int) := by
        push_cast
        rw [Int.toNat_of_nonneg hn0]
        push_cast at heq
        linarith
      exact_mod_cast this
    have hj1 : (n : Int) * (2 * t : Nat) + 1 ≤ (200 * s + t : Nat) := by omega
    have hk1 : (n : ℚ) + 1 / (2 * (t : ℚ)) ≤ (100 * (s : ℚ)) / (t : ℚ) + 1 / 2 := by
      rw [hy]
      rw [le_div_iff₀ h2t]
      have : ((n : Int) * (2 * t : Nat) + 1 : ℚ) ≤ ((200 * s + t : Nat) : ℚ) := by
        exact_mod_cast hj1
      have hone : 1 / (2 * (t : ℚ)) * ((2 * t : Nat) : ℚ) = 1 := by
        push_cast
        field_simp
      linarith [hone, this]
    have hj2 : ((200 * s + t : Nat) : Int) + 1 ≤ (n + 1) * (2 * t : Nat) := by omega
    have hk2 : (100 * (s : ℚ)) / (t : ℚ) + 1 / 2 + 1 / (2 * (t : ℚ)) ≤ (n : ℚ) + 1 := by
      have hh : (100 * (s : ℚ)) / (t : ℚ) + 1 / 2 + 1 / (2 * (t : ℚ)) =
          (((200 * s + t : Nat) : ℚ) + 1) / ((2 * t : Nat) : ℚ) := by
        push_cast
        field_simp
        ring
      rw [hh, div_le_iff₀ h2t]
      exact_mod_cast hj2
    rw [hpct, Int.floor_eq_iff]
    constructor <;> linarith [he'.1, he'.2]
  refine ⟨hexact, ?_⟩
  by_cases hdvd : 2 * t ∣ 200 * s + t
  · obtain ⟨k, hk⟩ := hdvd
    have hyk : (100 * (s : ℚ)) / (t : ℚ) + 1 / 2 = ((k : Int) : ℚ) := by
      rw [hy, hk]
      push_cast
      field_simp
    have hnk : (n : ℚ) = (100 * (s : ℚ)) / (t : ℚ) + 1 / 2 := by
      rw [hn, hyk, Int.floor_intCast]
    rw [hpct]
    have hlo : ((n - 1 : Int) : ℚ) ≤
        toDouble (toDouble ((s : ℚ) / (t : ℚ)) * 100) + 1 / 2 := by
      push_cast
      linarith [he'.1, he'.2]
    have hhi : toDouble (toDouble ((s : ℚ) / (t : ℚ)) * 100) + 1 / 2 <
        ((n + 1 : Int) : ℚ) := by
      push_cast
      linarith [he'.1, he'.2]
    have h1 := Int.le_floor.mpr hlo
    have h2 := Int.floor_lt.mpr hhi
    omega
  · exact Or.inl (hexact hdvd)

theorem toDouble_eval (q : ℚ) (k n : Int) (h1 : (2 : ℚ) ^ k ≤ q) (h2 : q < (2 : ℚ) ^ (k + 1))
    (h3 : (n : ℚ) ≤ q / 2 ^ (k - 52)) (h4 : q / 2 ^ (k - 52) < n + 1 / 2) :
    toDouble q = (n : ℚ) * 2 ^ (k - 52) := by
  have hq : 0 < q := lt_of_lt_of_le (zpow_pos (by norm_num) k) h1
  unfold toDouble
  simp only [ne_of_gt hq, if_false, abs_of_pos hq, log_two_eq q k h1 h2,
    roundTiesEven_eq_of_lt _ n h3 h4]

/-- The Number computation at 23 of 40: `23 / 40` rounds below 0.575, the product with 100
rounds to a Number below 57.5, and `Math.round` gives 57. -/
theorem completionPercentage_23_40 : completionPercentage 23 40 = 57 := by
  have hq1 : toDouble ((23 : ℚ) / 40) = (5179139571476070 : Int) * 2 ^ ((-1 : Int) - 52) := by
    apply toDouble_eval <;> norm_num
  have hq2 : toDouble ((5179139571476070 : Int) * 2 ^ ((-1 : Int) - 52) * 100 : ℚ) =
      (8092405580431359 : Int) * 2 ^ ((5 : Int) - 52) := by
    apply toDouble_eval <;> norm_num
  unfold completionPercentage mathRound
  rw [if_pos (by norm_num)]
  have hc : (((23 : Nat) : ℚ) / ((40 : Nat) : ℚ)) = (23 : ℚ) / 40 := by norm_num
  rw [hc, hq1, hq2, Int.floor_eq_iff]
  constructor <;> norm_num

/-! ## Progress -/

theorem submittedCount_eq (w : World) (groupId : Nat) :
    submittedCount w groupId =
      (progressReference w groupId).submitted +
        w.submissions.countP (fun s => s.groupId == groupId && s.status == Status.reviewed) := by
  unfold submittedCount progressReference
  simp only
  induction w.submissions with
  | nil => rfl
  | cons s rest ih =>
    simp only [List.countP_cons, ih]
    by_cases hg : s.groupId = groupId
    · cases hst : s.status <;> simp [hg] <;> omega
    · simp [hg]

theorem getGroupProgress_member (w : World) (groupId : Nat) (userId : UserId) (group : Group)
    (hg : findGroup w.groups groupId = some group)
    (hnn : ∀ m ∈ group.members, m.userId ≠ none)
    (hmem : ∃ m ∈ group.members, m.userId = some userId) :
    getGroupProgress w groupId userId =
      (⟨200, ""⟩, some
        { total := totalAssignments w groupId
          submitted := submittedCount w groupId
          graded := gradedCount w groupId
          pending := (totalAssignments w groupId : Int) - (submittedCount w groupId : Int)
          completionPercentage :=
            completionPercentage (submittedCount w groupId) (totalAssignments w groupId) }) := by
  have hs : someE (fun m : Member => idIs m.userId userId) group.members = Except.ok true := by
    apply someE_idIs_of_mem (fun m : Member => m.userId) userId group.members hnn
    obtain ⟨m, hm, hu⟩ := hmem
    exact List.mem_map.2 ⟨m, hm, hu⟩
  simp only [getGroupProgress, hg, hs]

/-- C27 (counterexample). With a record of status reviewed the handler reports
`submitted = 1` where the reference definition counts 0; and with 23 of 40 assignments
submitted the handler reports 57 percent where exact rounding of 57.5 gives 58. -/
theorem getGroupProgress_differs_from_reference :
    ((getGroupProgress reviewedWorld 7 1).1 = ⟨200, ""⟩ ∧
      (getGroupProgress reviewedWorld 7 1).2.map (fun p => p.submitted) = some 1 ∧
      (progressReference reviewedWorld 7).submitted = 0) ∧
    ((getGroupProgress fortyWorld 7 1).1 = ⟨200, ""⟩ ∧
      (getGroupProgress fortyWorld 7 1).2.map (fun p => (p.total, p.submitted)) =
        some (40, 23) ∧
      (getGroupProgress fortyWorld 7 1).2.map (fun p => p.completionPercentage) = some 57 ∧
      (progressReference fortyWorld 7).total = 40 ∧
      (progressReference fortyWorld 7).submitted = 23 ∧
      (progressReference fortyWorld 7).completionPercentage = 58) := by
  refine ⟨⟨by decide, by decide, by decide⟩, ?_⟩
  have hm : getGroupProgress fortyWorld 7 1 = _ :=
    getGroupProgress_member fortyWorld 7 1 scenarioA rfl (by decide) (by decide)
  have ht : totalAssignments fortyWorld 7 = 40 := by decide
  have hs : submittedCount fortyWorld 7 = 23 := by decide
  have hrt : (progressReference fortyWorld 7).total = 40 := by decide
  have hrs : (progressReference fortyWorld 7).submitted = 23 := by decide
  refine ⟨by rw [hm], ?_, ?_, hrt, hrs, ?_⟩
  · rw [hm]
    simp only [Option.map_some', ht, hs]
  · rw [hm]
    simp only [Option.map_some', ht, hs, completionPercentage_23_40]
  · have hpr : (progressReference fortyWorld 7).completionPercentage =
        if (progressReference fortyWorld 7).total = 0 then 0
        else ⌊(100 * ((progressReference fortyWorld 7).submitted : ℚ)) /
          ((progressReference fortyWorld 7).total : ℚ) + 1 / 2⌋ := rfl
    rw [hpr, hrt, hrs, if_neg (by norm_num), Int.floor_eq_iff]
    constructor <;> norm_num

/-- C27 (amended). For a caller who is a member of the group, `getGroupProgress`
answers 200 with figures in which `total` and `graded` are those of the reference
definition, `submitted` is the reference count plus the number of the group's records with
status reviewed, `pending = total - submitted`, and `completionPercentage` is 0 when
`total = 0` and otherwise the Number computation `Math.round((submitted / total) * 100)`:
for counts below `2 ^ 44` this is the exact quotient rounded half up unless
`100 * submitted / total` is exactly a half-integer, where it is that value or one less.
When the group has no reviewed record and the quotient is not an exact half, the figures
are exactly those of the reference definition. -/
theorem getGroupProgress_figures (w : World) (groupId : Nat) (userId : UserId) (group : Group)
    (hg : findGroup w.groups groupId = some group)
    (hnn : ∀ m ∈ group.members, m.userId ≠ none)
    (hmem : ∃ m ∈ group.members, m.userId = some userId) :
    ∃ p : Progress, getGroupProgress w groupId userId = (⟨200, ""⟩, some p) ∧
      p.total = (progressReference w groupId).total ∧
      p.submitted = (progressReference w groupId).submitted +
        w.submissions.countP (fun s => s.groupId == groupId && s.status == Status.reviewed) ∧
      p.graded = (progressReference w groupId).graded ∧
      p.pending = (p.total : Int) - (p.submitted : Int) ∧
      (p.total = 0 → p.completionPercentage = 0) ∧
      (0 < p.total → p.submitted < 2 ^ 44 →
        (¬ (2 * p.total ∣ 200 * p.submitted + p.total) →
          p.completionPercentage = ⌊(100 * (p.submitted : ℚ)) / (p.total : ℚ) + 1 / 2⌋) ∧
        (p.completionPercentage = ⌊(100 * (p.submitted : ℚ)) / (p.total : ℚ) + 1 / 2⌋ ∨
          p.completionPercentage =
            ⌊(100 * (p.submitted : ℚ)) / (p.total : ℚ) + 1 / 2⌋ - 1)) ∧
      ((∀ s ∈ w.submissions, s.groupId = groupId → s.status ≠ Status.reviewed) →
        p.submitted < 2 ^ 44 →
        (p.total = 0 ∨ ¬ (2 * p.total ∣ 200 * p.submitted + p.total)) →
        p = progressReference w groupId) := by
  refine ⟨_, getGroupProgress_member w groupId userId group hg hnn hmem, rfl,
    submittedCount_eq w groupId, rfl, rfl, ?_, ?_, ?_⟩
  · intro h0
    show completionPercentage (submittedCount w groupId) (totalAssignments w groupId) = 0
    have h0' : totalAssignments w groupId = 0 := h0
    simp [completionPercentage, h0']
  · intro hpos hlt
    exact completionPercentage_exact (submittedCount w groupId) (totalAssignments w groupId)
      hpos hlt
  · intro hrev hlt htie
    have hzero : w.submissions.countP
        (fun s => s.groupId == groupId && s.status == Status.reviewed) = 0 := by
      rw [List.countP_eq_zero]
      intro s hs
      have := hrev s hs
      by_cases hgid : s.groupId = groupId
      · simp [hgid, this hgid]
      · simp [hgid]
    have hsub : submittedCount w groupId = (progressReference w groupId).submitted := by
      rw [submittedCount_eq, hzero, Nat.add_zero]
    have htot : totalAssignments w groupId = (progressReference w groupId).total := rfl
    have hgr : gradedCount w groupId = (progressReference w groupId).graded := rfl
    have hpct : completionPercentage (submittedCount w groupId) (totalAssignments w groupId) =
        (progressReference w groupId).completionPercentage := by
      have hpr : (progressReference w groupId).completionPercentage =
          if (progressReference w groupId).total = 0 then 0
          else ⌊(100 * ((progressReference w groupId).submitted : ℚ)) /
            ((progressReference w groupId).total : ℚ) + 1 / 2⌋ := rfl
      rw [hpr, ← hsub, ← htot]
      by_cases h0 : totalAssignments w groupId = 0
      · simp [completionPercentage, h0]
      · rw [if_neg h0]
        have hpos : 0 < totalAssignments w groupId := Nat.pos_of_ne_zero h0
        refine (completionPercentage_exact _ _ hpos hlt).1 ?_
        rcases htie with h | h
        · exact absurd h h0
        · exact h
    have hpend : (totalAssignments w groupId : Int) - (submittedCount w groupId : Int) =
        (progressReference w groupId).pending := by
      rw [hsub, htot]
      rfl
    show Progress.mk _ _ _ _ _ = progressReference w groupId
    rw [hpct, hpend, hsub, htot, hgr]

/-- Witness for C27, Scenario E: four assignments visible to group 7, three submissions, one
of them graded. -/
theorem getGroupProgress_figures_witness :
    ∃ p : Progress, getGroupProgress scenarioE 7 1 = (⟨200, ""⟩, some p) ∧
      p = progressReference scenarioE 7 ∧
      p.total = 4 ∧ p.submitted = 3 ∧ p.graded = 1 ∧ p.pending = 1 ∧
      p.completionPercentage = 75 := by
  obtain ⟨p, hp, ht, hs, hgr, hpend, -, hex, href⟩ :=
    getGroupProgress_figures scenarioE 7 1 scenarioA rfl (by decide) (by decide)
  have ht4 : p.total = 4 := by rw [ht]; decide
  have hs3 : p.submitted = 3 := by rw [hs]; decide
  have hg1 : p.graded = 1 := by rw [hgr]; decide
  refine ⟨p, hp, ?_, ht4, hs3, hg1, ?_, ?_⟩
  · apply href
    · decide
    · rw [hs3]; norm_num
    · right; rw [ht4, hs3]; decide
  · rw [hpend, ht4, hs3]; norm_num
  · have h := (hex (by omega) (by rw [hs3]; norm_num)).1 (by rw [ht4, hs3]; decide)
    rw [h, ht4, hs3, Int.floor_eq_iff]
    constructor <;> norm_num

/-! ## Progress figures in reachable states -/

theorem progressReachable_storeReachable (w : World) (h : ProgressReachable w) :
    StoreReachable w := by
  induction h with
  | empty groups files => exact StoreReachable.empty groups [] files
  | createAssignment w newId title isForAll groupIds _ _ ih =>
    exact StoreReachable.environment w w.groups
      (createAssignment newId w title isForAll groupIds).2.assignments w.files ih
  | submit w newId now userId assignmentId groupId submissionNotes files fresh _ ih =>
    exact StoreReachable.submit w newId now userId assignmentId groupId submissionNotes files
      fresh ih
  | grade w now submissionId reviewerId grade feedback _ ih =>
    exact StoreReachable.grade w now submissionId reviewerId grade feedback ih

theorem gradedCount_le_submittedCount (w : World) (groupId : Nat) :
    gradedCount w groupId ≤ submittedCount w groupId := by
  unfold gradedCount submittedCount
  apply List.countP_mono_left
  intro s _ h
  simp only [Bool.and_eq_true, Bool.or_eq_true] at h ⊢
  exact ⟨h.1, Or.inr h.2⟩

/-- With one record per (assignment, group) pair, a group whose records are all for
assignments visible to it has no more records than visible assignments. -/
theorem submittedCount_le_totalAssignments (w : World) (groupId : Nat)
    (hpair : (w.submissions.map (fun s => (s.assignmentId, s.groupId))).Nodup)
    (hvis : ∀ s ∈ w.submissions, s.groupId = groupId →
      ∃ a ∈ w.assignments, a.id = s.assignmentId ∧ visibleTo groupId a = true) :
    submittedCount w groupId ≤ totalAssignments w groupId := by
  have h1 : submittedCount w groupId ≤
      (w.submissions.filter (fun s => s.groupId == groupId)).length := by
    rw [← List.countP_eq_length_filter]
    unfold submittedCount
    apply List.countP_mono_left
    intro s _ h
    simp only [Bool.and_eq_true] at h
    exact h.1
  have hmapeq : (w.submissions.filter (fun s => s.groupId == groupId)).map
      (fun s => (s.assignmentId, s.groupId)) =
      ((w.submissions.filter (fun s => s.groupId == groupId)).map
        (fun s => s.assignmentId)).map (fun a => (a, groupId)) := by
    rw [List.map_map]
    apply List.map_congr_left
    intro s hs
    have hgid : s.groupId = groupId := by simpa using (List.mem_filter.mp hs).2
    simp [hgid]
  have hnd : ((w.submissions.filter (fun s => s.groupId == groupId)).map
      (fun s => s.assignmentId)).Nodup := by
    apply List.Nodup.of_map (fun a => (a, groupId))
    rw [← hmapeq]
    exact List.Nodup.sublist (List.Sublist.map _ (List.filter_sublist _)) hpair
  have hsub : (w.submissions.filter (fun s => s.groupId == groupId)).map
      (fun s => s.assignmentId) ⊆
      (w.assignments.filter (visibleTo groupId)).map (fun a => a.id) := by
    intro x hx
    obtain ⟨s, hs, rfl⟩ := List.mem_map.mp hx
    obtain ⟨hs1, hs2⟩ := List.mem_filter.mp hs
    obtain ⟨a, ha, hid, hv⟩ := hvis s hs1 (by simpa using hs2)
    exact List.mem_map.mpr ⟨a, List.mem_filter.mpr ⟨ha, hv⟩, hid⟩
  have h2 := (List.subperm_of_subset hnd hsub).length_le
  rw [List.length_map, List.length_map] at h2
  unfold totalAssignments
  rw [List.countP_eq_length_filter]
  omega

/-- C30 (counterexample). The admin creates assignment 1 for everybody and assignment 2
for group 8 only; U1, a member of group 7, submits both for group 7. Group 7 then has
`total = 1`, `submitted = 2`, `pending = -1` and `completionPercentage = 200`. -/
theorem getGroupProgress_out_of_range :
    ProgressReachable overSubmitted ∧
      getGroupProgress overSubmitted 7 1 =
        (⟨200, ""⟩, some
          { total := 1, submitted := 2, graded := 0, pending := -1,
            completionPercentage := 200 }) := by
  constructor
  · exact ProgressReachable.submit _ 202 4 1 2 7 none [] (by decide)
      (ProgressReachable.submit _ 201 3 1 1 7 none [] (by decide)
        (ProgressReachable.createAssignment _ 2 "A2" false (some [8]) (by decide)
          (ProgressReachable.createAssignment _ 1 "A1" true none (by decide)
            (ProgressReachable.empty [scenarioA] []))))
  · have hm : getGroupProgress overSubmitted 7 1 = _ :=
      getGroupProgress_member overSubmitted 7 1 scenarioA rfl (by decide) (by decide)
    have ht : totalAssignments overSubmitted 7 = 1 := by decide
    have hs : submittedCount overSubmitted 7 = 2 := by decide
    have hgr : gradedCount overSubmitted 7 = 0 := by decide
    have hpct : completionPercentage 2 1 = 200 := by
      rw [(completionPercentage_exact 2 1 (by norm_num) (by norm_num)).1 (by decide),
        Int.floor_eq_iff]
      constructor <;> norm_num
    rw [hm, ht, hs, hgr, hpct]
    rfl

/-- C30 (amended). In every state reachable by creating assignments and by sequential
`submitAssignment` and `gradeSubmission` calls, `getGroupProgress` answers a member of the
group with figures in which `graded ≤ submitted` and `completionPercentage ≥ 0`; when
moreover every record of the group is for an assignment that is global or targets the
group, then `submitted ≤ total`, `pending ≥ 0` and `completionPercentage ≤ 100`. -/
theorem getGroupProgress_in_range (w : World) (h : ProgressReachable w) (groupId : Nat)
    (userId : UserId) (group : Group)
    (hg : findGroup w.groups groupId = some group)
    (hnn : ∀ m ∈ group.members, m.userId ≠ none)
    (hmem : ∃ m ∈ group.members, m.userId = some userId) :
    ∃ p : Progress, getGroupProgress w groupId userId = (⟨200, ""⟩, some p) ∧
      p.graded ≤ p.submitted ∧ 0 ≤ p.completionPercentage ∧
      ((∀ s ∈ w.submissions, s.groupId = groupId →
          ∃ a ∈ w.assignments, a.id = s.assignmentId ∧ visibleTo groupId a = true) →
        p.submitted ≤ p.total ∧ 0 ≤ p.pending ∧ p.completionPercentage ≤ 100) := by
  refine ⟨_, getGroupProgress_member w groupId userId group hg hnn hmem,
    gradedCount_le_submittedCount w groupId, completionPercentage_nonneg _ _, ?_⟩
  intro hvis
  have hle := submittedCount_le_totalAssignments w groupId
    (storeReachable_invariant w (progressReachable_storeReachable w h)).2.1 hvis
  refine ⟨hle, ?_, completionPercentage_le_hundred _ _ hle⟩
  show (0 : Int) ≤ (totalAssignments w groupId : Int) - (submittedCount w groupId : Int)
  omega

/-- Witness for C30: the store after assignment 1 was created for everybody and U1
submitted it for group 7. -/
theorem getGroupProgress_in_range_witness :
    ∃ p : Progress,
      getGroupProgress
          (submitAssignment 201 3
            (createAssignment 1
              { groups := [scenarioA], assignments := [], submissions := [], files := [] }
              "A1" true none).2
            1 1 7 none []).2 7 1 = (⟨200, ""⟩, some p) ∧
        p.graded ≤ p.submitted ∧ 0 ≤ p.completionPercentage ∧
        p.submitted ≤ p.total ∧ 0 ≤ p.pending ∧ p.completionPercentage ≤ 100 := by
  obtain ⟨p, hp, h1, h2, h3⟩ :=
    getGroupProgress_in_range _
      (ProgressReachable.submit _ 201 3 1 1 7 none [] (by decide)
        (ProgressReachable.createAssignment _ 1 "A1" true none (by decide)
          (ProgressReachable.empty [scenarioA] [])))
      7 1 scenarioA rfl (by decide) (by decide)
  exact ⟨p, hp, h1, h2, h3 (by decide)⟩

/-! ## Scenario B, one call after the other -/

/-- Run one after the other on the Scenario B group, the second of `approveJoinRequest(U3)`
and `addGroupMember(U4)` is refused with 400 "Group is full" and the group keeps two
members, in either order. -/
theorem scenarioB_sequential :
    ((approveJoinRequest 5 scenarioB 1 3).1 = ⟨200, "Join request approved"⟩ ∧
      (addGroupMember [alice, carol, dave] 6 (approveJoinRequest 5 scenarioB 1 3).2 1
        "dave@uni.edu").1 = ⟨400, "Group is full"⟩ ∧
      (addGroupMember [alice, carol, dave] 6 (approveJoinRequest 5 scenarioB 1 3).2 1
        "dave@uni.edu").2.members.length = 2) ∧
    ((addGroupMember [alice, carol, dave] 5 scenarioB 1 "dave@uni.edu").1 =
        ⟨200, "Member added successfully"⟩ ∧
      (approveJoinRequest 6 (addGroupMember [alice, carol, dave] 5 scenarioB 1
        "dave@uni.edu").2 1 3).1 = ⟨400, "Group is full"⟩ ∧
      (approveJoinRequest 6 (addGroupMember [alice, carol, dave] 5 scenarioB 1
        "dave@uni.edu").2 1 3).2.members.length = 2) := by
  decide

end Assigno
